import Mathlib

/-!
Verification development for the `coup_gto` repository.

This file is a shallow embedding of the game engine
(`coup_gto/engine/actions.py`, `coup_gto/engine/state.py`,
`coup_gto/rules/base.py`) and of the MCCFR solver
(`coup_gto/solver/mccfr.py`), together with theorems about the
legal-action enumeration, the interaction state machine, the infoset
encoding, and the solver's traversal and evaluation loops.

Modelling conventions:
* Python `int` is `Int` (or `Nat` for indices), Python `float` is `ℚ`
  (no control flow in the modelled code distinguishes the two).
* Mutation is modelled by explicit state passing; `assert` failures and
  other runtime errors are modelled with `Except String`.
* The `random.Random` stream owned by a `GameState` is modelled by the
  list of shuffle outcomes it will produce (see `shuffleWith`): every
  run of the Python generator corresponds to one witness stream, and
  all theorems quantify over all streams.  Likewise the solver RNG used
  for sampling is modelled by a stream of sampling witnesses.
-/

namespace CoupGto

/-- Role cards, mirroring `class Role(Enum)` in `engine/actions.py`. -/
inductive Role where
  | DUKE
  | ASSASSIN
  | CAPTAIN
  | AMBASSADOR
  | CONTESSA
deriving DecidableEq, Repr

/-- Python enum `.value` of a role (`"Duke"`, ...); this string is the sort
key used by `GameState._perform_exchange` (`key=lambda r: r.value`). -/
def Role.value : Role → String
  | .DUKE => "Duke"
  | .ASSASSIN => "Assassin"
  | .CAPTAIN => "Captain"
  | .AMBASSADOR => "Ambassador"
  | .CONTESSA => "Contessa"

/-- Python enum `.name` of a role (`"DUKE"`, ...); used by `infoset_key`. -/
def Role.pyName : Role → String
  | .DUKE => "DUKE"
  | .ASSASSIN => "ASSASSIN"
  | .CAPTAIN => "CAPTAIN"
  | .AMBASSADOR => "AMBASSADOR"
  | .CONTESSA => "CONTESSA"

/-- Action tags, mirroring `class ActionType(Enum)` in `engine/actions.py`.
The first ten constructors are the members declared in `actions.py`.

Modelled from the spec: `BLOCK_ASSASSINATE`, `BLOCK_STEAL_CAPTAIN` and
`BLOCK_STEAL_AMBASSADOR` are referenced throughout `engine/state.py` and by
the test suite (`tests/test_assassinate.py`, `tests/test_steal.py`) but are
not declared in `actions.py`; the spec lists them among the response actions
(section 3), so they are added here as plain enum members. -/
inductive ActionType where
  | INCOME
  | FOREIGN_AID
  | COUP
  | TAX
  | ASSASSINATE
  | STEAL
  | EXCHANGE
  | PASS
  | BLOCK_FOREIGN_AID
  | CHALLENGE
  | BLOCK_ASSASSINATE
  | BLOCK_STEAL_CAPTAIN
  | BLOCK_STEAL_AMBASSADOR
deriving DecidableEq, Repr

/-- Python enum `.name` of an action tag; used by `action_key` and
`infoset_key`. -/
def ActionType.pyName : ActionType → String
  | .INCOME => "INCOME"
  | .FOREIGN_AID => "FOREIGN_AID"
  | .COUP => "COUP"
  | .TAX => "TAX"
  | .ASSASSINATE => "ASSASSINATE"
  | .STEAL => "STEAL"
  | .EXCHANGE => "EXCHANGE"
  | .PASS => "PASS"
  | .BLOCK_FOREIGN_AID => "BLOCK_FOREIGN_AID"
  | .CHALLENGE => "CHALLENGE"
  | .BLOCK_ASSASSINATE => "BLOCK_ASSASSINATE"
  | .BLOCK_STEAL_CAPTAIN => "BLOCK_STEAL_CAPTAIN"
  | .BLOCK_STEAL_AMBASSADOR => "BLOCK_STEAL_AMBASSADOR"

/-- `@dataclass(frozen=True) class Action` from `engine/actions.py`. -/
structure Action where
  actor : Nat
  type : ActionType
  target : Option Nat := none
  cost : Int := 0
deriving DecidableEq, Repr

/-- `class BaseRules` from `rules/base.py` (core numeric parameters).  The
dict-valued fields `deck_counts`, `blocks` and `claims` are reference-only in
the source; `deck_counts` is inlined into `full_deck` below. -/
structure BaseRules where
  starting_coins : Int := 2
  cards_per_player : Nat := 2
  coup_cost : Int := 7
  assassinate_cost : Int := 3
  mandatory_coup_threshold : Int := 10
deriving DecidableEq, Repr

/-- `BaseRules.full_deck`: three copies of each role, in the insertion order
of `deck_counts` (DUKE, ASSASSIN, CAPTAIN, AMBASSADOR, CONTESSA). -/
def BaseRules.full_deck (_r : BaseRules) : List Role :=
  List.replicate 3 .DUKE ++ List.replicate 3 .ASSASSIN ++ List.replicate 3 .CAPTAIN
    ++ List.replicate 3 .AMBASSADOR ++ List.replicate 3 .CONTESSA

/-- `@dataclass class PlayerState` from `engine/state.py`. -/
structure PlayerState where
  coins : Int
  hand : List Role := []
  revealed : List Role := []
deriving DecidableEq, Repr

/-- `PlayerState.alive`: `len(self.hand) > 0`. -/
def PlayerState.alive (ps : PlayerState) : Bool :=
  decide (0 < ps.hand.length)

/-- One pass of the shuffle model.  `shuffleGo n ws rest` removes, `n`
times, the element at index `(next witness) mod (remaining length)`.  Every
witness list yields a permutation of the input, and each outcome of
Python's Fisher-Yates `random.Random.shuffle` equals `shuffleGo` for some
witness list, so quantifying over witnesses covers every seed. -/
def shuffleGo : Nat → List Nat → List Role → List Role
  | 0, _, _ => []
  | n + 1, ws, rest =>
    if rest.length = 0 then []
    else
      let i := ws.headD 0 % rest.length
      rest.getD i .DUKE :: shuffleGo n ws.tail (rest.eraseIdx i)

/-- `random.Random.shuffle`, modelled with one witness list (see
`shuffleGo`). -/
def shuffleWith (w : List Nat) (l : List Role) : List Role :=
  shuffleGo l.length w l

/-- Lexicographic string comparison by code points — how Python compares
`str` values — computed on the character lists so that it reduces in the
kernel. -/
def strLeChars : List Char → List Char → Bool
  | [], _ => true
  | _ :: _, [] => false
  | a :: as, b :: bs =>
    if a.val < b.val then true
    else if b.val < a.val then false
    else strLeChars as bs

/-- Python `a <= b` on strings. -/
def pyStrLe (a b : String) : Bool :=
  strLeChars a.data b.data

/-- Insert into an ascending list, before the first element that is not
strictly smaller; used to compute Python's stable `sorted`. -/
def insertSorted (le : Role → Role → Bool) (x : Role) : List Role → List Role
  | [] => [x]
  | y :: ys => if le x y then x :: y :: ys else y :: insertSorted le x ys

/-- Python `sorted` on role lists: the stable ascending sort by a total
preorder is unique, so this insertion sort computes the same list as
Python's Timsort; it is structurally recursive so that it evaluates in the
kernel. -/
def pySorted (le : Role → Role → Bool) : List Role → List Role
  | [] => []
  | x :: xs => insertSorted le x (pySorted le xs)

/-- `@dataclass class GameState` from `engine/state.py`.  The
`random.Random` field is modelled as the list of shuffle witnesses that the
state's RNG will produce, consumed front to back. -/
structure GameState where
  num_players : Nat
  rules : BaseRules := {}
  players : List PlayerState := []
  deck : List Role := []
  current_player : Nat := 0
  rngPerms : List (List Nat) := []
  pending_action : Option Action := none
  pending_blocker : Option Nat := none
  pending_block_role : Option Role := none
  awaiting_response_from : Option Nat := none
  pending_claim_role : Option Role := none
deriving DecidableEq, Repr

/-- `self.players[i]` (Python list indexing; engine reads are in range on
well-formed states, so the default is never observed there). -/
def GameState.playerAt (gs : GameState) (i : Nat) : PlayerState :=
  gs.players.getD i { coins := 0 }

/-- Write back `self.players[i]`. -/
def GameState.setPlayer (gs : GameState) (i : Nat) (ps : PlayerState) : GameState :=
  { gs with players := gs.players.set i ps }

/-- `deck.pop()`: remove and return the last element. -/
def popBack (deck : List Role) : Option (Role × List Role) :=
  match deck.getLast? with
  | none => none
  | some r => some (r, deck.dropLast)

/-- One round of the dealing loop in `GameState._setup`: each player, in
seat order, appends one card popped from the end of the deck. -/
def dealRound : List PlayerState → List Role → List PlayerState × List Role
  | [], deck => ([], deck)
  | p :: rest, deck =>
    match popBack deck with
    | none => (p :: rest, deck)
    | some (c, deck') =>
      let pr := dealRound rest deck'
      ({ p with hand := p.hand ++ [c] } :: pr.1, pr.2)

/-- `cards_per_player` rounds of dealing. -/
def dealCards : Nat → List PlayerState → List Role → List PlayerState × List Role
  | 0, ps, deck => (ps, deck)
  | n + 1, ps, deck =>
    let pr := dealRound ps deck
    dealCards n pr.1 pr.2

/-- `GameState.__init__` plus `GameState._setup`: fresh players with the
starting coins, shuffled full deck, deal, player 0 to move. -/
def GameState.make (num_players : Nat) (rng : List (List Nat)) (rules : BaseRules) : GameState :=
  let players0 : List PlayerState := List.replicate num_players { coins := rules.starting_coins }
  let deck0 := shuffleWith (rng.headD []) rules.full_deck
  let pr := dealCards rules.cards_per_player players0 deck0
  { num_players := num_players
    rules := rules
    players := pr.1
    deck := pr.2
    current_player := 0
    rngPerms := rng.tail }

/-- `GameState.alive_players`. -/
def GameState.alive_players (gs : GameState) : List Nat :=
  (gs.players.enum.filter (fun pr => pr.2.alive)).map Prod.fst

/-- `GameState.winner`: the unique alive player, otherwise `None`. -/
def GameState.winner (gs : GameState) : Option Nat :=
  match gs.alive_players with
  | [a] => some a
  | _ => none

/-- `GameState._default_target`: the nearest alive opponent clockwise from
`current_player` (offsets `range(1, num_players)`). -/
def GameState.default_target (gs : GameState) : Option Nat :=
  ((List.range' 1 (gs.num_players - 1)).map
      (fun off => (gs.current_player + off) % gs.num_players)).find?
    (fun cand => (gs.playerAt cand).alive)

/-- Bounded search used to model the `while` loop of
`GameState.next_player`. -/
def findAliveFrom (gs : GameState) : Nat → Nat → Option Nat
  | 0, _ => none
  | fuel + 1, cand =>
    if (gs.playerAt cand).alive then some cand
    else findAliveFrom gs fuel ((cand + 1) % gs.num_players)

/-- `GameState.next_player`: advance to the next alive player.  The source
loops forever when nobody is alive; that divergence is modelled as an
error, which the invariants below show unreachable. -/
def GameState.next_player_state (gs : GameState) : Except String GameState :=
  match findAliveFrom gs gs.num_players ((gs.current_player + 1) % gs.num_players) with
  | some nxt => .ok { gs with current_player := nxt }
  | none => .error "no alive player"

/-- `GameState._legal_responses`.  The `assert` statements of the source are
modelled as errors. -/
def GameState.legal_responses (gs : GameState) : Except String (List Action) :=
  match gs.pending_action with
  | none => .error "assert pending_action is not None"
  | some pa =>
    match pa.type with
    | .FOREIGN_AID =>
      match gs.pending_blocker with
      | none =>
        match gs.awaiting_response_from with
        | none => .error "assert responder is not None"
        | some responder =>
          .ok [⟨responder, .PASS, none, 0⟩, ⟨responder, .BLOCK_FOREIGN_AID, none, 0⟩]
      | some _ =>
        .ok [⟨pa.actor, .CHALLENGE, none, 0⟩, ⟨pa.actor, .PASS, none, 0⟩]
    | .TAX =>
      match gs.awaiting_response_from with
      | none => .error "assert responder is not None"
      | some responder =>
        .ok [⟨responder, .CHALLENGE, none, 0⟩, ⟨responder, .PASS, none, 0⟩]
    | .EXCHANGE =>
      match gs.awaiting_response_from with
      | none => .error "assert responder is not None"
      | some responder =>
        .ok [⟨responder, .CHALLENGE, none, 0⟩, ⟨responder, .PASS, none, 0⟩]
    | .STEAL =>
      match gs.pending_blocker with
      | none =>
        match gs.awaiting_response_from with
        | none => .error "assert responder is not None"
        | some responder =>
          .ok [⟨responder, .PASS, none, 0⟩, ⟨responder, .BLOCK_STEAL_CAPTAIN, none, 0⟩,
               ⟨responder, .BLOCK_STEAL_AMBASSADOR, none, 0⟩, ⟨responder, .CHALLENGE, none, 0⟩]
      | some _ =>
        .ok [⟨pa.actor, .CHALLENGE, none, 0⟩, ⟨pa.actor, .PASS, none, 0⟩]
    | .ASSASSINATE =>
      match gs.pending_blocker with
      | none =>
        match gs.awaiting_response_from with
        | none => .error "assert responder is not None"
        | some responder =>
          .ok [⟨responder, .PASS, none, 0⟩, ⟨responder, .BLOCK_ASSASSINATE, none, 0⟩,
               ⟨responder, .CHALLENGE, none, 0⟩]
      | some _ =>
        .ok [⟨pa.actor, .CHALLENGE, none, 0⟩, ⟨pa.actor, .PASS, none, 0⟩]
    | _ => .ok []

/-- `GameState.legal_actions`. -/
def GameState.legal_actions (gs : GameState) : Except String (List Action) :=
  if gs.winner ≠ none then .ok []
  else
    match gs.pending_action with
    | some _ => gs.legal_responses
    | none =>
      let actor := gs.current_player
      let ps := gs.playerAt actor
      if gs.rules.mandatory_coup_threshold ≤ ps.coins then
        .ok [⟨actor, .COUP, gs.default_target, 0⟩]
      else
        .ok ([⟨actor, .INCOME, none, 0⟩, ⟨actor, .FOREIGN_AID, none, 0⟩,
              ⟨actor, .TAX, none, 0⟩, ⟨actor, .EXCHANGE, none, 0⟩]
          ++ (if some actor ≠ gs.default_target then [⟨actor, .STEAL, gs.default_target, 0⟩] else [])
          ++ (if gs.rules.assassinate_cost ≤ ps.coins then [⟨actor, .ASSASSINATE, gs.default_target, 0⟩] else [])
          ++ (if gs.rules.coup_cost ≤ ps.coins then [⟨actor, .COUP, gs.default_target, 0⟩] else []))

/-- `GameState._player_has_role`. -/
def GameState.player_has_role (gs : GameState) (pid : Nat) (role : Role) : Bool :=
  (gs.playerAt pid).hand.contains role

/-- `GameState._lose_influence`: pop the first card of the hand (if any)
onto the reveal pile. -/
def GameState.lose_influence (gs : GameState) (pid : Nat) : GameState :=
  let ps := gs.playerAt pid
  match ps.hand with
  | [] => gs
  | lost :: rest =>
    gs.setPlayer pid { ps with hand := rest, revealed := ps.revealed ++ [lost] }

/-- `GameState._truthful_reveal`: remove the role from the hand, return it
to the deck, shuffle, and draw the new top (end) card if the deck is
non-empty. -/
def GameState.truthful_reveal (gs : GameState) (pid : Nat) (role : Role) : Except String GameState :=
  let ps := gs.playerAt pid
  if ps.hand.contains role then
    let hand1 := ps.hand.erase role
    let deck2 := shuffleWith (gs.rngPerms.headD []) (gs.deck ++ [role])
    match popBack deck2 with
    | some (c, deck3) =>
      .ok { (gs.setPlayer pid { ps with hand := hand1 ++ [c] }) with
        deck := deck3
        rngPerms := gs.rngPerms.tail }
    | none =>
      .ok { (gs.setPlayer pid { ps with hand := hand1 }) with
        deck := deck2
        rngPerms := gs.rngPerms.tail }
  else .error "Cannot truthfully reveal a role not in hand"

/-- `GameState._clear_pending`. -/
def GameState.clear_pending (gs : GameState) : GameState :=
  { gs with
    pending_action := none
    pending_blocker := none
    pending_block_role := none
    awaiting_response_from := none
    pending_claim_role := none }

/-- `GameState._perform_exchange`.  Note the `returned` comprehension of the
source: a card of role `r` is returned whenever `r` is not kept at all or
`kept.count(r) < combined.count(r)`; in the latter case every copy of `r`
in `combined` passes the filter. -/
def GameState.perform_exchange (gs : GameState) (actor : Nat) : GameState :=
  let d1 : List Role × List Role :=
    match gs.deck with
    | [] => ([], [])
    | c :: rest => ([c], rest)
  let d2 : List Role × List Role :=
    match d1.2 with
    | [] => (d1.1, d1.2)
    | c :: rest => (d1.1 ++ [c], rest)
  let drawn := d2.1
  let deck2 := d2.2
  let ps := gs.playerAt actor
  let combined := ps.hand ++ drawn
  let keep_n := gs.rules.cards_per_player
  let kept := (pySorted (fun a b => pyStrLe a.value b.value) combined).take keep_n
  let returned := combined.filter
    (fun r => !(kept.contains r) || decide (kept.count r < combined.count r))
  { (gs.setPlayer actor { ps with hand := kept }) with deck := deck2 ++ returned }

/-- `GameState._apply_steal_transfer`: move `min(2, target.coins)` coins
from the target to the actor of the pending steal. -/
def GameState.apply_steal_transfer (gs : GameState) : Except String GameState :=
  match gs.pending_action with
  | none => .error "assert pending steal"
  | some pa =>
    if pa.type = .STEAL then
      match pa.target with
      | none => .error "assert target is not None"
      | some target =>
        let amt := min 2 (gs.playerAt target).coins
        let gs1 := gs.setPlayer target
          { gs.playerAt target with coins := (gs.playerAt target).coins - amt }
        .ok (gs1.setPlayer pa.actor
          { gs1.playerAt pa.actor with coins := (gs1.playerAt pa.actor).coins + amt })
    else .error "assert pending steal"

/-- `GameState._apply_pass`.  Action tags for which the source has no
branch leave the state unchanged (the `if`/`elif` chain has no `else`). -/
def GameState.apply_pass (gs : GameState) (_a : Action) : Except String GameState :=
  match gs.pending_action with
  | none => .error "assert pending_action is not None"
  | some pa =>
    match pa.type with
    | .FOREIGN_AID =>
      match gs.pending_blocker with
      | none =>
        let ps := gs.playerAt pa.actor
        .ok ((gs.setPlayer pa.actor { ps with coins := ps.coins + 2 }).clear_pending)
      | some _ => .ok gs.clear_pending
    | .TAX =>
      let ps := gs.playerAt pa.actor
      .ok ((gs.setPlayer pa.actor { ps with coins := ps.coins + 3 }).clear_pending)
    | .EXCHANGE =>
      .ok ((gs.perform_exchange pa.actor).clear_pending)
    | .STEAL =>
      match gs.pending_blocker with
      | none => do
        let gs1 ← gs.apply_steal_transfer
        .ok gs1.clear_pending
      | some _ => .ok gs.clear_pending
    | .ASSASSINATE =>
      match gs.pending_blocker with
      | none =>
        match pa.target with
        | none => .error "assert target is not None"
        | some target => .ok ((gs.lose_influence target).clear_pending)
      | some _ => .ok gs.clear_pending
    | _ => .ok gs

/-- `GameState._apply_block_foreign_aid`. -/
def GameState.apply_block_foreign_aid (gs : GameState) (a : Action) : Except String GameState :=
  match gs.pending_action with
  | none => .error "assert pending foreign aid"
  | some pa =>
    if pa.type = .FOREIGN_AID then
      if a.actor ≠ pa.actor then
        .ok { gs with
          pending_blocker := some a.actor
          pending_block_role := some .DUKE
          awaiting_response_from := some pa.actor }
      else .error "Actor cannot block own action"
    else .error "assert pending foreign aid"

/-- `GameState._apply_block_assassinate`. -/
def GameState.apply_block_assassinate (gs : GameState) (a : Action) : Except String GameState :=
  match gs.pending_action with
  | none => .error "assert pending assassinate"
  | some pa =>
    if pa.type = .ASSASSINATE then
      if pa.target = some a.actor then
        .ok { gs with
          pending_blocker := some a.actor
          pending_block_role := some .CONTESSA
          awaiting_response_from := some pa.actor }
      else .error "Only target may block assassination"
    else .error "assert pending assassinate"

/-- `GameState._apply_block_steal_captain`. -/
def GameState.apply_block_steal_captain (gs : GameState) (a : Action) : Except String GameState :=
  match gs.pending_action with
  | none => .error "assert pending steal"
  | some pa =>
    if pa.type = .STEAL then
      if pa.target = some a.actor then
        .ok { gs with
          pending_blocker := some a.actor
          pending_block_role := some .CAPTAIN
          awaiting_response_from := some pa.actor }
      else .error "Only target may block steal"
    else .error "assert pending steal"

/-- `GameState._apply_block_steal_ambassador`. -/
def GameState.apply_block_steal_ambassador (gs : GameState) (a : Action) : Except String GameState :=
  match gs.pending_action with
  | none => .error "assert pending steal"
  | some pa =>
    if pa.type = .STEAL then
      if pa.target = some a.actor then
        .ok { gs with
          pending_blocker := some a.actor
          pending_block_role := some .AMBASSADOR
          awaiting_response_from := some pa.actor }
      else .error "Only target may block steal"
    else .error "assert pending steal"

/-- `GameState._apply_challenge`.  Each resolution path mirrors the source;
paths the source leaves without a matching branch keep the state unchanged. -/
def GameState.apply_challenge (gs : GameState) (a : Action) : Except String GameState :=
  match gs.pending_action with
  | none => .error "assert pending_action is not None"
  | some pa =>
    match pa.type with
    | .FOREIGN_AID =>
      match gs.pending_blocker with
      | none => .error "assert pending_blocker is not None"
      | some blocker =>
        if gs.pending_block_role = some .DUKE then
          if gs.player_has_role blocker .DUKE then do
            let gs1 ← gs.truthful_reveal blocker .DUKE
            .ok ((gs1.lose_influence a.actor).clear_pending)
          else
            let gs1 := gs.lose_influence blocker
            let ps := gs1.playerAt pa.actor
            .ok ((gs1.setPlayer pa.actor { ps with coins := ps.coins + 2 }).clear_pending)
        else .error "assert block role is DUKE"
    | .TAX =>
      if gs.player_has_role pa.actor .DUKE then do
        let gs1 ← gs.truthful_reveal pa.actor .DUKE
        let gs2 := gs1.lose_influence a.actor
        let ps := gs2.playerAt pa.actor
        .ok ((gs2.setPlayer pa.actor { ps with coins := ps.coins + 3 }).clear_pending)
      else .ok ((gs.lose_influence pa.actor).clear_pending)
    | .EXCHANGE =>
      if gs.player_has_role pa.actor .AMBASSADOR then do
        let gs1 ← gs.truthful_reveal pa.actor .AMBASSADOR
        let gs2 := gs1.lose_influence a.actor
        .ok ((gs2.perform_exchange pa.actor).clear_pending)
      else .ok ((gs.lose_influence pa.actor).clear_pending)
    | .STEAL =>
      match pa.target with
      | none => .error "assert target is not None"
      | some _target =>
        match gs.pending_blocker with
        | none =>
          if gs.player_has_role pa.actor .CAPTAIN then do
            let gs1 ← gs.truthful_reveal pa.actor .CAPTAIN
            let gs2 := gs1.lose_influence a.actor
            let gs3 ← gs2.apply_steal_transfer
            .ok gs3.clear_pending
          else .ok ((gs.lose_influence pa.actor).clear_pending)
        | some blocker =>
          if gs.pending_block_role = some .CAPTAIN then
            if gs.player_has_role blocker .CAPTAIN then do
              let gs1 ← gs.truthful_reveal blocker .CAPTAIN
              .ok ((gs1.lose_influence a.actor).clear_pending)
            else do
              let gs1 := gs.lose_influence blocker
              let gs2 ← gs1.apply_steal_transfer
              .ok gs2.clear_pending
          else if gs.pending_block_role = some .AMBASSADOR then
            if gs.player_has_role blocker .AMBASSADOR then do
              let gs1 ← gs.truthful_reveal blocker .AMBASSADOR
              .ok ((gs1.lose_influence a.actor).clear_pending)
            else do
              let gs1 := gs.lose_influence blocker
              let gs2 ← gs1.apply_steal_transfer
              .ok gs2.clear_pending
          else .ok gs
    | .ASSASSINATE =>
      match pa.target with
      | none => .error "assert target is not None"
      | some target =>
        match gs.pending_blocker with
        | none =>
          if gs.player_has_role pa.actor .ASSASSIN then do
            let gs1 ← gs.truthful_reveal pa.actor .ASSASSIN
            let gs2 := gs1.lose_influence a.actor
            .ok ((gs2.lose_influence target).clear_pending)
          else .ok ((gs.lose_influence pa.actor).clear_pending)
        | some blocker =>
          if gs.pending_block_role = some .CONTESSA then
            if gs.player_has_role blocker .CONTESSA then do
              let gs1 ← gs.truthful_reveal blocker .CONTESSA
              .ok ((gs1.lose_influence a.actor).clear_pending)
            else
              .ok (((gs.lose_influence blocker).lose_influence target).clear_pending)
          else .error "assert block role is CONTESSA"
    | _ => .ok gs

/-- `GameState._apply_income`. -/
def GameState.apply_income (gs : GameState) (a : Action) : GameState :=
  let ps := gs.playerAt a.actor
  gs.setPlayer a.actor { ps with coins := ps.coins + 1 }

/-- `GameState._apply_coup`. -/
def GameState.apply_coup (gs : GameState) (a : Action) : Except String GameState :=
  match a.target with
  | none => .error "Coup requires a target"
  | some target =>
    let actor_ps := gs.playerAt a.actor
    if gs.rules.coup_cost ≤ actor_ps.coins then
      let gs1 := gs.setPlayer a.actor { actor_ps with coins := actor_ps.coins - gs.rules.coup_cost }
      let target_ps := gs1.playerAt target
      match target_ps.hand with
      | [] => .ok gs1
      | lost :: rest =>
        .ok (gs1.setPlayer target { target_ps with hand := rest, revealed := target_ps.revealed ++ [lost] })
    else .error "Insufficient coins for coup"

/-- `GameState._start_foreign_aid_interaction`. -/
def GameState.start_foreign_aid_interaction (gs : GameState) (a : Action) : GameState :=
  { gs with
    pending_action := some a
    awaiting_response_from := gs.default_target }

/-- `GameState._start_tax_interaction`. -/
def GameState.start_tax_interaction (gs : GameState) (a : Action) : GameState :=
  { gs with
    pending_action := some a
    pending_claim_role := some .DUKE
    awaiting_response_from := gs.default_target }

/-- `GameState._start_assassinate_interaction`: the cost is paid at
declaration and never refunded. -/
def GameState.start_assassinate_interaction (gs : GameState) (a : Action) : Except String GameState :=
  match a.target with
  | none => .error "Assassinate requires a target"
  | some _t =>
    let ps := gs.playerAt a.actor
    if gs.rules.assassinate_cost ≤ ps.coins then
      .ok { (gs.setPlayer a.actor { ps with coins := ps.coins - gs.rules.assassinate_cost }) with
        pending_action := some a
        pending_claim_role := some .ASSASSIN
        awaiting_response_from := a.target }
    else .error "Insufficient coins for assassinate"

/-- `GameState._start_steal_interaction`. -/
def GameState.start_steal_interaction (gs : GameState) (a : Action) : Except String GameState :=
  match a.target with
  | none => .error "Steal requires a target"
  | some _t =>
    .ok { gs with
      pending_action := some a
      pending_claim_role := some .CAPTAIN
      awaiting_response_from := a.target }

/-- `GameState._start_exchange_interaction`. -/
def GameState.start_exchange_interaction (gs : GameState) (a : Action) : GameState :=
  { gs with
    pending_action := some a
    pending_claim_role := some .AMBASSADOR
    awaiting_response_from := gs.default_target }

/-- The `if`/`elif` dispatch in the body of `GameState.apply`. -/
def GameState.applyDispatch (gs : GameState) (a : Action) : Except String GameState :=
  match a.type with
  | .INCOME => .ok (gs.apply_income a)
  | .FOREIGN_AID => .ok (gs.start_foreign_aid_interaction a)
  | .COUP => gs.apply_coup a
  | .PASS => gs.apply_pass a
  | .BLOCK_FOREIGN_AID => gs.apply_block_foreign_aid a
  | .BLOCK_ASSASSINATE => gs.apply_block_assassinate a
  | .BLOCK_STEAL_CAPTAIN => gs.apply_block_steal_captain a
  | .BLOCK_STEAL_AMBASSADOR => gs.apply_block_steal_ambassador a
  | .CHALLENGE => gs.apply_challenge a
  | .TAX => .ok (gs.start_tax_interaction a)
  | .EXCHANGE => .ok (gs.start_exchange_interaction a)
  | .STEAL => gs.start_steal_interaction a
  | .ASSASSINATE => gs.start_assassinate_interaction a

/-- `GameState.apply`: legality check, the actor check for primary actions,
the dispatch, and the turn advancement. -/
def GameState.apply (gs : GameState) (a : Action) : Except String GameState := do
  let legal ← gs.legal_actions
  if a ∈ legal then
    if gs.pending_action = none ∧ a.actor ≠ gs.current_player then
      .error "Not this player's turn"
    else do
      let gs1 ← gs.applyDispatch a
      if gs1.winner = none ∧ gs1.pending_action = none ∧ gs1.awaiting_response_from = none then
        gs1.next_player_state
      else .ok gs1
  else .error "Illegal action"

/-- `insertSorted` for strings. -/
def insertSortedStr (x : String) : List String → List String
  | [] => [x]
  | y :: ys => if pyStrLe x y then x :: y :: ys else y :: insertSortedStr x ys

/-- `action_key` from `solver/mccfr.py`: `"TYPE:target_or_-"`. -/
def action_key (a : Action) : String :=
  a.type.pyName ++ ":" ++ (match a.target with | none => "-" | some t => toString t)

/-- Python `sorted` on a list of strings (stable ascending sort; the result
of a stable sort by a total order is unique, so this insertion sort
computes the same list as Python's sort). -/
def sortedStrings : List String → List String
  | [] => []
  | x :: xs => insertSortedStr x (sortedStrings xs)

/-- Render an optional player index the way the source interpolates it
(`"None"` or the decimal index). -/
def optNatStr : Option Nat → String
  | none => "None"
  | some n => toString n

/-- `infoset_key` from `solver/mccfr.py`: public state (current player,
both players' coins, both sorted reveal piles, the pending-interaction
summary) followed by the perspective player's sorted hand. -/
def infoset_key (gs : GameState) (player : Nat) : String :=
  let pub : List String :=
    [toString gs.current_player,
     "c:" ++ toString (gs.playerAt 0).coins ++ "," ++ toString (gs.playerAt 1).coins,
     "r0:" ++ String.intercalate "," (sortedStrings ((gs.playerAt 0).revealed.map Role.pyName)),
     "r1:" ++ String.intercalate "," (sortedStrings ((gs.playerAt 1).revealed.map Role.pyName)),
     (match gs.pending_action with
      | none => "pa:None"
      | some pa =>
        "pa:" ++ pa.type.pyName ++ ":" ++ toString pa.actor ++ ":" ++
          (match pa.target with | none => "-1" | some t => toString t)),
     "pr:" ++ (match gs.pending_block_role with | none => "None" | some r => r.pyName),
     "pb:" ++ optNatStr gs.pending_blocker,
     "ar:" ++ optNatStr gs.awaiting_response_from,
     "cr:" ++ (match gs.pending_claim_role with | none => "None" | some r => r.pyName)]
  let parts : List String :=
    [String.intercalate "|" pub,
     "h:" ++ String.intercalate "," (sortedStrings ((gs.playerAt player).hand.map Role.pyName))]
  String.intercalate "||" parts

/-- Lookup in a Python `dict` modelled as an insertion-ordered association
list. -/
def dictFind {α : Type} (m : List (String × α)) (k : String) : Option α :=
  match m.find? (fun p => p.1 == k) with
  | some p => some p.2
  | none => none

/-- Write `d[k] = v` in a Python `dict`: replace in place when the key is
present, append otherwise (Python dicts preserve insertion order). -/
def dictSet {α : Type} (m : List (String × α)) (k : String) (v : α) : List (String × α) :=
  if (m.find? (fun p => p.1 == k)).isSome then
    m.map (fun p => if p.1 == k then (k, v) else p)
  else m ++ [(k, v)]

/-- Lookup in a Python `Dict[str, float]`, with default `0.0`
(`d.get(k, 0.0)`). -/
def mapGetQ (m : List (String × ℚ)) (k : String) : ℚ :=
  (dictFind m k).getD 0

/-- Write `d[k] = v` in a Python `Dict[str, float]`. -/
def mapSetQ (m : List (String × ℚ)) (k : String) (v : ℚ) : List (String × ℚ) :=
  dictSet m k v

/-- `class NodeStats` from `solver/mccfr.py`; Python `float` is modelled
with `ℚ`. -/
structure NodeStats where
  regret_sum : List (String × ℚ) := []
  strategy_sum : List (String × ℚ) := []
deriving DecidableEq, Repr

/-- A freshly constructed `NodeStats()`. -/
def emptyNode : NodeStats := {}

/-- `NodeStats.get_strategy`: regret matching over the positive regrets,
plus the in-place average-strategy accumulation (performed only for a
positive realization weight and a non-empty legal list). -/
def NodeStats.get_strategy (n : NodeStats) (legal : List Action) (realization_weight : ℚ) :
    List ℚ × NodeStats :=
  let regrets := legal.map (fun a => max 0 (mapGetQ n.regret_sum (action_key a)))
  let normalizer := regrets.sum
  let strategy :=
    if normalizer ≤ 0 then
      (if legal.isEmpty then [] else List.replicate legal.length (1 / (legal.length : ℚ)))
    else regrets.map (fun r => r / normalizer)
  let ssum :=
    (List.zip strategy legal).foldl
      (fun acc pa =>
        mapSetQ acc (action_key pa.2) (mapGetQ acc (action_key pa.2) + realization_weight * pa.1))
      n.strategy_sum
  let n' :=
    if 0 < realization_weight ∧ ¬legal.isEmpty then { n with strategy_sum := ssum }
    else n
  (strategy, n')

/-- `NodeStats.get_average_strategy`. -/
def NodeStats.get_average_strategy (n : NodeStats) (legal : List Action) : List ℚ :=
  if legal.isEmpty then []
  else
    let vals := legal.map (fun a => mapGetQ n.strategy_sum (action_key a))
    let s := vals.sum
    if s ≤ 1 / 1000000000000 then List.replicate legal.length (1 / (legal.length : ℚ))
    else vals.map (fun v => v / s)

/-- Lookup in the solver's `self.nodes` dict. -/
def nodesFind (nodes : List (String × NodeStats)) (k : String) : Option NodeStats :=
  dictFind nodes k

/-- Write `self.nodes[k] = v`. -/
def nodesSet (nodes : List (String × NodeStats)) (k : String) (v : NodeStats) :
    List (String × NodeStats) :=
  dictSet nodes k v

/-- `self.nodes.setdefault(key, NodeStats())`: insert a fresh node when the
key is absent. -/
def nodesSetdefault (nodes : List (String × NodeStats)) (k : String) :
    List (String × NodeStats) :=
  if (dictFind nodes k).isSome then nodes else nodes ++ [(k, emptyNode)]

/-- Whether the solver's node table has an entry for a key. -/
def nodesContains (nodes : List (String × NodeStats)) (k : String) : Bool :=
  (dictFind nodes k).isSome

/-- The traversal-time mutable solver state: the node table and the stream
of sampling witnesses standing in for the solver's seeded RNG. -/
structure TravState where
  nodes : List (String × NodeStats)
  choices : List Nat
deriving DecidableEq, Repr

/-- `MCCFRSolver._sample_from_dist`: the source draws `r` in `[0, 1)` and
returns the first index whose cumulative probability reaches `r`, falling
back to the last index, so for a non-empty distribution every draw yields
an in-range index.  The draw is modelled by a witness reduced modulo the
length. -/
def sample_from_dist (choice : Nat) (dist : List ℚ) : Nat :=
  choice % dist.length

/-- Modelled from the spec: `MCCFRSolver._clone_and_apply` calls
`GameState.clone`, but `engine/state.py` defines no `clone` method (only
this caller and the spec mention it).  Spec section 5 requires a deep copy
of players, deck, pending fields and RNG state; on this pure-value
embedding the deep copy of a state is the state value itself, which shares
no mutable parts with its origin. -/
def GameState.clone (gs : GameState) : GameState := gs

/-- `MCCFRSolver._clone_and_apply`: clone, then apply. -/
def clone_and_apply (gs : GameState) (a : Action) : Except String GameState :=
  gs.clone.apply a

/-- `MCCFRSolver._mccfr_traverse`.  The extra `fuel` argument makes the
recursion structural; callers pass `fuel ≥ max_depth - depth + 1`, so the
fuel case never fires (the source bounds recursion with the depth cap).
The `for i, a in enumerate(legal)` loop of the full-branch mode is the
`foldlM`, collecting the child utilities in order. -/
def mccfr_traverse (max_depth : Nat) (mode : String) :
    Nat → GameState → Nat → ℚ → ℚ → Nat → TravState → Except String (ℚ × TravState)
  | fuel, gs, updating_player, reach_prob_other, reach_prob_updating, depth, ts =>
    if max_depth ≤ depth then .ok (0, ts)
    else if gs.winner ≠ none then
      .ok ((if gs.winner = some updating_player then 1 else -1 : ℚ), ts)
    else
      match fuel with
      | 0 => .error "out of fuel"
      | fuel' + 1 => do
          let current := gs.current_player
          let legal ← gs.legal_actions
          let key := infoset_key gs current
          let nodes0 := nodesSetdefault ts.nodes key
          let node := (nodesFind nodes0 key).getD emptyNode
          if current = updating_player then
            let sp := node.get_strategy legal reach_prob_updating
            let strategy := sp.1
            let ts1 : TravState := { nodes := nodesSet nodes0 key sp.2, choices := ts.choices }
            if mode = "full" then do
              let r ← (List.zip legal strategy).foldlM
                (fun (acc : List ℚ × TravState) ap => do
                  let gs2 ← clone_and_apply gs ap.1
                  let rr ← mccfr_traverse max_depth mode fuel' gs2 updating_player
                    reach_prob_other (reach_prob_updating * ap.2) (depth + 1) acc.2
                  pure (acc.1 ++ [rr.1], rr.2))
                (([] : List ℚ), ts1)
              let action_utils := r.1
              let node_utility := (List.zip strategy action_utils).foldl
                (fun acc pu => acc + pu.1 * pu.2) 0
              let node2 := (nodesFind r.2.nodes key).getD emptyNode
              let rs' := (List.zip legal action_utils).foldl
                (fun acc au =>
                  mapSetQ acc (action_key au.1)
                    (mapGetQ acc (action_key au.1) + reach_prob_other * (au.2 - node_utility)))
                node2.regret_sum
              let ts3 : TravState :=
                { r.2 with nodes := nodesSet r.2.nodes key { node2 with regret_sum := rs' } }
              .ok (node_utility, ts3)
            else
              match legal with
              | [] => .error "list index out of range"
              | _ :: _ =>
                let c := ts1.choices.headD 0
                let ts2 : TravState := { ts1 with choices := ts1.choices.tail }
                let idx := sample_from_dist c strategy
                let a := legal.getD idx ⟨0, .PASS, none, 0⟩
                let gs2 ← clone_and_apply gs a
                let r ← mccfr_traverse max_depth mode fuel' gs2 updating_player
                  reach_prob_other (reach_prob_updating * strategy.getD idx 0) (depth + 1) ts2
                let u := r.1
                let node_utility := u
                let p_s := max (1 / 1000000000000) (strategy.getD idx 0)
                let k := action_key a
                let node2 := (nodesFind r.2.nodes key).getD emptyNode
                let rs' := mapSetQ node2.regret_sum k
                  (mapGetQ node2.regret_sum k + (reach_prob_other / p_s) * (u - node_utility))
                let ts4 : TravState :=
                  { r.2 with nodes := nodesSet r.2.nodes key { node2 with regret_sum := rs' } }
                .ok (node_utility, ts4)
          else
            let sp := node.get_strategy legal reach_prob_other
            let strategy := sp.1
            let ts1 : TravState := { nodes := nodesSet nodes0 key sp.2, choices := ts.choices }
            match legal with
            | [] => .error "list index out of range"
            | _ :: _ =>
              let c := ts1.choices.headD 0
              let ts2 : TravState := { ts1 with choices := ts1.choices.tail }
              let idx := sample_from_dist c strategy
              let a := legal.getD idx ⟨0, .PASS, none, 0⟩
              let gs2 ← clone_and_apply gs a
              mccfr_traverse max_depth mode fuel' gs2 updating_player
                (reach_prob_other * strategy.getD idx 0) reach_prob_updating (depth + 1) ts2
termination_by structural fuel => fuel

/-- `MCCFRSolver.iterate` with a caller-supplied `game_seed`: for each
iteration, one traversal per updating player, each on a freshly
constructed state from the same seed (hence the same witness stream). -/
def solver_iterate (max_depth : Nat) (mode : String) (gameRng : List (List Nat)) :
    Nat → TravState → Except String TravState
  | 0, ts => .ok ts
  | n + 1, ts => do
    let gs0 := GameState.make 2 gameRng {}
    let r0 ← mccfr_traverse max_depth mode (max_depth + 1) gs0 0 1 1 0 ts
    let gs1 := GameState.make 2 gameRng {}
    let r1 ← mccfr_traverse max_depth mode (max_depth + 1) gs1 1 1 1 0 r0.2
    solver_iterate max_depth mode gameRng n r1.2

/-- `MCCFRSolver.action_probabilities`: average strategy when present and
positive, otherwise the current regret-matching strategy.  The
`get_strategy` call uses realization weight `0.0` and therefore leaves the
node unchanged, so only the `setdefault` insertion is observable in the
table. -/
def action_probabilities (nodes : List (String × NodeStats)) (gs : GameState) :
    Except String (List (Action × ℚ) × List (String × NodeStats)) := do
  let legal ← gs.legal_actions
  let key := infoset_key gs gs.current_player
  let nodes0 := nodesSetdefault nodes key
  let node := (nodesFind nodes0 key).getD emptyNode
  let avg := node.get_average_strategy legal
  if ¬avg.isEmpty ∧ 0 < avg.sum then
    .ok (List.zip legal avg, nodes0)
  else
    let sp := node.get_strategy legal 0
    .ok (List.zip legal sp.1, nodes0)

/-- The inner `while` loop of `MCCFRSolver.evaluate`: play sampled actions
until a winner exists or `max_depth` steps were taken; an empty action list
breaks the loop.  The `fuel` argument makes the recursion structural;
callers pass `fuel = max_depth`, which the loop condition never exhausts. -/
def eval_rollout (max_depth : Nat) :
    Nat → Nat → GameState → List (String × NodeStats) → List Nat →
    Except String (GameState × (List (String × NodeStats)) × List Nat)
  | fuel, steps, gs, nodes, choices =>
    if gs.winner = none ∧ steps < max_depth then
      match fuel with
      | 0 => .error "out of fuel"
      | fuel' + 1 => do
        let r ← action_probabilities nodes gs
        let acts := r.1
        if acts.isEmpty then .ok (gs, r.2, choices)
        else
          let c := choices.headD 0
          let idx := sample_from_dist c (acts.map Prod.snd)
          let aPicked := (acts.map Prod.fst).getD idx ⟨0, .PASS, none, 0⟩
          let gs1 ← gs.apply aPicked
          eval_rollout max_depth fuel' (steps + 1) gs1 r.2 choices.tail
    else .ok (gs, nodes, choices)

/-- The episode loop of `MCCFRSolver.evaluate`, accumulating
`total += 1.0 if w == 0 else -1.0` (Python `None == 0` is false, so an
episode capped without a winner also contributes `-1`). -/
def evaluate_go (max_depth : Nat) :
    Nat → List (List (List Nat)) → List Nat → List (String × NodeStats) → ℚ →
    Except String (ℚ × List (String × NodeStats))
  | 0, _, _, nodes, total => .ok (total, nodes)
  | n + 1, gameRngs, choices, nodes, total => do
    let gs := GameState.make 2 (gameRngs.headD []) {}
    let r ← eval_rollout max_depth max_depth 0 gs nodes choices
    let score : ℚ := if r.1.winner = some 0 then 1 else -1
    evaluate_go max_depth n gameRngs.tail r.2.2 r.2.1 (total + score)

/-- `MCCFRSolver.evaluate`: run the episodes and return
`total / max(1, episodes)`.  The per-episode engine RNGs (seeded from
`random.Random(seed)`) are modelled by the list of witness streams, and the
solver-RNG sampling draws by the `choices` stream. -/
def solver_evaluate (max_depth : Nat) (nodes : List (String × NodeStats)) (episodes : Nat)
    (gameRngs : List (List (List Nat))) (choices : List Nat) : Except String ℚ := do
  let r ← evaluate_go max_depth episodes gameRngs choices nodes 0
  .ok (r.1 / ((max 1 episodes : Nat) : ℚ))

/-- Specification-side score of a finished or capped evaluation episode:
the mean-utility clause of the spec assigns `+1` to a player-0 win and `-1`
to a player-0 loss. -/
def episode_score (gs : GameState) : ℚ :=
  if gs.winner = some 0 then 1 else -1

/-- Total census of a role across all hands, all reveal piles and the
deck; the spec requires it to equal `3` in every reachable state. -/
def roleCensus (gs : GameState) (r : Role) : Nat :=
  (gs.players.map (fun p => p.hand.count r + p.revealed.count r)).sum + gs.deck.count r

/-- Both players of a two-player state are alive. -/
def bothAlive (gs : GameState) : Prop :=
  (gs.playerAt 0).alive = true ∧ (gs.playerAt 1).alive = true

/-- Well-formedness of the pending-interaction block of a two-player state,
as established by the `_start_*_interaction` and `_apply_block_*` writers. -/
def pendingWF (gs : GameState) (pa : Action) : Prop :=
  pa.actor = gs.current_player ∧
  (pa.type = .FOREIGN_AID ∨ pa.type = .TAX ∨ pa.type = .EXCHANGE ∨
    pa.type = .STEAL ∨ pa.type = .ASSASSINATE) ∧
  ((pa.type = .STEAL ∨ pa.type = .ASSASSINATE) → pa.target = some (1 - pa.actor)) ∧
  (gs.pending_blocker = none → gs.awaiting_response_from = some (1 - pa.actor)) ∧
  (gs.pending_blocker ≠ none →
    gs.pending_blocker = some (1 - pa.actor) ∧
    gs.awaiting_response_from = some pa.actor ∧
    (pa.type = .FOREIGN_AID → gs.pending_block_role = some .DUKE) ∧
    (pa.type = .ASSASSINATE → gs.pending_block_role = some .CONTESSA) ∧
    (pa.type = .STEAL →
      gs.pending_block_role = some .CAPTAIN ∨ gs.pending_block_role = some .AMBASSADOR)) ∧
  bothAlive gs

/-- Invariant maintained by the engine along two-player solver traversals:
seat bookkeeping, default rules, somebody alive, and a well-formed
pending-interaction block. -/
def WF (gs : GameState) : Prop :=
  gs.num_players = 2 ∧ gs.players.length = 2 ∧ gs.current_player < 2 ∧ gs.rules = {} ∧
  ((gs.playerAt 0).alive = true ∨ (gs.playerAt 1).alive = true) ∧
  (match gs.pending_action with
   | none =>
     gs.pending_blocker = none ∧ gs.pending_block_role = none ∧
       gs.awaiting_response_from = none ∧ gs.pending_claim_role = none
   | some pa => pendingWF gs pa)

/-- A shuffle witness under which the fresh two-player deal gives player 0
the hand `[CAPTAIN, CAPTAIN]`, player 1 `[CONTESSA, CONTESSA]`, and leaves
`AMBASSADOR` and `CAPTAIN` as the first two deck cards. -/
def dealWitnessCC : List Nat := [9, 6, 0, 0, 0, 0, 0, 0, 2, 2, 2, 2, 0, 1, 0]

/-- The fresh state dealt by `dealWitnessCC`. -/
def stateCC : GameState := GameState.make 2 [dealWitnessCC] {}

/-- `stateCC` after player 0 declares Exchange. -/
def stateCCExchange : GameState :=
  match stateCC.apply ⟨0, .EXCHANGE, none, 0⟩ with
  | .ok s => s
  | .error _ => stateCC

/-- `stateCCExchange` after player 1 passes (the Exchange then executes). -/
def stateCCExchangePass : GameState :=
  match stateCCExchange.apply ⟨1, .PASS, none, 0⟩ with
  | .ok s => s
  | .error _ => stateCC

/-- `stateCC` after player 0 declares Steal: a pending interaction whose
awaited responder is player 1 while `current_player` is still 0. -/
def stateCCSteal : GameState :=
  match stateCC.apply ⟨0, .STEAL, some 1, 0⟩ with
  | .ok s => s
  | .error _ => stateCC

/-- `stateCCSteal` after the awaited responder (player 1) passes: the steal
resolves and the turn advances. -/
def stateCCStealPass : GameState :=
  match stateCCSteal.apply ⟨1, .PASS, none, 0⟩ with
  | .ok s => s
  | .error _ => stateCC

/-- `stateCC` with player 0's coins raised to the mandatory-coup threshold. -/
def stateCCRich : GameState :=
  { stateCC with players := [{ stateCC.playerAt 0 with coins := 10 }, stateCC.playerAt 1] }

/-- `stateCC` with player 0's coins set to exactly the assassinate cost. -/
def stateCCPoor3 : GameState :=
  { stateCC with players := [{ stateCC.playerAt 0 with coins := 3 }, stateCC.playerAt 1] }

/-- `stateCC` with a different deck order and a different hand for player 1
(player 0's view is unchanged); used to exercise the infoset encoding. -/
def stateCCHidden : GameState :=
  { stateCC with
    players := [stateCC.playerAt 0, { stateCC.playerAt 1 with hand := [.DUKE, .DUKE] }]
    deck := stateCC.deck.reverse }

/-- `stateCCPoor3` after player 0 declares Assassinate (a pending
Assassinate interaction with no block declared). -/
def stateCCAssn : GameState :=
  match stateCCPoor3.apply ⟨0, .ASSASSINATE, some 1, 0⟩ with
  | .ok s => s
  | .error _ => stateCC

/-- `stateCC` after player 0 declares Foreign Aid (a pending Foreign-Aid
interaction with no block declared). -/
def stateCCFA : GameState :=
  match stateCC.apply ⟨0, .FOREIGN_AID, none, 0⟩ with
  | .ok s => s
  | .error _ => stateCC

/-- A family of two-player start states under default rules with player 0 to
move: player 0 holds `c` coins and the two cards `h0, h0p`, player 1 holds
`pc` coins and `r1 :: t1`; no interaction is pending. -/
def assassinStart (c pc : Int) (h0 h0p r1 : Role) (t1 rev0 rev1 d : List Role)
    (rng : List (List Nat)) (pbr pcr : Option Role) (arf : Option Nat) : GameState :=
  { num_players := 2
    rules := {}
    players := [{ coins := c, hand := [h0, h0p], revealed := rev0 },
                { coins := pc, hand := r1 :: t1, revealed := rev1 }]
    deck := d
    current_player := 0
    rngPerms := rng
    pending_action := none
    pending_blocker := none
    pending_block_role := pbr
    awaiting_response_from := arf
    pending_claim_role := pcr }

/-- Decidable equality of `Except` results, used to evaluate the embedded
code on concrete inputs. -/
instance {ε α : Type} [DecidableEq ε] [DecidableEq α] : DecidableEq (Except ε α) := fun x y =>
  match x, y with
  | .error a, .error b =>
    if h : a = b then .isTrue (by rw [h]) else .isFalse (fun hc => by cases hc; exact h rfl)
  | .error _, .ok _ => .isFalse (fun hc => by cases hc)
  | .ok _, .error _ => .isFalse (fun hc => by cases hc)
  | .ok a, .ok b =>
    if h : a = b then .isTrue (by rw [h]) else .isFalse (fun hc => by cases hc; exact h rfl)

/-- Reduction of an `Except` bind on a success value. -/
theorem exceptBind_ok {α β : Type} (a : α) (f : α → Except String β) :
    (Except.ok a >>= f : Except String β) = f a := rfl

/-- Reduction of an `Except` bind on an error value. -/
theorem exceptBind_error {α β : Type} (e : String) (f : α → Except String β) :
    (Except.error e >>= f : Except String β) = .error e := rfl

/-- In-place replacement at a key, looked up at that key. -/
theorem find?_replace_self {α : Type} (m : List (String × α)) (k0 : String) (v : α) :
    (m.map (fun p => if p.1 == k0 then (k0, v) else p)).find? (fun p => p.1 == k0) =
      (m.find? (fun p => p.1 == k0)).map (fun _ => (k0, v)) := by
  induction m with
  | nil => rfl
  | cons hd tl ih =>
    simp only [List.map_cons]
    by_cases h : hd.1 = k0
    · rw [if_pos (by simpa using h)]
      rw [List.find?_cons_of_pos _ (by simp), List.find?_cons_of_pos _ (by simpa using h)]
      simp
    · rw [if_neg (by simpa using h)]
      rw [List.find?_cons_of_neg _ (by simpa using h), List.find?_cons_of_neg _ (by simpa using h)]
      exact ih

/-- In-place replacement at a key, looked up at a different key. -/
theorem find?_replace_other {α : Type} (m : List (String × α)) (k0 k : String) (v : α)
    (hk : k ≠ k0) :
    (m.map (fun p => if p.1 == k0 then (k0, v) else p)).find? (fun p => p.1 == k) =
      m.find? (fun p => p.1 == k) := by
  induction m with
  | nil => rfl
  | cons hd tl ih =>
    simp only [List.map_cons]
    by_cases h : hd.1 = k0
    · rw [if_pos (by simpa using h)]
      rw [List.find?_cons_of_neg _ (by simp [Ne.symm hk]),
        List.find?_cons_of_neg _ (by simp [h, Ne.symm hk])]
      exact ih
    · rw [if_neg (by simpa using h)]
      by_cases h2 : hd.1 = k
      · rw [List.find?_cons_of_pos _ (by simpa using h2),
          List.find?_cons_of_pos _ (by simpa using h2)]
      · rw [List.find?_cons_of_neg _ (by simpa using h2),
          List.find?_cons_of_neg _ (by simpa using h2)]
        exact ih

/-- Characterization of lookups after a dict write. -/
theorem dictFind_set {α : Type} (m : List (String × α)) (k0 : String) (v : α) (k : String) :
    dictFind (dictSet m k0 v) k = if k = k0 then some v else dictFind m k := by
  unfold dictSet
  by_cases hp : (m.find? (fun p => p.1 == k0)).isSome
  · rw [if_pos hp]
    by_cases hk : k = k0
    · subst hk
      unfold dictFind
      rw [find?_replace_self]
      obtain ⟨x, hx⟩ := Option.isSome_iff_exists.mp hp
      rw [hx]
      simp
    · unfold dictFind
      rw [find?_replace_other m k0 k v hk]
      simp [hk]
  · rw [if_neg hp]
    unfold dictFind
    rw [List.find?_append]
    by_cases hk : k = k0
    · subst hk
      rw [Option.not_isSome_iff_eq_none.mp hp]
      simp
    · have h1 : ([(k0, v)].find? (fun p => p.1 == k)) = none := by
        simp [Ne.symm hk]
      rw [h1]
      simp [hk]

/-- Characterization of lookups after a `setdefault`. -/
theorem nodesFind_setdefault (nodes : List (String × NodeStats)) (k0 k : String) :
    nodesFind (nodesSetdefault nodes k0) k =
      if k = k0 then some ((nodesFind nodes k0).getD emptyNode) else nodesFind nodes k := by
  unfold nodesSetdefault nodesFind
  by_cases hp : (dictFind nodes k0).isSome
  · rw [if_pos hp]
    by_cases hk : k = k0
    · subst hk
      obtain ⟨x, hx⟩ := Option.isSome_iff_exists.mp hp
      simp [hx]
    · simp [hk]
  · rw [if_neg hp]
    have hnone : dictFind nodes k0 = none := Option.not_isSome_iff_eq_none.mp hp
    have hfind : nodes.find? (fun p => p.1 == k0) = none := by
      unfold dictFind at hnone
      cases hx : nodes.find? (fun p => p.1 == k0) with
      | none => rfl
      | some p => rw [hx] at hnone; cases hnone
    unfold dictFind
    rw [List.find?_append]
    by_cases hk : k = k0
    · subst hk
      rw [hfind]
      simp
    · have h1 : ([(k0, emptyNode)].find? (fun p => p.1 == k)) = none := by
        simp [Ne.symm hk]
      rw [h1]
      simp [hk]

/-- Value lookups after a float-dict write. -/
theorem mapGetQ_mapSetQ (m : List (String × ℚ)) (k0 : String) (v : ℚ) (k : String) :
    mapGetQ (mapSetQ m k0 v) k = if k = k0 then v else mapGetQ m k := by
  unfold mapGetQ mapSetQ
  rw [dictFind_set]
  by_cases hk : k = k0 <;> simp [hk]

/-- `get_strategy` only touches `strategy_sum`; the regret map is returned
unchanged. -/
theorem get_strategy_regret_sum (n : NodeStats) (legal : List Action) (w : ℚ) :
    ((n.get_strategy legal w).2).regret_sum = n.regret_sum := by
  simp only [NodeStats.get_strategy]
  split <;> rfl

/-- Inversion of a successful `Except` bind. -/
theorem exceptBind_eq_ok {α β : Type} {x : Except String α} {f : α → Except String β} {b : β}
    (h : (x >>= f) = .ok b) : ∃ a, x = .ok a ∧ f a = .ok b := by
  cases x with
  | error e => rw [exceptBind_error] at h; exact absurd h (by simp)
  | ok a => exact ⟨a, rfl, by rw [exceptBind_ok] at h; exact h⟩

/-- Writing a node whose regret values agree with the stored node leaves
every regret lookup unchanged. -/
theorem regret_nodesSet_preserved (nodes : List (String × NodeStats)) (K : String)
    (v : NodeStats)
    (hv : ∀ k, mapGetQ v.regret_sum k = mapGetQ ((nodesFind nodes K).getD emptyNode).regret_sum k)
    (key k : String) :
    mapGetQ ((nodesFind (nodesSet nodes K v) key).getD emptyNode).regret_sum k =
      mapGetQ ((nodesFind nodes key).getD emptyNode).regret_sum k := by
  by_cases hk : key = K
  · subst hk
    rw [show nodesFind (nodesSet nodes key v) key = some v from by
      unfold nodesFind nodesSet; rw [dictFind_set]; simp]
    simpa using hv k
  · rw [show nodesFind (nodesSet nodes K v) key = nodesFind nodes key from by
      unfold nodesFind nodesSet; rw [dictFind_set]; simp [hk]]

/-- `setdefault` leaves every regret lookup unchanged. -/
theorem regret_setdefault_preserved (nodes : List (String × NodeStats)) (K key k : String) :
    mapGetQ ((nodesFind (nodesSetdefault nodes K) key).getD emptyNode).regret_sum k =
      mapGetQ ((nodesFind nodes key).getD emptyNode).regret_sum k := by
  rw [nodesFind_setdefault]
  by_cases hk : key = K
  · subst hk; simp
  · simp [hk]

/-- Re-writing the stored regret value with itself changes no lookups. -/
theorem mapGetQ_rewrite_self (m : List (String × ℚ)) (k0 k : String) :
    mapGetQ (mapSetQ m k0 (mapGetQ m k0)) k = mapGetQ m k := by
  rw [mapGetQ_mapSetQ]
  by_cases hk : k = k0 <;> simp [hk]

/-- Unfolding of `mccfr_traverse` at exhausted fuel. -/
theorem mccfr_traverse_zero (max_depth : Nat) (mode : String) (gs : GameState)
    (updating_player : Nat) (rO rU : ℚ) (depth : Nat) (ts : TravState) :
    mccfr_traverse max_depth mode 0 gs updating_player rO rU depth ts =
      if max_depth ≤ depth then .ok (0, ts)
      else if gs.winner ≠ none then
        .ok ((if gs.winner = some updating_player then 1 else -1 : ℚ), ts)
      else .error "out of fuel" := rfl

/-- One-step unfolding of `mccfr_traverse` at positive fuel. -/
theorem mccfr_traverse_succ (max_depth : Nat) (mode : String) (fuel' : Nat) (gs : GameState)
    (updating_player : Nat) (reach_prob_other reach_prob_updating : ℚ) (depth : Nat)
    (ts : TravState) :
    mccfr_traverse max_depth mode (fuel' + 1) gs updating_player reach_prob_other
      reach_prob_updating depth ts =
      (if max_depth ≤ depth then .ok (0, ts)
      else if gs.winner ≠ none then
        .ok ((if gs.winner = some updating_player then 1 else -1 : ℚ), ts)
      else do
          let current := gs.current_player
          let legal ← gs.legal_actions
          let key := infoset_key gs current
          let nodes0 := nodesSetdefault ts.nodes key
          let node := (nodesFind nodes0 key).getD emptyNode
          if current = updating_player then
            let sp := node.get_strategy legal reach_prob_updating
            let strategy := sp.1
            let ts1 : TravState := { nodes := nodesSet nodes0 key sp.2, choices := ts.choices }
            if mode = "full" then do
              let r ← (List.zip legal strategy).foldlM
                (fun (acc : List ℚ × TravState) ap => do
                  let gs2 ← clone_and_apply gs ap.1
                  let rr ← mccfr_traverse max_depth mode fuel' gs2 updating_player
                    reach_prob_other (reach_prob_updating * ap.2) (depth + 1) acc.2
                  pure (acc.1 ++ [rr.1], rr.2))
                (([] : List ℚ), ts1)
              let action_utils := r.1
              let node_utility := (List.zip strategy action_utils).foldl
                (fun acc pu => acc + pu.1 * pu.2) 0
              let node2 := (nodesFind r.2.nodes key).getD emptyNode
              let rs' := (List.zip legal action_utils).foldl
                (fun acc au =>
                  mapSetQ acc (action_key au.1)
                    (mapGetQ acc (action_key au.1) + reach_prob_other * (au.2 - node_utility)))
                node2.regret_sum
              let ts3 : TravState :=
                { r.2 with nodes := nodesSet r.2.nodes key { node2 with regret_sum := rs' } }
              .ok (node_utility, ts3)
            else
              match legal with
              | [] => .error "list index out of range"
              | _ :: _ =>
                let c := ts1.choices.headD 0
                let ts2 : TravState := { ts1 with choices := ts1.choices.tail }
                let idx := sample_from_dist c strategy
                let a := legal.getD idx ⟨0, .PASS, none, 0⟩
                let gs2 ← clone_and_apply gs a
                let r ← mccfr_traverse max_depth mode fuel' gs2 updating_player
                  reach_prob_other (reach_prob_updating * strategy.getD idx 0) (depth + 1) ts2
                let u := r.1
                let node_utility := u
                let p_s := max (1 / 1000000000000) (strategy.getD idx 0)
                let k := action_key a
                let node2 := (nodesFind r.2.nodes key).getD emptyNode
                let rs' := mapSetQ node2.regret_sum k
                  (mapGetQ node2.regret_sum k + (reach_prob_other / p_s) * (u - node_utility))
                let ts4 : TravState :=
                  { r.2 with nodes := nodesSet r.2.nodes key { node2 with regret_sum := rs' } }
                .ok (node_utility, ts4)
          else
            let sp := node.get_strategy legal reach_prob_other
            let strategy := sp.1
            let ts1 : TravState := { nodes := nodesSet nodes0 key sp.2, choices := ts.choices }
            match legal with
            | [] => .error "list index out of range"
            | _ :: _ =>
              let c := ts1.choices.headD 0
              let ts2 : TravState := { ts1 with choices := ts1.choices.tail }
              let idx := sample_from_dist c strategy
              let a := legal.getD idx ⟨0, .PASS, none, 0⟩
              let gs2 ← clone_and_apply gs a
              mccfr_traverse max_depth mode fuel' gs2 updating_player
                (reach_prob_other * strategy.getD idx 0) reach_prob_updating (depth + 1) ts2) := rfl

/-- C7: in outcome-sampling ("sampled") mode, the regret update applied at
an updating-player node is `(reach_other / max(eps, p)) * (u - u) = 0`, so
an entire sampled-mode traversal leaves every stored regret value — read
through the dict lookup with default `0.0` — numerically unchanged. -/
theorem c7_sampled_regret_update_is_zero :
    ∀ (fuel md : Nat) (gs : GameState) (up : Nat) (rO rU : ℚ) (depth : Nat)
      (ts : TravState) (u : ℚ) (ts' : TravState),
      mccfr_traverse md "sampled" fuel gs up rO rU depth ts = .ok (u, ts') →
      ∀ (key k : String),
        mapGetQ ((nodesFind ts'.nodes key).getD emptyNode).regret_sum k =
          mapGetQ ((nodesFind ts.nodes key).getD emptyNode).regret_sum k := by
  intro fuel
  induction fuel with
  | zero =>
    intro md gs up rO rU depth ts u ts' h key k
    rw [mccfr_traverse_zero] at h
    by_cases hc : md ≤ depth
    · rw [if_pos hc] at h; cases h; rfl
    · rw [if_neg hc] at h
      cases hw : gs.winner with
      | some w => rw [hw] at h; cases h; rfl
      | none => rw [hw] at h; exact absurd h (by simp)
  | succ f ih =>
    intro md gs up rO rU depth ts u ts' h key k
    rw [mccfr_traverse_succ] at h
    by_cases hc : md ≤ depth
    · rw [if_pos hc] at h; cases h; rfl
    · rw [if_neg hc] at h
      cases hw : gs.winner with
      | some w => rw [hw] at h; cases h; rfl
      | none =>
        rw [hw] at h
        cases hl : gs.legal_actions with
        | error e => rw [hl, exceptBind_error] at h; exact absurd h (by simp)
        | ok legal =>
          rw [hl] at h
          simp only [exceptBind_ok] at h
          by_cases hcu : gs.current_player = up
          · rw [if_pos hcu] at h
            rw [if_neg (by decide : ¬(("sampled" : String) = "full"))] at h
            cases legal with
            | nil => exact absurd h (by simp)
            | cons a0 rest =>
              obtain ⟨gs2, hca, h⟩ := exceptBind_eq_ok h
              obtain ⟨r, hrec, h⟩ := exceptBind_eq_ok h
              cases h
              simp only [sub_self, mul_zero, add_zero]
              rw [regret_nodesSet_preserved _ _ _ (fun k' => mapGetQ_rewrite_self _ _ k') key k]
              rw [ih md gs2 up _ _ _ _ r.1 r.2 hrec key k]
              rw [regret_nodesSet_preserved _ _ _
                (fun k' => by rw [get_strategy_regret_sum]) key k]
              exact regret_setdefault_preserved ts.nodes _ key k
          · rw [if_neg hcu] at h
            cases legal with
            | nil => exact absurd h (by simp)
            | cons a0 rest =>
              obtain ⟨gs2, hca, h⟩ := exceptBind_eq_ok h
              rw [ih md gs2 up _ _ _ _ u ts' h key k]
              rw [regret_nodesSet_preserved _ _ _
                (fun k' => by rw [get_strategy_regret_sum]) key k]
              exact regret_setdefault_preserved ts.nodes _ key k

/-- Key presence after a node write. -/
theorem nodesContains_nodesSet (nodes : List (String × NodeStats)) (K : String) (v : NodeStats)
    (k : String) :
    nodesContains (nodesSet nodes K v) k = if k = K then true else nodesContains nodes k := by
  show (dictFind (dictSet nodes K v) k).isSome = _
  rw [dictFind_set]
  by_cases hk : k = K <;> simp [hk, nodesContains]

/-- Key presence after a `setdefault`. -/
theorem nodesContains_setdefault (nodes : List (String × NodeStats)) (K k : String) :
    nodesContains (nodesSetdefault nodes K) k = if k = K then true else nodesContains nodes k := by
  show (nodesFind (nodesSetdefault nodes K) k).isSome = _
  rw [nodesFind_setdefault]
  by_cases hk : k = K <;> simp [hk, nodesContains, nodesFind]

/-- A traversal never removes node-table entries: every key present before
is present after. -/
theorem mccfr_traverse_mono :
    ∀ (fuel md : Nat) (mode : String) (gs : GameState) (up : Nat) (rO rU : ℚ) (depth : Nat)
      (ts : TravState) (u : ℚ) (ts' : TravState),
      mccfr_traverse md mode fuel gs up rO rU depth ts = .ok (u, ts') →
      ∀ k, nodesContains ts.nodes k = true → nodesContains ts'.nodes k = true := by
  intro fuel
  induction fuel with
  | zero =>
    intro md mode gs up rO rU depth ts u ts' h k hk
    rw [mccfr_traverse_zero] at h
    by_cases hc : md ≤ depth
    · rw [if_pos hc] at h; cases h; exact hk
    · rw [if_neg hc] at h
      by_cases hw : gs.winner ≠ none
      · rw [if_pos hw] at h; cases h; exact hk
      · rw [if_neg hw] at h; exact absurd h (by simp)
  | succ f ih =>
    intro md mode gs up rO rU depth ts u ts' h k hk
    rw [mccfr_traverse_succ] at h
    by_cases hc : md ≤ depth
    · rw [if_pos hc] at h; cases h; exact hk
    · rw [if_neg hc] at h
      by_cases hw : gs.winner ≠ none
      · rw [if_pos hw] at h; cases h; exact hk
      · rw [if_neg hw] at h
        obtain ⟨legal, hl, h⟩ := exceptBind_eq_ok h
        have hk0 : ∀ K v, nodesContains (nodesSet (nodesSetdefault ts.nodes K) K v) k = true := by
          intro K v
          rw [nodesContains_nodesSet]
          by_cases hkK : k = K
          · simp [hkK]
          · rw [if_neg hkK, nodesContains_setdefault, if_neg hkK]; exact hk
        by_cases hcu : gs.current_player = up
        · rw [if_pos hcu] at h
          by_cases hm : mode = "full"
          · rw [if_pos hm] at h
            obtain ⟨r, hfold, h⟩ := exceptBind_eq_ok h
            cases h
            rw [nodesContains_nodesSet]
            by_cases hkK : k = infoset_key gs gs.current_player
            · simp [hkK]
            · rw [if_neg hkK]
              -- key survives the children fold
              have hgen : ∀ (l : List (Action × ℚ)) (acc r : List ℚ × TravState),
                  l.foldlM (fun (acc : List ℚ × TravState) ap => do
                    let gs2 ← clone_and_apply gs ap.1
                    let rr ← mccfr_traverse md mode f gs2 up rO (rU * ap.2) (depth + 1) acc.2
                    pure (acc.1 ++ [rr.1], rr.2)) acc = .ok r →
                  nodesContains acc.2.nodes k = true → nodesContains r.2.nodes k = true := by
                intro l
                induction l with
                | nil =>
                  intro acc r hfl hacc
                  simp only [List.foldlM_nil] at hfl
                  cases hfl
                  exact hacc
                | cons ap rest ihl =>
                  intro acc r hfl hacc
                  rw [List.foldlM_cons] at hfl
                  obtain ⟨acc1, hstep, hfl⟩ := exceptBind_eq_ok hfl
                  obtain ⟨gs2, hca, hstep⟩ := exceptBind_eq_ok hstep
                  obtain ⟨rr, hrr, hstep⟩ := exceptBind_eq_ok hstep
                  cases hstep
                  exact ihl _ r hfl (ih md mode gs2 up rO _ (depth + 1) acc.2 rr.1 rr.2
                    (by exact hrr) k hacc)
              exact hgen _ _ r hfold (hk0 _ _)
          · rw [if_neg hm] at h
            cases legal with
            | nil => exact absurd h (by simp)
            | cons a0 rest =>
              obtain ⟨gs2, hca, h⟩ := exceptBind_eq_ok h
              obtain ⟨r, hrec, h⟩ := exceptBind_eq_ok h
              cases h
              rw [nodesContains_nodesSet]
              by_cases hkK : k = infoset_key gs gs.current_player
              · simp [hkK]
              · rw [if_neg hkK]
                exact ih md mode gs2 up rO _ (depth + 1) _ r.1 r.2 hrec k (hk0 _ _)
        · rw [if_neg hcu] at h
          cases legal with
          | nil => exact absurd h (by simp)
          | cons a0 rest =>
            obtain ⟨gs2, hca, h⟩ := exceptBind_eq_ok h
            exact ih md mode gs2 up _ rU (depth + 1) _ u ts' h k (hk0 _ _)

/-- C4, amended: the decision-maker of a traversal step — the player whose
infoset keys the node lookup and whose identity is compared with
`updating_player` — is always `current_player`, including when a pending
interaction awaits a response from the other player
(`awaiting_response_from` is never consulted): every successful traversal
step below the depth cap creates or keeps the node keyed by
`infoset_key gs gs.current_player`. -/
theorem c4_traversal_keys_current_player (md : Nat) (mode : String) (fuel : Nat)
    (gs : GameState) (up : Nat) (rO rU : ℚ) (depth : Nat) (ts : TravState) (u : ℚ)
    (ts' : TravState) (hdep : depth < md) (hwin : gs.winner = none)
    (h : mccfr_traverse md mode fuel gs up rO rU depth ts = .ok (u, ts')) :
    nodesContains ts'.nodes (infoset_key gs gs.current_player) = true := by
  cases fuel with
  | zero =>
    rw [mccfr_traverse_zero, if_neg (by omega), if_neg (by simp [hwin])] at h
    exact absurd h (by simp)
  | succ f =>
    rw [mccfr_traverse_succ, if_neg (by omega), if_neg (by simp [hwin])] at h
    obtain ⟨legal, hl, h⟩ := exceptBind_eq_ok h
    have hkey : ∀ v, nodesContains
        (nodesSet (nodesSetdefault ts.nodes (infoset_key gs gs.current_player))
          (infoset_key gs gs.current_player) v) (infoset_key gs gs.current_player) = true := by
      intro v
      rw [nodesContains_nodesSet]
      simp
    by_cases hcu : gs.current_player = up
    · rw [if_pos hcu] at h
      by_cases hm : mode = "full"
      · rw [if_pos hm] at h
        obtain ⟨r, hfold, h⟩ := exceptBind_eq_ok h
        cases h
        rw [nodesContains_nodesSet]
        simp
      · rw [if_neg hm] at h
        cases legal with
        | nil => exact absurd h (by simp)
        | cons a0 rest =>
          obtain ⟨gs2, hca, h⟩ := exceptBind_eq_ok h
          obtain ⟨r, hrec, h⟩ := exceptBind_eq_ok h
          cases h
          rw [nodesContains_nodesSet]
          simp
    · rw [if_neg hcu] at h
      cases legal with
      | nil => exact absurd h (by simp)
      | cons a0 rest =>
        obtain ⟨gs2, hca, h⟩ := exceptBind_eq_ok h
        exact mccfr_traverse_mono f md mode gs2 up _ rU (depth + 1) _ u ts' h
          (infoset_key gs gs.current_player) (hkey _)

/-- Concrete evaluation of one sampled traversal step on the pending-Steal
state `stateCCSteal` for `updating_player = 1`: the table ends up holding
exactly the node keyed by player 0's infoset. -/
theorem steal_traverse_eq :
    mccfr_traverse 1 "sampled" 2 stateCCSteal 1 0 1 0 ⟨[], [0]⟩ =
      .ok (0, ⟨[(infoset_key stateCCSteal 0, emptyNode)], []⟩) := by
  have hcur : stateCCSteal.current_player = 0 := by decide
  have hleg : stateCCSteal.legal_actions =
      .ok [⟨1, .PASS, none, 0⟩, ⟨1, .BLOCK_STEAL_CAPTAIN, none, 0⟩,
        ⟨1, .BLOCK_STEAL_AMBASSADOR, none, 0⟩, ⟨1, .CHALLENGE, none, 0⟩] := by decide
  have hsd : nodesSetdefault ([] : List (String × NodeStats)) (infoset_key stateCCSteal 0) =
      [(infoset_key stateCCSteal 0, emptyNode)] := by decide
  have hnf : nodesFind [(infoset_key stateCCSteal 0, emptyNode)] (infoset_key stateCCSteal 0) =
      some emptyNode := by decide
  have hsp2 : ((emptyNode.get_strategy [⟨1, .PASS, none, 0⟩, ⟨1, .BLOCK_STEAL_CAPTAIN, none, 0⟩,
      ⟨1, .BLOCK_STEAL_AMBASSADOR, none, 0⟩, ⟨1, .CHALLENGE, none, 0⟩] 0).2) = emptyNode := by
    simp [NodeStats.get_strategy]
  have hsp1 : ((emptyNode.get_strategy [⟨1, .PASS, none, 0⟩, ⟨1, .BLOCK_STEAL_CAPTAIN, none, 0⟩,
      ⟨1, .BLOCK_STEAL_AMBASSADOR, none, 0⟩, ⟨1, .CHALLENGE, none, 0⟩] 0).1) =
      List.replicate 4 ((1 : ℚ) / 4) := by
    simp [NodeStats.get_strategy, mapGetQ, dictFind, emptyNode]
  have hset : nodesSet [(infoset_key stateCCSteal 0, emptyNode)] (infoset_key stateCCSteal 0)
      emptyNode = [(infoset_key stateCCSteal 0, emptyNode)] := by decide
  have hca : clone_and_apply stateCCSteal ⟨1, .PASS, none, 0⟩ = .ok stateCCStealPass := by decide
  rw [mccfr_traverse_succ, if_neg (by omega), if_neg (by decide)]
  rw [hleg]
  simp only [exceptBind_ok, hcur]
  rw [if_neg (by decide : ¬((0 : Nat) = 1))]
  simp only [hsd, hnf, Option.getD_some, hsp1, hsp2, hset]
  have hidx : sample_from_dist 0 (List.replicate 4 ((1 : ℚ) / 4)) = 0 := by
    simp [sample_from_dist]
  simp only [List.headD_cons, hidx, List.getD, List.get?_cons_zero, Option.getD_some,
    List.tail_cons]
  rw [hca]
  simp only [exceptBind_ok]
  rw [mccfr_traverse_succ, if_pos (by omega)]

/-- Counterexample to C4: on a reachable pending-Steal state with
`current_player = 0` and `awaiting_response_from = some 1`, a traversal for
`updating_player = 1` keys its node lookup by player 0's infoset — not
player 1's — and, comparing `current` (0) with `updating_player` (1),
treats the step as an opponent node even though the awaited responder is
the updating player: the resulting table holds exactly the key of player 0,
and not the key of player 1. -/
theorem c4_counterexample_keying_not_awaiting :
    stateCCSteal.pending_action ≠ none ∧
    stateCCSteal.current_player = 0 ∧
    stateCCSteal.awaiting_response_from = some 1 ∧
    infoset_key stateCCSteal 0 ≠ infoset_key stateCCSteal 1 ∧
    mccfr_traverse 1 "sampled" 2 stateCCSteal 1 0 1 0 ⟨[], [0]⟩ =
      .ok (0, ⟨[(infoset_key stateCCSteal 0, emptyNode)], []⟩) ∧
    nodesContains [(infoset_key stateCCSteal 0, emptyNode)]
      (infoset_key stateCCSteal 1) = false :=
  ⟨by decide, by decide, by decide, by decide, steal_traverse_eq, by decide⟩

/-- Witness for C4: the traversal step evaluated in `steal_traverse_eq`
indeed leaves the table containing the key of `current_player`. -/
theorem c4_traversal_keys_current_player_witness :
    nodesContains [(infoset_key stateCCSteal 0, emptyNode)]
      (infoset_key stateCCSteal stateCCSteal.current_player) = true :=
  c4_traversal_keys_current_player 1 "sampled" 2 stateCCSteal 1 0 1 0 ⟨[], [0]⟩ 0
    ⟨[(infoset_key stateCCSteal 0, emptyNode)], []⟩ (by decide) (by decide)
    steal_traverse_eq

/-- Witness for C7: a sampled-mode traversal that returns at the depth cap
leaves a concrete nonzero regret entry untouched. -/
theorem c7_sampled_regret_update_is_zero_witness :
    mccfr_traverse 0 "sampled" 1 stateCC 0 1 1 0
      ⟨[("n", { regret_sum := [("a", 5)], strategy_sum := [] })], []⟩ = .ok (0,
      ⟨[("n", { regret_sum := [("a", 5)], strategy_sum := [] })], []⟩) ∧
    mapGetQ ((nodesFind [("n",
        ({ regret_sum := [("a", 5)], strategy_sum := [] } : NodeStats))] "n").getD
      emptyNode).regret_sum "a" = 5 := by
  constructor
  · rfl
  · have h := c7_sampled_regret_update_is_zero 1 0 stateCC 0 1 1 0
      ⟨[("n", { regret_sum := [("a", 5)], strategy_sum := [] })], []⟩ 0
      ⟨[("n", { regret_sum := [("a", 5)], strategy_sum := [] })], []⟩ rfl "n" "a"
    rw [h]
    rfl

/-- C6: the infoset key reads only `current_player`, both players' coins,
both players' reveal piles, the five pending-interaction fields, and the
perspective player's own hand; two states agreeing on those — whatever
their decks and the opponent's hand — get the same key. -/
theorem c6_infoset_ignores_hidden (s1 s2 : GameState) (p : Nat)
    (hcur : s1.current_player = s2.current_player)
    (hc0 : (s1.playerAt 0).coins = (s2.playerAt 0).coins)
    (hc1 : (s1.playerAt 1).coins = (s2.playerAt 1).coins)
    (hr0 : (s1.playerAt 0).revealed = (s2.playerAt 0).revealed)
    (hr1 : (s1.playerAt 1).revealed = (s2.playerAt 1).revealed)
    (hpa : s1.pending_action = s2.pending_action)
    (hpr : s1.pending_block_role = s2.pending_block_role)
    (hpb : s1.pending_blocker = s2.pending_blocker)
    (har : s1.awaiting_response_from = s2.awaiting_response_from)
    (hcr : s1.pending_claim_role = s2.pending_claim_role)
    (hh : (s1.playerAt p).hand = (s2.playerAt p).hand) :
    infoset_key s1 p = infoset_key s2 p := by
  simp only [infoset_key, hcur, hc0, hc1, hr0, hr1, hpa, hpr, hpb, har, hcr, hh]

/-- Witness for C6: two concrete states with different decks and a
different opponent hand share player 0's infoset key. -/
theorem c6_infoset_ignores_hidden_witness :
    stateCC.deck ≠ stateCCHidden.deck ∧
    (stateCC.playerAt 1).hand ≠ (stateCCHidden.playerAt 1).hand ∧
    infoset_key stateCC 0 = infoset_key stateCCHidden 0 := by
  refine ⟨by decide, by decide, ?_⟩
  exact c6_infoset_ignores_hidden stateCC stateCCHidden 0
    rfl rfl rfl rfl rfl rfl rfl rfl rfl rfl rfl

/-- C9: with no pending interaction and the current player at or above the
mandatory-coup threshold (10 under the default rules), the legal-action
list is exactly one Coup by the current player against the default target. -/
theorem c9_mandatory_coup_only (gs : GameState)
    (hwin : gs.winner = none) (hpend : gs.pending_action = none)
    (hrules : gs.rules = {})
    (hcoins : (10 : Int) ≤ (gs.playerAt gs.current_player).coins) :
    gs.legal_actions = .ok [⟨gs.current_player, .COUP, gs.default_target, 0⟩] := by
  simp only [GameState.legal_actions, hwin, hpend, hrules]
  simp [hcoins]

/-- Witness for C9: a concrete two-player state with ten coins has exactly
the single Coup against player 1 legal. -/
theorem c9_mandatory_coup_only_witness :
    stateCCRich.legal_actions = .ok [⟨0, .COUP, some 1, 0⟩] := by
  exact c9_mandatory_coup_only stateCCRich (by decide) (by decide) (by decide) (by decide)

/-- C2: with a pending Steal and no block declared, the legal actions are
exactly Pass, Block-Steal-Captain, Block-Steal-Ambassador and Challenge for
the awaited responder; with a pending Assassinate and no block declared,
exactly Pass, Block-Assassinate and Challenge. -/
theorem c2_response_sets :
    (∀ (gs : GameState) (pa : Action) (r : Nat),
      gs.winner = none → gs.pending_action = some pa → pa.type = .STEAL →
      gs.pending_blocker = none → gs.awaiting_response_from = some r →
      gs.legal_actions = .ok [⟨r, .PASS, none, 0⟩, ⟨r, .BLOCK_STEAL_CAPTAIN, none, 0⟩,
        ⟨r, .BLOCK_STEAL_AMBASSADOR, none, 0⟩, ⟨r, .CHALLENGE, none, 0⟩]) ∧
    (∀ (gs : GameState) (pa : Action) (r : Nat),
      gs.winner = none → gs.pending_action = some pa → pa.type = .ASSASSINATE →
      gs.pending_blocker = none → gs.awaiting_response_from = some r →
      gs.legal_actions = .ok [⟨r, .PASS, none, 0⟩, ⟨r, .BLOCK_ASSASSINATE, none, 0⟩,
        ⟨r, .CHALLENGE, none, 0⟩]) := by
  constructor <;>
    · intro gs pa r hwin hpa ht hb har
      simp only [GameState.legal_actions, hwin, GameState.legal_responses, hpa, ht, hb, har]
      simp

/-- Witness for C2: concrete pending-Steal and pending-Assassinate states
produce exactly the claimed response lists. -/
theorem c2_response_sets_witness :
    stateCCSteal.legal_actions = .ok [⟨1, .PASS, none, 0⟩, ⟨1, .BLOCK_STEAL_CAPTAIN, none, 0⟩,
      ⟨1, .BLOCK_STEAL_AMBASSADOR, none, 0⟩, ⟨1, .CHALLENGE, none, 0⟩] ∧
    stateCCAssn.legal_actions = .ok [⟨1, .PASS, none, 0⟩, ⟨1, .BLOCK_ASSASSINATE, none, 0⟩,
      ⟨1, .CHALLENGE, none, 0⟩] := by
  constructor
  · exact c2_response_sets.1 stateCCSteal ⟨0, .STEAL, some 1, 0⟩ 1
      (by decide) (by decide) (by decide) (by decide) (by decide)
  · exact c2_response_sets.2 stateCCAssn ⟨0, .ASSASSINATE, some 1, 0⟩ 1
      (by decide) (by decide) (by decide) (by decide) (by decide)

/-- C10: applying a legal Block-Foreign-Aid response only rewrites the
pending-interaction fields — the blocker becomes the responder, the claimed
block role becomes Duke, and the awaited response moves to the original
actor — while players (coins, hands, reveal piles), deck, RNG stream,
`current_player`, `pending_action` and `pending_claim_role` are untouched. -/
theorem c10_block_fa_frame (gs : GameState) (pa : Action) (r : Nat)
    (hwin : gs.winner = none) (hpa : gs.pending_action = some pa)
    (ht : pa.type = .FOREIGN_AID) (hb : gs.pending_blocker = none)
    (har : gs.awaiting_response_from = some r) (hr : r ≠ pa.actor) :
    gs.apply ⟨r, .BLOCK_FOREIGN_AID, none, 0⟩ =
      .ok { gs with
        pending_blocker := some r
        pending_block_role := some Role.DUKE
        awaiting_response_from := some pa.actor } := by
  have hl : gs.legal_actions = .ok [⟨r, .PASS, none, 0⟩, ⟨r, .BLOCK_FOREIGN_AID, none, 0⟩] := by
    simp only [GameState.legal_actions, hwin, GameState.legal_responses, hpa, ht, hb, har]
    simp
  simp only [GameState.apply, hl, exceptBind_ok]
  simp only [GameState.applyDispatch, GameState.apply_block_foreign_aid, hpa, ht, hr]
  simp [exceptBind_ok, hr]

/-- Witness for C10: on a concrete pending-Foreign-Aid state, player 1's
block sets exactly the three pending fields. -/
theorem c10_block_fa_frame_witness :
    stateCCFA.apply ⟨1, .BLOCK_FOREIGN_AID, none, 0⟩ =
      .ok { stateCCFA with
        pending_blocker := some 1
        pending_block_role := some Role.DUKE
        awaiting_response_from := some 0 } := by
  exact c10_block_fa_frame stateCCFA ⟨0, .FOREIGN_AID, none, 0⟩ 1
    (by decide) (by decide) (by decide) (by decide) (by decide) (by decide)

/-- C3 fails on the code: from a freshly dealt game (shuffle witness
`dealWitnessCC`, a reachable deal giving player 0 two Captains with an
Ambassador and a Captain on top of the deck), the legal sequence
Exchange-then-Pass runs `_perform_exchange`, whose `returned` comprehension
returns all three Captain copies to the deck while one is also kept in
hand: the Captain census rises from 3 to 4 and the deck grows from 11 to
12 cards although only 2 were drawn. -/
theorem c3_exchange_census_bug :
    roleCensus stateCC .DUKE = 3 ∧ roleCensus stateCC .ASSASSIN = 3 ∧
    roleCensus stateCC .CAPTAIN = 3 ∧ roleCensus stateCC .AMBASSADOR = 3 ∧
    roleCensus stateCC .CONTESSA = 3 ∧
    stateCC.apply ⟨0, .EXCHANGE, none, 0⟩ = .ok stateCCExchange ∧
    stateCCExchange.apply ⟨1, .PASS, none, 0⟩ = .ok stateCCExchangePass ∧
    stateCC.deck.length = 11 ∧
    stateCCExchangePass.deck.length = 12 ∧
    roleCensus stateCCExchangePass .CAPTAIN = 4 := by
  decide

/-- Counterexample to C5: with `max_depth = 0` the single evaluation episode
is capped without a winner, and `evaluate` returns `-1`, not the `0` the
claim assigns to capped episodes (`total += 1.0 if w == 0 else -1.0` with
`w = None`). -/
theorem c5_counterexample_capped_scores_minus_one :
    (GameState.make 2 [] {}).winner = none ∧
    solver_evaluate 0 [] 1 [[]] [] = .ok (-1) ∧ ¬((-1 : ℚ) = 0) := by
  have hw : (GameState.make 2 [] {}).winner = none := by decide
  refine ⟨hw, ?_, by norm_num⟩
  simp only [solver_evaluate, evaluate_go, eval_rollout, List.headD, exceptBind_ok]
  norm_num [hw]
  simp [exceptBind_ok, hw]

/-- The episode loop of `evaluate` adds, per episode, a score that is `1`
exactly on a player-0 win and `-1` otherwise. -/
theorem evaluate_go_spec (md : Nat) :
    ∀ (n : Nat) (rngs : List (List (List Nat))) (cs : List Nat)
      (nodes : List (String × NodeStats)) (total : ℚ) (r : ℚ × List (String × NodeStats)),
      evaluate_go md n rngs cs nodes total = .ok r →
      ∃ scores : List ℚ, scores.length = n ∧ (∀ s ∈ scores, s = 1 ∨ s = -1) ∧
        r.1 = total + scores.sum := by
  intro n
  induction n with
  | zero =>
    intro rngs cs nodes total r h
    refine ⟨[], rfl, by simp, ?_⟩
    simp only [evaluate_go] at h
    cases h
    simp
  | succ m ih =>
    intro rngs cs nodes total r h
    simp only [evaluate_go] at h
    cases h1 : eval_rollout md md 0 (GameState.make 2 (rngs.headD []) {}) nodes cs with
    | error e => rw [h1] at h; cases h
    | ok r1 =>
      rw [h1] at h
      simp only [exceptBind_ok] at h
      obtain ⟨scores, hlen, hpm, hsum⟩ := ih rngs.tail r1.2.2 r1.2.1
        (total + (if r1.1.winner = some 0 then 1 else -1)) r h
      refine ⟨(if r1.1.winner = some 0 then 1 else -1) :: scores, by simp [hlen], ?_, ?_⟩
      · intro s hs
        rcases List.mem_cons.mp hs with h' | h'
        · subst h'; split <;> simp
        · exact hpm s h'
      · rw [hsum]; simp [List.sum_cons]; ring

/-- C5, amended: `evaluate` returns `total / max(1, episodes)` where each
episode contributes `+1` when player 0 wins and `-1` otherwise — in
particular `-1`, not `0`, when the rollout is capped without a winner. -/
theorem c5_evaluate_scoring :
    (∀ (md : Nat) (nodes : List (String × NodeStats)) (g : List (List Nat)) (cs : List Nat)
       (gs' : GameState) (ns' : List (String × NodeStats)) (cs' : List Nat),
      eval_rollout md md 0 (GameState.make 2 g {}) nodes cs = .ok (gs', ns', cs') →
      solver_evaluate md nodes 1 [g] cs = .ok (episode_score gs')) ∧
    (∀ (md : Nat) (nodes : List (String × NodeStats)) (eps : Nat)
       (rngs : List (List (List Nat))) (cs : List Nat) (v : ℚ),
      solver_evaluate md nodes eps rngs cs = .ok v →
      ∃ scores : List ℚ, scores.length = eps ∧ (∀ s ∈ scores, s = 1 ∨ s = -1) ∧
        v = scores.sum / ((max 1 eps : Nat) : ℚ)) := by
  constructor
  · intro md nodes g cs gs' ns' cs' h
    simp only [solver_evaluate, evaluate_go, List.headD, List.tail, h, exceptBind_ok]
    simp [episode_score]
  · intro md nodes eps rngs cs v h
    simp only [solver_evaluate] at h
    cases hgo : evaluate_go md eps rngs cs nodes 0 with
    | error e => rw [hgo] at h; cases h
    | ok r =>
      rw [hgo] at h
      simp only [exceptBind_ok] at h
      cases h
      obtain ⟨scores, hlen, hpm, hsum⟩ := evaluate_go_spec md eps rngs cs nodes 0 r hgo
      exact ⟨scores, hlen, hpm, by rw [hsum]; simp⟩

/-- Witness for C5: the capped concrete episode scores `episode_score` of
its final state (-1), and the general decomposition applies to it. -/
theorem c5_evaluate_scoring_witness :
    solver_evaluate 0 [] 1 [[]] [] = .ok (episode_score (GameState.make 2 [] {})) ∧
    ∃ scores : List ℚ, scores.length = 1 ∧ (∀ s ∈ scores, s = 1 ∨ s = -1) ∧
      (-1 : ℚ) = scores.sum / ((max 1 1 : Nat) : ℚ) := by
  constructor
  · exact c5_evaluate_scoring.1 0 [] [] [] (GameState.make 2 [] {}) [] [] (by decide)
  · refine c5_evaluate_scoring.2 0 [] 1 [[]] [] (-1) ?_
    have hw : (GameState.make 2 [] {}).winner = none := by decide
    simp only [solver_evaluate, evaluate_go, eval_rollout, List.headD, exceptBind_ok]
    norm_num [hw]
    simp [exceptBind_ok, hw]

/-- C8: declaring Assassinate deducts the 3-coin cost immediately, before
any response is applied, and no later resolution refunds it: after a
Stage-B Pass (the actor accepts a Contessa block) the actor's coins remain
at the post-deduction value, and after the actor loses a challenge of a
bluffed Assassin claim the coins remain there too while the actor loses one
influence. -/
theorem c8_assassinate_cost_nonrefund (c pc : Int) (h0 h0p r1 : Role)
    (t1 rev0 rev1 d : List Role) (rng : List (List Nat)) (pbr pcr : Option Role)
    (arf : Option Nat) (hc3 : (3 : Int) ≤ c) (hc10 : c < 10)
    (hna : Role.ASSASSIN ∉ [h0, h0p]) :
    ∃ gs1 gs2 gs3 gs2c : GameState,
      (assassinStart c pc h0 h0p r1 t1 rev0 rev1 d rng pbr pcr arf).apply
          ⟨0, .ASSASSINATE, some 1, 0⟩ = .ok gs1 ∧
      (gs1.playerAt 0).coins = c - 3 ∧
      gs1.apply ⟨1, .BLOCK_ASSASSINATE, none, 0⟩ = .ok gs2 ∧
      gs2.apply ⟨0, .PASS, none, 0⟩ = .ok gs3 ∧
      (gs3.playerAt 0).coins = c - 3 ∧
      gs1.apply ⟨1, .CHALLENGE, none, 0⟩ = .ok gs2c ∧
      (gs2c.playerAt 0).coins = c - 3 ∧
      (gs2c.playerAt 0).hand = [h0p] := by
  have h10 : ¬ ((10 : Int) ≤ c) := by omega
  have hne : Role.ASSASSIN ≠ h0 ∧ Role.ASSASSIN ≠ h0p := by
    constructor <;> intro h <;> exact hna (by simp [h])
  refine ⟨
    { num_players := 2
      rules := {}
      players := [{ coins := c - 3, hand := [h0, h0p], revealed := rev0 },
                  { coins := pc, hand := r1 :: t1, revealed := rev1 }]
      deck := d
      current_player := 0
      rngPerms := rng
      pending_action := some ⟨0, .ASSASSINATE, some 1, 0⟩
      pending_blocker := none
      pending_block_role := pbr
      awaiting_response_from := some 1
      pending_claim_role := some .ASSASSIN },
    { num_players := 2
      rules := {}
      players := [{ coins := c - 3, hand := [h0, h0p], revealed := rev0 },
                  { coins := pc, hand := r1 :: t1, revealed := rev1 }]
      deck := d
      current_player := 0
      rngPerms := rng
      pending_action := some ⟨0, .ASSASSINATE, some 1, 0⟩
      pending_blocker := some 1
      pending_block_role := some .CONTESSA
      awaiting_response_from := some 0
      pending_claim_role := some .ASSASSIN },
    { num_players := 2
      rules := {}
      players := [{ coins := c - 3, hand := [h0, h0p], revealed := rev0 },
                  { coins := pc, hand := r1 :: t1, revealed := rev1 }]
      deck := d
      current_player := 1
      rngPerms := rng
      pending_action := none
      pending_blocker := none
      pending_block_role := none
      awaiting_response_from := none
      pending_claim_role := none },
    { num_players := 2
      rules := {}
      players := [{ coins := c - 3, hand := [h0p], revealed := rev0 ++ [h0] },
                  { coins := pc, hand := r1 :: t1, revealed := rev1 }]
      deck := d
      current_player := 1
      rngPerms := rng
      pending_action := none
      pending_blocker := none
      pending_block_role := none
      awaiting_response_from := none
      pending_claim_role := none },
    ?_, ?_, ?_, ?_, ?_, ?_, ?_, ?_⟩
  · simp [assassinStart, GameState.apply, GameState.legal_actions, GameState.winner,
      GameState.alive_players, PlayerState.alive, GameState.default_target, GameState.playerAt,
      GameState.applyDispatch, GameState.start_assassinate_interaction, GameState.setPlayer,
      List.enum, List.enumFrom, hc3, h10, exceptBind_ok]
  · simp [GameState.playerAt]
  · simp [GameState.apply, GameState.legal_actions, GameState.legal_responses, GameState.winner,
      GameState.alive_players, PlayerState.alive, GameState.playerAt, GameState.applyDispatch,
      GameState.apply_block_assassinate, List.enum, List.enumFrom, exceptBind_ok]
  · simp [GameState.apply, GameState.legal_actions, GameState.legal_responses, GameState.winner,
      GameState.alive_players, PlayerState.alive, GameState.playerAt, GameState.applyDispatch,
      GameState.apply_pass, GameState.clear_pending, GameState.next_player_state, findAliveFrom,
      List.enum, List.enumFrom, exceptBind_ok]
  · simp [GameState.playerAt]
  · simp [GameState.apply, GameState.legal_actions, GameState.legal_responses, GameState.winner,
      GameState.alive_players, PlayerState.alive, GameState.playerAt, GameState.applyDispatch,
      GameState.apply_challenge, GameState.player_has_role, hne.1, hne.2,
      GameState.lose_influence,
      GameState.setPlayer, GameState.clear_pending, GameState.next_player_state, findAliveFrom,
      List.enum, List.enumFrom, exceptBind_ok]
  · simp [GameState.playerAt]
  · simp [GameState.playerAt]

/-- The shuffle model returns `min n` of the input length elements. -/
theorem shuffleGo_length (n : Nat) : ∀ (ws : List Nat) (l : List Role),
    (shuffleGo n ws l).length = min n l.length := by
  induction n with
  | zero => intro ws l; simp [shuffleGo]
  | succ m ih =>
    intro ws l
    rw [shuffleGo]
    by_cases hl : l.length = 0
    · simp [hl]
    · rw [if_neg hl]
      have hi : ws.headD 0 % l.length < l.length := Nat.mod_lt _ (by omega)
      simp only [List.length_cons, ih]
      rw [List.length_eraseIdx, if_pos hi]
      omega

/-- The modelled shuffle is length-preserving. -/
theorem shuffleWith_length (w : List Nat) (l : List Role) :
    (shuffleWith w l).length = l.length := by
  simp [shuffleWith, shuffleGo_length]

/-- Popping the back of a non-empty deck succeeds and shortens it by one. -/
theorem popBack_of_ne_nil (deck : List Role) (h : deck ≠ []) :
    ∃ c deck', popBack deck = some (c, deck') ∧ deck'.length + 1 = deck.length := by
  cases hg : deck.getLast? with
  | none =>
    rw [List.getLast?_eq_none_iff] at hg
    exact absurd hg h
  | some c =>
    refine ⟨c, deck.dropLast, by simp [popBack, hg], ?_⟩
    have := List.length_pos.mpr h
    simp [List.length_dropLast]
    omega

/-- One dealing round over two seats with at least two cards left: each
player draws one card from the back. -/
theorem dealRound_two (p0 p1 : PlayerState) (deck : List Role) (h2 : 2 ≤ deck.length) :
    ∃ c0 c1 deck', dealRound [p0, p1] deck =
      ([{ p0 with hand := p0.hand ++ [c0] }, { p1 with hand := p1.hand ++ [c1] }], deck') ∧
      deck'.length + 2 = deck.length := by
  obtain ⟨c0, d1, hpop0, hl1⟩ := popBack_of_ne_nil deck
    (by intro hnil; rw [hnil] at h2; simp at h2)
  obtain ⟨c1, d2, hpop1, hl2⟩ := popBack_of_ne_nil d1
    (by intro hnil; rw [hnil] at hl1; simp at hl1; omega)
  refine ⟨c0, c1, d2, ?_, by omega⟩
  simp [dealRound, hpop0, hpop1]

/-- A freshly constructed two-player game under default rules is
well-formed, for every RNG witness stream. -/
theorem make_WF (rng : List (List Nat)) : WF (GameState.make 2 rng {}) := by
  have hdl : (shuffleWith (rng.headD []) (({} : BaseRules)).full_deck).length = 15 := by
    rw [shuffleWith_length]; rfl
  obtain ⟨c0, c1, d1, hdr1, hl1⟩ := dealRound_two { coins := 2 } { coins := 2 }
    (shuffleWith (rng.headD []) (({} : BaseRules)).full_deck) (by omega)
  simp only [List.nil_append] at hdr1
  obtain ⟨c2, c3, d2, hdr2, hl2⟩ := dealRound_two { coins := 2, hand := [c0] }
    { coins := 2, hand := [c1] } d1 (by omega)
  simp only [List.cons_append, List.nil_append] at hdr2
  simp only [GameState.make, List.replicate, dealCards, hdr1, hdr2]
  refine ⟨rfl, by simp, by simp, rfl, ?_, by simp⟩
  left
  simp [GameState.playerAt, PlayerState.alive]

/-- In a two-player state with someone alive, no winner means both players
are alive. -/
theorem winner_none_both (gs : GameState) (p0 p1 : PlayerState) (hps : gs.players = [p0, p1])
    (halive : (gs.playerAt 0).alive = true ∨ (gs.playerAt 1).alive = true)
    (hwin : gs.winner = none) :
    (gs.playerAt 0).alive = true ∧ (gs.playerAt 1).alive = true := by
  simp only [GameState.playerAt, hps, List.getD_cons_zero, List.getD_cons_succ] at halive ⊢
  by_cases a0 : p0.alive <;> by_cases a1 : p1.alive <;>
    simp [GameState.winner, GameState.alive_players, hps, a0, a1, List.enum,
      List.enumFrom] at hwin halive ⊢

/-- In a two-player state with both players alive there is no winner. -/
theorem winner_none_of_both (gs : GameState) (p0 p1 : PlayerState) (hps : gs.players = [p0, p1])
    (h0 : (gs.playerAt 0).alive = true) (h1 : (gs.playerAt 1).alive = true) :
    gs.winner = none := by
  simp only [GameState.playerAt, hps, List.getD_cons_zero, List.getD_cons_succ] at h0 h1
  simp [GameState.winner, GameState.alive_players, hps, h0, h1, List.enum, List.enumFrom]

/-- Advancing the turn succeeds in a two-player state with someone alive,
and lands on a seat below 2. -/
theorem next_player_ok (gs : GameState) (hnum : gs.num_players = 2)
    (halive : (gs.playerAt 0).alive = true ∨ (gs.playerAt 1).alive = true) :
    ∃ nxt, gs.next_player_state = .ok { gs with current_player := nxt } ∧ nxt < 2 := by
  rw [GameState.next_player_state, hnum]
  have hc2 : (gs.current_player + 1) % 2 < 2 := by omega
  have hc01 : (gs.current_player + 1) % 2 = 0 ∨ (gs.current_player + 1) % 2 = 1 := by omega
  rcases hc01 with hc | hc <;> rw [hc]
  · by_cases a0 : (gs.playerAt 0).alive
    · exact ⟨0, by rw [findAliveFrom, if_pos a0], by omega⟩
    · have a1 : (gs.playerAt 1).alive = true := by tauto
      refine ⟨1, ?_, by omega⟩
      rw [findAliveFrom, if_neg (by simp [a0]), hnum]
      rw [findAliveFrom, if_pos (by simpa using a1)]
  · by_cases a1 : (gs.playerAt 1).alive
    · exact ⟨1, by rw [findAliveFrom, if_pos a1], by omega⟩
    · have a0 : (gs.playerAt 0).alive = true := by tauto
      refine ⟨0, ?_, by omega⟩
      rw [findAliveFrom, if_neg (by simp [a1]), hnum]
      rw [findAliveFrom, if_pos (by simpa using a0)]

/-- A truthful reveal succeeds whenever the player holds the claimed role,
and changes only that player's hand (same size), the deck and the RNG
stream. -/
theorem truthful_reveal_ok (gs : GameState) (pid : Nat) (role : Role)
    (hpid : pid < gs.players.length)
    (hmem : (gs.playerAt pid).hand.contains role = true) :
    ∃ gs', gs.truthful_reveal pid role = .ok gs' ∧
      gs'.players.length = gs.players.length ∧
      gs'.num_players = gs.num_players ∧ gs'.rules = gs.rules ∧
      gs'.current_player = gs.current_player ∧
      gs'.pending_action = gs.pending_action ∧
      gs'.pending_blocker = gs.pending_blocker ∧
      gs'.pending_block_role = gs.pending_block_role ∧
      gs'.awaiting_response_from = gs.awaiting_response_from ∧
      gs'.pending_claim_role = gs.pending_claim_role ∧
      (∀ q, (gs'.playerAt q).alive = (gs.playerAt q).alive ∧
        (gs'.playerAt q).coins = (gs.playerAt q).coins) := by
  have hmem' : role ∈ (gs.playerAt pid).hand := by simpa using hmem
  have hhlen : 1 ≤ (gs.playerAt pid).hand.length := by
    cases hh : (gs.playerAt pid).hand with
    | nil => rw [hh] at hmem'; simp at hmem'
    | cons a t => simp [hh]
  have hd2 : (shuffleWith (gs.rngPerms.headD []) (gs.deck ++ [role])).length =
      gs.deck.length + 1 := by
    rw [shuffleWith_length]; simp
  obtain ⟨c, deck3, hpop, hlen3⟩ :=
    popBack_of_ne_nil (shuffleWith (gs.rngPerms.headD []) (gs.deck ++ [role]))
      (by intro hnil; rw [hnil] at hd2; simp at hd2)
  simp only [GameState.truthful_reveal, hmem, if_true, hpop]
  refine ⟨_, rfl, by simp [GameState.setPlayer], rfl, rfl, rfl, rfl, rfl, rfl, rfl, rfl, ?_⟩
  intro q
  by_cases hq : q = pid
  · subst hq
    simp only [GameState.playerAt, GameState.setPlayer, List.getD_eq_getElem?_getD,
      List.getElem?_set_self, hpid, if_true, Option.getD_some]
    constructor
    · have hl : (0 : Nat) < (gs.playerAt q).hand.length := hhlen
      have hr : (0 : Nat) < ((gs.playerAt q).hand.erase role ++ [c]).length := by simp
      simp [PlayerState.alive, hl, hr]
      simpa [GameState.playerAt, List.getD_eq_getElem?_getD] using hl
    · trivial
  · simp only [GameState.playerAt, GameState.setPlayer, List.getD_eq_getElem?_getD]
    rw [List.getElem?_set_ne (by omega)]
    exact ⟨rfl, rfl⟩

/-- Membership in a conditionally-present singleton. -/
theorem mem_if_singleton {α : Type} (a x : α) (c : Prop) [Decidable c] :
    a ∈ (if c then [x] else []) ↔ c ∧ a = x := by
  by_cases h : c <;> simp [h]

/-- Sorted insertion grows the list by one. -/
theorem insertSorted_length (le : Role → Role → Bool) (x : Role) (l : List Role) :
    (insertSorted le x l).length = l.length + 1 := by
  induction l with
  | nil => rfl
  | cons y ys ih =>
    rw [insertSorted]
    by_cases h : le x y
    · rw [if_pos h]; simp
    · rw [if_neg h]; simp [ih]

/-- The modelled Python sort is length-preserving. -/
theorem pySorted_length (le : Role → Role → Bool) (l : List Role) :
    (pySorted le l).length = l.length := by
  induction l with
  | nil => rfl
  | cons x xs ih => rw [pySorted, insertSorted_length, ih]; simp

/-- With two seats and the opponent alive, the default target is the other
seat. -/
theorem default_target_of_both (gs : GameState) (hnum : gs.num_players = 2)
    (hcur : gs.current_player < 2)
    (h1 : (gs.playerAt (1 - gs.current_player)).alive = true) :
    gs.default_target = some (1 - gs.current_player) := by
  rw [GameState.default_target, hnum]
  have hmod : (gs.current_player + 1) % 2 = 1 - gs.current_player := by omega
  simp [List.range', hmod, h1]

/-- The regret-matching strategy has one entry per legal action. -/
theorem get_strategy_length (n : NodeStats) (legal : List Action) (w : ℚ) :
    (n.get_strategy legal w).1.length = legal.length := by
  simp only [NodeStats.get_strategy]
  split_ifs with h1 h2
  · simp only [List.isEmpty_iff] at h2
    simp [h2]
  · simp
  · simp

/-- Under the invariant, a state without a winner always offers a non-empty
list of legal actions. -/
theorem legal_actions_ok (gs : GameState) (hwf : WF gs) (hwin : gs.winner = none) :
    ∃ legal, gs.legal_actions = .ok legal ∧ legal ≠ [] := by
  obtain ⟨hnum, hlen, hcur, hrules, halive, hpend⟩ := hwf
  rw [GameState.legal_actions, if_neg (by simp [hwin])]
  cases hpa : gs.pending_action with
  | none =>
    by_cases hmand : gs.rules.mandatory_coup_threshold ≤ (gs.playerAt gs.current_player).coins
    · exact ⟨_, by rw [if_pos hmand], by simp⟩
    · exact ⟨_, by rw [if_neg hmand], by simp⟩
  | some pa =>
    rw [hpa] at hpend
    obtain ⟨hactor, htypes, htarget, hbn, hbs, hboth⟩ := hpend
    cases hb : gs.pending_blocker with
    | none =>
      have haw := hbn hb
      rcases htypes with h | h | h | h | h <;>
        refine ⟨_, by simp only [GameState.legal_responses, hpa, h, hb, haw]; rfl, by simp⟩
    | some b =>
      have haw := (hbs (by simp [hb])).2.1
      rcases htypes with h | h | h | h | h <;>
        refine ⟨_, by simp only [GameState.legal_responses, hpa, h, hb, haw]; rfl, by simp⟩

/-- A list of length two is a two-element literal. -/
theorem two_players (gs : GameState) (hlen : gs.players.length = 2) :
    ∃ p0 p1, gs.players = [p0, p1] := by
  cases h : gs.players with
  | nil => rw [h] at hlen; simp at hlen
  | cons p0 rest =>
    cases rest with
    | nil => rw [h] at hlen; simp at hlen
    | cons p1 rest2 =>
      cases rest2 with
      | nil => exact ⟨p0, p1, rfl⟩
      | cons p2 rest3 => rw [h] at hlen; simp at hlen

/-- Reading back the seat just written. -/
theorem playerAt_set_self (gs : GameState) (i : Nat) (ps : PlayerState)
    (h : i < gs.players.length) : (gs.setPlayer i ps).playerAt i = ps := by
  simp [GameState.setPlayer, GameState.playerAt, List.getD_eq_getElem?_getD,
    List.getElem?_set_self, h]

/-- Reading another seat after a write. -/
theorem playerAt_set_other (gs : GameState) (i q : Nat) (ps : PlayerState) (h : q ≠ i) :
    (gs.setPlayer i ps).playerAt q = gs.playerAt q := by
  simp only [GameState.setPlayer, GameState.playerAt, List.getD_eq_getElem?_getD]
  rw [List.getElem?_set_ne (by omega)]

/-- The winner only depends on who is alive. -/
theorem winner_eq_of_alive (gs gs' : GameState) (hlen : gs.players.length = 2)
    (hlen' : gs'.players.length = 2)
    (h0 : (gs'.playerAt 0).alive = (gs.playerAt 0).alive)
    (h1 : (gs'.playerAt 1).alive = (gs.playerAt 1).alive) :
    gs'.winner = gs.winner := by
  obtain ⟨p0, p1, hps⟩ := two_players gs hlen
  obtain ⟨q0, q1, hqs⟩ := two_players gs' hlen'
  simp only [GameState.playerAt, hps, hqs, List.getD_cons_zero, List.getD_cons_succ] at h0 h1
  by_cases a0 : p0.alive <;> by_cases a1 : p1.alive <;>
    simp [GameState.winner, GameState.alive_players, hps, hqs, List.enum, List.enumFrom,
      a0, a1, h0, h1]

/-- A named alive seat below 2 witnesses the someone-alive disjunction. -/
theorem someone_alive_of (gs : GameState) (k : Nat) (hk : k < 2)
    (h : (gs.playerAt k).alive = true) :
    (gs.playerAt 0).alive = true ∨ (gs.playerAt 1).alive = true := by
  have : k = 0 ∨ k = 1 := by omega
  rcases this with rfl | rfl
  · exact Or.inl h
  · exact Or.inr h

/-- Writing a seat with only its coins changed preserves every liveness
bit. -/
theorem alive_set_coins (gs : GameState) (i : Nat) (c : Int) (q : Nat) :
    ((gs.setPlayer i { gs.playerAt i with coins := c }).playerAt q).alive =
      (gs.playerAt q).alive := by
  by_cases hq : q = i
  · subst hq
    by_cases hlt : q < gs.players.length
    · rw [playerAt_set_self _ _ _ hlt]; rfl
    · simp only [GameState.setPlayer, GameState.playerAt, List.getD_eq_getElem?_getD]
      rw [List.set_eq_of_length_le (by omega)]
  · rw [playerAt_set_other _ _ _ _ hq]

/-- Losing an influence changes no scalar bookkeeping field. -/
theorem lose_influence_fields (gs : GameState) (pid : Nat) :
    (gs.lose_influence pid).num_players = gs.num_players ∧
    (gs.lose_influence pid).rules = gs.rules ∧
    (gs.lose_influence pid).current_player = gs.current_player ∧
    (gs.lose_influence pid).deck = gs.deck ∧
    (gs.lose_influence pid).rngPerms = gs.rngPerms ∧
    (gs.lose_influence pid).pending_action = gs.pending_action ∧
    (gs.lose_influence pid).pending_blocker = gs.pending_blocker ∧
    (gs.lose_influence pid).pending_block_role = gs.pending_block_role ∧
    (gs.lose_influence pid).awaiting_response_from = gs.awaiting_response_from ∧
    (gs.lose_influence pid).pending_claim_role = gs.pending_claim_role ∧
    (gs.lose_influence pid).players.length = gs.players.length := by
  cases hh : (gs.playerAt pid).hand <;>
    simp [GameState.lose_influence, hh, GameState.setPlayer]

/-- Losing an influence leaves the other seats untouched. -/
theorem playerAt_lose_other (gs : GameState) (pid q : Nat) (h : q ≠ pid) :
    (gs.lose_influence pid).playerAt q = gs.playerAt q := by
  cases hh : (gs.playerAt pid).hand with
  | nil => simp [GameState.lose_influence, hh]
  | cons a t =>
    simp only [GameState.lose_influence, hh]
    exact playerAt_set_other _ _ _ _ h

/-- The steal transfer succeeds on a well-formed pending steal and moves
coins only. -/
theorem steal_transfer_ok (gs : GameState) (pa : Action) (t : Nat)
    (hpa : gs.pending_action = some pa) (hty : pa.type = .STEAL) (hta : pa.target = some t) :
    ∃ gs', gs.apply_steal_transfer = .ok gs' ∧
      gs'.players.length = gs.players.length ∧
      gs'.num_players = gs.num_players ∧ gs'.rules = gs.rules ∧
      gs'.current_player = gs.current_player ∧ gs'.deck = gs.deck ∧
      gs'.rngPerms = gs.rngPerms ∧
      gs'.pending_action = gs.pending_action ∧
      gs'.pending_blocker = gs.pending_blocker ∧
      gs'.pending_block_role = gs.pending_block_role ∧
      gs'.awaiting_response_from = gs.awaiting_response_from ∧
      gs'.pending_claim_role = gs.pending_claim_role ∧
      ∀ q, (gs'.playerAt q).alive = (gs.playerAt q).alive := by
  refine ⟨_, by simp only [GameState.apply_steal_transfer, hpa, hty, hta]; rfl,
    by simp [GameState.setPlayer], by rfl, by rfl, by rfl, by rfl, by rfl, by rfl, by rfl,
    by rfl, by rfl, by rfl, ?_⟩
  intro q
  rw [alive_set_coins, alive_set_coins]

/-- The exchange resolution touches only the actor's hand and the deck. -/
theorem perform_exchange_fields (gs : GameState) (actor : Nat) :
    (gs.perform_exchange actor).num_players = gs.num_players ∧
    (gs.perform_exchange actor).rules = gs.rules ∧
    (gs.perform_exchange actor).current_player = gs.current_player ∧
    (gs.perform_exchange actor).rngPerms = gs.rngPerms ∧
    (gs.perform_exchange actor).pending_action = gs.pending_action ∧
    (gs.perform_exchange actor).pending_blocker = gs.pending_blocker ∧
    (gs.perform_exchange actor).pending_block_role = gs.pending_block_role ∧
    (gs.perform_exchange actor).awaiting_response_from = gs.awaiting_response_from ∧
    (gs.perform_exchange actor).pending_claim_role = gs.pending_claim_role ∧
    (gs.perform_exchange actor).players.length = gs.players.length ∧
    (∀ q, q ≠ actor → (gs.perform_exchange actor).playerAt q = gs.playerAt q) := by
  refine ⟨rfl, rfl, rfl, rfl, rfl, rfl, rfl, rfl, rfl, by simp [GameState.perform_exchange,
    GameState.setPlayer], ?_⟩
  intro q hq
  simp only [GameState.perform_exchange, GameState.playerAt, GameState.setPlayer,
    List.getD_eq_getElem?_getD]
  rw [List.getElem?_set_ne (by omega)]

/-- The exchange resolution keeps an alive actor alive. -/
theorem perform_exchange_alive (gs : GameState) (actor : Nat) (hlt : actor < gs.players.length)
    (halive : (gs.playerAt actor).alive = true) (hrules : gs.rules = {}) :
    ((gs.perform_exchange actor).playerAt actor).alive = true := by
  have hh : 0 < (gs.players[actor]?.getD
      { coins := 0, hand := [], revealed := [] }).hand.length := by
    simpa [PlayerState.alive, GameState.playerAt, List.getD_eq_getElem?_getD] using halive
  cases hd : gs.deck with
  | nil =>
    simp only [GameState.perform_exchange, hd, hrules, GameState.playerAt, GameState.setPlayer,
      List.getD_eq_getElem?_getD, List.getElem?_set_self, hlt, if_true, Option.getD_some,
      PlayerState.alive, List.length_take, pySorted_length, List.length_append]
    simp only [decide_eq_true_eq]
    omega
  | cons c1 rest =>
    cases rest with
    | nil =>
      simp only [GameState.perform_exchange, hd, hrules, GameState.playerAt,
        GameState.setPlayer, List.getD_eq_getElem?_getD, List.getElem?_set_self, hlt, if_true,
        Option.getD_some, PlayerState.alive, List.length_take, pySorted_length,
        List.length_append]
      simp only [decide_eq_true_eq]
      omega
    | cons c2 rest2 =>
      simp only [GameState.perform_exchange, hd, hrules, GameState.playerAt,
        GameState.setPlayer, List.getD_eq_getElem?_getD, List.getElem?_set_self, hlt, if_true,
        Option.getD_some, PlayerState.alive, List.length_take, pySorted_length,
        List.length_append]
      simp only [decide_eq_true_eq]
      omega

/-- Unfolding `GameState.apply` once the legality and actor checks are
discharged. -/
theorem apply_unfold (gs : GameState) (a : Action) (legal : List Action)
    (hl : gs.legal_actions = .ok legal) (ha : a ∈ legal)
    (hact : ¬(gs.pending_action = none ∧ a.actor ≠ gs.current_player)) :
    gs.apply a = (do
      let gs1 ← gs.applyDispatch a
      if gs1.winner = none ∧ gs1.pending_action = none ∧
          gs1.awaiting_response_from = none then
        gs1.next_player_state
      else .ok gs1) := by
  rw [GameState.apply, hl, exceptBind_ok, if_pos ha, if_neg hact]

/-- The turn-advancement tail of `GameState.apply` preserves the invariant
and always succeeds on an invariant-respecting dispatch result. -/
theorem advance_finish (gs1 : GameState) (hnum : gs1.num_players = 2)
    (hlen : gs1.players.length = 2) (hcur : gs1.current_player < 2)
    (hrules : gs1.rules = {})
    (halive : (gs1.playerAt 0).alive = true ∨ (gs1.playerAt 1).alive = true)
    (hpendN : gs1.pending_action = none → gs1.pending_blocker = none ∧
      gs1.pending_block_role = none ∧ gs1.awaiting_response_from = none ∧
      gs1.pending_claim_role = none)
    (hpendS : ∀ pa, gs1.pending_action = some pa → pendingWF gs1 pa) :
    ∃ gs2, (if gs1.winner = none ∧ gs1.pending_action = none ∧
        gs1.awaiting_response_from = none then
      gs1.next_player_state else .ok gs1) = .ok gs2 ∧ WF gs2 := by
  by_cases hc : gs1.winner = none ∧ gs1.pending_action = none ∧
      gs1.awaiting_response_from = none
  · rw [if_pos hc]
    obtain ⟨nxt, heq, hlt⟩ := next_player_ok gs1 hnum halive
    refine ⟨_, heq, hnum, by simpa using hlen, hlt, hrules, halive, ?_⟩
    cases hp : ({ gs1 with current_player := nxt } : GameState).pending_action with
    | none => exact hpendN hc.2.1
    | some pa =>
      exact absurd (show gs1.pending_action = some pa from hp) (by simp [hc.2.1])
  · rw [if_neg hc]
    refine ⟨gs1, rfl, hnum, hlen, hcur, hrules, halive, ?_⟩
    cases hp : gs1.pending_action with
    | none => exact hpendN hp
    | some pa => exact hpendS pa hp

/-- Packaging: a successful invariant-respecting dispatch yields a
successful invariant-preserving `apply`. -/
theorem apply_via_dispatch (gs : GameState) (a : Action) (legal : List Action)
    (gs1 : GameState)
    (hl : gs.legal_actions = .ok legal) (ha : a ∈ legal)
    (hact : ¬(gs.pending_action = none ∧ a.actor ≠ gs.current_player))
    (hdisp : gs.applyDispatch a = .ok gs1)
    (hnum : gs1.num_players = 2) (hlen : gs1.players.length = 2)
    (hcur : gs1.current_player < 2) (hrules : gs1.rules = {})
    (halive : (gs1.playerAt 0).alive = true ∨ (gs1.playerAt 1).alive = true)
    (hpendN : gs1.pending_action = none → gs1.pending_blocker = none ∧
      gs1.pending_block_role = none ∧ gs1.awaiting_response_from = none ∧
      gs1.pending_claim_role = none)
    (hpendS : ∀ pa, gs1.pending_action = some pa → pendingWF gs1 pa) :
    ∃ gs', gs.apply a = .ok gs' ∧ WF gs' := by
  obtain ⟨gs2, hif, hwf⟩ := advance_finish gs1 hnum hlen hcur hrules halive hpendN hpendS
  refine ⟨gs2, ?_, hwf⟩
  rw [apply_unfold gs a legal hl ha hact, hdisp, exceptBind_ok]
  exact hif

/-- A coins-only write preserves the someone-alive disjunction. -/
theorem alive_or_set_coins (gs : GameState) (i : Nat) (c : Int)
    (halive : (gs.playerAt 0).alive = true ∨ (gs.playerAt 1).alive = true) :
    ((gs.setPlayer i { gs.playerAt i with coins := c }).playerAt 0).alive = true ∨
    ((gs.setPlayer i { gs.playerAt i with coins := c }).playerAt 1).alive = true := by
  rw [alive_set_coins, alive_set_coins]
  exact halive

/-- Applying a legal Coup from a pending-free well-formed state succeeds
and preserves the invariant. -/
theorem coup_ok (gs : GameState) (legal : List Action)
    (hl0 : gs.legal_actions = .ok legal)
    (hmem : (⟨gs.current_player, .COUP, some (1 - gs.current_player), 0⟩ : Action) ∈ legal)
    (hc7 : gs.rules.coup_cost ≤ (gs.playerAt gs.current_player).coins)
    (hpa : gs.pending_action = none) (hbl : gs.pending_blocker = none)
    (hbr : gs.pending_block_role = none) (haw : gs.awaiting_response_from = none)
    (hcr : gs.pending_claim_role = none)
    (hnum : gs.num_players = 2) (hlen : gs.players.length = 2)
    (hcur : gs.current_player < 2) (hrules : gs.rules = {})
    (ha0 : (gs.playerAt 0).alive = true) (ha1 : (gs.playerAt 1).alive = true) :
    ∃ gs', gs.apply ⟨gs.current_player, .COUP, some (1 - gs.current_player), 0⟩ = .ok gs' ∧
      WF gs' := by
  have hacur : (gs.playerAt gs.current_player).alive = true := by
    have h01 : gs.current_player = 0 ∨ gs.current_player = 1 := by omega
    rcases h01 with h | h <;> rw [h] <;> assumption
  cases hth : ((gs.setPlayer gs.current_player
      { gs.playerAt gs.current_player with
        coins := (gs.playerAt gs.current_player).coins - gs.rules.coup_cost }).playerAt
      (1 - gs.current_player)).hand with
  | nil =>
    refine apply_via_dispatch gs _ legal _ hl0 hmem (by simp)
      (by simp only [GameState.applyDispatch, GameState.apply_coup, if_pos hc7, hth]; rfl)
      ?_ ?_ ?_ ?_ ?_ ?_ ?_
    · exact hnum
    · simp [GameState.setPlayer, hlen]
    · exact hcur
    · exact hrules
    · exact alive_or_set_coins gs _ _ (Or.inl ha0)
    · exact fun _ => ⟨hbl, hbr, haw, hcr⟩
    · exact fun pa hp => absurd (show gs.pending_action = some pa from hp) (by simp [hpa])
  | cons lost rest =>
    refine apply_via_dispatch gs _ legal _ hl0 hmem (by simp)
      (by simp only [GameState.applyDispatch, GameState.apply_coup, if_pos hc7, hth]; rfl)
      ?_ ?_ ?_ ?_ ?_ ?_ ?_
    · exact hnum
    · simp [GameState.setPlayer, hlen]
    · exact hcur
    · exact hrules
    · refine someone_alive_of _ gs.current_player hcur ?_
      rw [playerAt_set_other _ _ _ _ (by omega)]
      rw [playerAt_set_self _ _ _ (by omega)]
      exact hacur
    · exact fun _ => ⟨hbl, hbr, haw, hcr⟩
    · exact fun pa hp => absurd (show gs.pending_action = some pa from hp) (by simp [hpa])

/-- Applying a legal primary action from a pending-free well-formed state
succeeds and preserves the invariant. -/
theorem apply_primary_ok (gs : GameState) (legal : List Action) (a : Action)
    (hwf : WF gs) (hwin : gs.winner = none) (hpa : gs.pending_action = none)
    (hl : gs.legal_actions = .ok legal) (ha : a ∈ legal) :
    ∃ gs', gs.apply a = .ok gs' ∧ WF gs' := by
  obtain ⟨hnum, hlen, hcur, hrules, halive, hpend⟩ := hwf
  rw [hpa] at hpend
  obtain ⟨hbl, hbr, haw, hcr⟩ := hpend
  obtain ⟨p0, p1, hps⟩ := two_players gs hlen
  obtain ⟨ha0, ha1⟩ := winner_none_both gs p0 p1 hps halive hwin
  have hoth : (gs.playerAt (1 - gs.current_player)).alive = true := by
    have h01 : 1 - gs.current_player = 0 ∨ 1 - gs.current_player = 1 := by omega
    rcases h01 with h | h <;> rw [h] <;> assumption
  have hdt : gs.default_target = some (1 - gs.current_player) :=
    default_target_of_both gs hnum hcur hoth
  have hl0 := hl
  have ha' := ha
  simp only [GameState.legal_actions, hwin, hpa] at hl
  rw [hdt] at hl
  by_cases hmand : gs.rules.mandatory_coup_threshold ≤ (gs.playerAt gs.current_player).coins
  · rw [if_pos hmand] at hl
    injection hl with hleg
    subst hleg
    simp only [List.mem_singleton] at ha
    subst ha
    have hc7 : gs.rules.coup_cost ≤ (gs.playerAt gs.current_player).coins := by
      rw [hrules] at hmand ⊢
      show (7 : Int) ≤ _
      have h10 : (10 : Int) ≤ (gs.playerAt gs.current_player).coins := hmand
      omega
    exact coup_ok gs _ hl0 ha' hc7 hpa hbl hbr haw hcr hnum hlen hcur hrules ha0 ha1
  · rw [if_neg hmand] at hl
    rw [if_pos (show some gs.current_player ≠ some (1 - gs.current_player) by
      simp; omega)] at hl
    injection hl with hleg
    subst hleg
    simp only [List.mem_append, List.mem_cons, List.mem_singleton, mem_if_singleton,
      List.not_mem_nil, or_false, false_or] at ha
    rcases ha with (((rfl | rfl | rfl | rfl) | rfl) | ⟨hc3, rfl⟩) | ⟨hc7, rfl⟩
    · -- Income
      refine apply_via_dispatch gs _ _ _ hl0 ha' (by simp) rfl ?_ ?_ ?_ ?_ ?_ ?_ ?_
      · exact hnum
      · simp [GameState.apply_income, GameState.setPlayer, hlen]
      · exact hcur
      · exact hrules
      · exact alive_or_set_coins gs _ _ halive
      · exact fun _ => ⟨hbl, hbr, haw, hcr⟩
      · exact fun pa hp => absurd (show gs.pending_action = some pa from hp) (by simp [hpa])
    · -- Foreign Aid
      refine apply_via_dispatch gs _ _ _ hl0 ha' (by simp) rfl ?_ ?_ ?_ ?_ ?_ ?_ ?_
      · exact hnum
      · exact hlen
      · exact hcur
      · exact hrules
      · exact halive
      · exact fun hp => absurd (show (some _ : Option Action) = none from hp) (by simp)
      · intro pa hp
        have h2 : (some (⟨gs.current_player, .FOREIGN_AID, none, 0⟩ : Action) :
            Option Action) = some pa := hp
        cases h2
        refine ⟨rfl, Or.inl rfl, ?_, fun _ => hdt, fun h => absurd hbl h, ha0, ha1⟩
        intro h
        rcases h with h | h <;> simp at h
    · -- Tax
      refine apply_via_dispatch gs _ _ _ hl0 ha' (by simp) rfl ?_ ?_ ?_ ?_ ?_ ?_ ?_
      · exact hnum
      · exact hlen
      · exact hcur
      · exact hrules
      · exact halive
      · exact fun hp => absurd (show (some _ : Option Action) = none from hp) (by simp)
      · intro pa hp
        have h2 : (some (⟨gs.current_player, .TAX, none, 0⟩ : Action) :
            Option Action) = some pa := hp
        cases h2
        refine ⟨rfl, Or.inr (Or.inl rfl), ?_, fun _ => hdt, fun h => absurd hbl h, ha0, ha1⟩
        intro h
        rcases h with h | h <;> simp at h
    · -- Exchange
      refine apply_via_dispatch gs _ _ _ hl0 ha' (by simp) rfl ?_ ?_ ?_ ?_ ?_ ?_ ?_
      · exact hnum
      · exact hlen
      · exact hcur
      · exact hrules
      · exact halive
      · exact fun hp => absurd (show (some _ : Option Action) = none from hp) (by simp)
      · intro pa hp
        have h2 : (some (⟨gs.current_player, .EXCHANGE, none, 0⟩ : Action) :
            Option Action) = some pa := hp
        cases h2
        refine ⟨rfl, Or.inr (Or.inr (Or.inl rfl)), ?_, fun _ => hdt,
          fun h => absurd hbl h, ha0, ha1⟩
        intro h
        rcases h with h | h <;> simp at h
    · -- Steal
      refine apply_via_dispatch gs _ _ _ hl0 ha' (by simp) rfl ?_ ?_ ?_ ?_ ?_ ?_ ?_
      · exact hnum
      · exact hlen
      · exact hcur
      · exact hrules
      · exact halive
      · exact fun hp => absurd (show (some _ : Option Action) = none from hp) (by simp)
      · intro pa hp
        have h2 : (some (⟨gs.current_player, .STEAL, some (1 - gs.current_player), 0⟩ :
            Action) : Option Action) = some pa := hp
        cases h2
        refine ⟨rfl, Or.inr (Or.inr (Or.inr (Or.inl rfl))), fun _ => rfl, fun _ => rfl,
          fun h => absurd hbl h, ha0, ha1⟩
    · -- Assassinate
      refine apply_via_dispatch gs _ _ _ hl0 ha' (by simp)
        (by simp only [GameState.applyDispatch, GameState.start_assassinate_interaction,
          if_pos hc3]; rfl) ?_ ?_ ?_ ?_ ?_ ?_ ?_
      · exact hnum
      · simp [GameState.setPlayer, hlen]
      · exact hcur
      · exact hrules
      · exact alive_or_set_coins gs _ _ halive
      · exact fun hp => absurd (show (some _ : Option Action) = none from hp) (by simp)
      · intro pa hp
        have h2 : (some (⟨gs.current_player, .ASSASSINATE, some (1 - gs.current_player), 0⟩ :
            Action) : Option Action) = some pa := hp
        cases h2
        refine ⟨rfl, Or.inr (Or.inr (Or.inr (Or.inr rfl))), fun _ => rfl, fun _ => rfl,
          fun h => absurd hbl h, ?_, ?_⟩
        · show ((gs.setPlayer gs.current_player
            { gs.playerAt gs.current_player with
              coins := (gs.playerAt gs.current_player).coins -
                gs.rules.assassinate_cost }).playerAt 0).alive = true
          rw [alive_set_coins]
          exact ha0
        · show ((gs.setPlayer gs.current_player
            { gs.playerAt gs.current_player with
              coins := (gs.playerAt gs.current_player).coins -
                gs.rules.assassinate_cost }).playerAt 1).alive = true
          rw [alive_set_coins]
          exact ha1
    · -- Coup
      exact coup_ok gs _ hl0 ha' hc7 hpa hbl hbr haw hcr hnum hlen hcur hrules ha0 ha1

/-- Applying a legal response to a pending Foreign Aid succeeds and
preserves the invariant. -/
theorem response_fa_ok (gs : GameState) (legal : List Action) (a : Action) (pa : Action)
    (hnum : gs.num_players = 2) (hlen : gs.players.length = 2)
    (hcur : gs.current_player < 2) (hrules : gs.rules = {}) (hwin : gs.winner = none)
    (hpa : gs.pending_action = some pa) (hactor : pa.actor = gs.current_player)
    (hty : pa.type = .FOREIGN_AID)
    (htarget : (pa.type = .STEAL ∨ pa.type = .ASSASSINATE) → pa.target = some (1 - pa.actor))
    (hbn : gs.pending_blocker = none → gs.awaiting_response_from = some (1 - pa.actor))
    (hbs : gs.pending_blocker ≠ none →
      gs.pending_blocker = some (1 - pa.actor) ∧
      gs.awaiting_response_from = some pa.actor ∧
      (pa.type = .FOREIGN_AID → gs.pending_block_role = some .DUKE) ∧
      (pa.type = .ASSASSINATE → gs.pending_block_role = some .CONTESSA) ∧
      (pa.type = .STEAL →
        gs.pending_block_role = some .CAPTAIN ∨ gs.pending_block_role = some .AMBASSADOR))
    (ha0g : (gs.playerAt 0).alive = true) (ha1g : (gs.playerAt 1).alive = true)
    (hl0 : gs.legal_actions = .ok legal) (ha' : a ∈ legal) :
    ∃ gs', gs.apply a = .ok gs' ∧ WF gs' := by
  have hpaclt : pa.actor < 2 := by rw [hactor]; exact hcur
  have h1mlt : (1 : Nat) - pa.actor < 2 := by omega
  have hacur' : (gs.playerAt pa.actor).alive = true := by
    have h01 : pa.actor = 0 ∨ pa.actor = 1 := by omega
    rcases h01 with h | h <;> rw [h] <;> assumption
  have hothp : (gs.playerAt (1 - pa.actor)).alive = true := by
    have h01 : 1 - pa.actor = 0 ∨ 1 - pa.actor = 1 := by omega
    rcases h01 with h | h <;> rw [h] <;> assumption
  have halive : (gs.playerAt 0).alive = true ∨ (gs.playerAt 1).alive = true := Or.inl ha0g
  have hact : ¬(gs.pending_action = none ∧ a.actor ≠ gs.current_player) := by simp [hpa]
  have hl := hl0
  simp only [GameState.legal_actions, hwin, hpa, GameState.legal_responses, hty] at hl
  cases hb : gs.pending_blocker with
  | none =>
    have haw := hbn hb
    simp only [hb, haw] at hl
    injection hl with hleg
    subst hleg
    have ham := ha'
    simp only [List.mem_cons, List.mem_singleton, List.not_mem_nil, or_false] at ham
    rcases ham with rfl | rfl
    · -- Pass: the Foreign Aid resolves, +2 coins for the actor
      refine apply_via_dispatch gs _ _ _ hl0 ha' hact
        (by simp only [GameState.applyDispatch, GameState.apply_pass, hpa, hty, hb]; rfl)
        ?_ ?_ ?_ ?_ ?_ ?_ ?_
      · exact hnum
      · simp [GameState.clear_pending, GameState.setPlayer, hlen]
      · exact hcur
      · exact hrules
      · exact alive_or_set_coins gs _ _ halive
      · exact fun _ => ⟨rfl, rfl, rfl, rfl⟩
      · exact fun pa' hp => absurd (show (none : Option Action) = some pa' from hp) (by simp)
    · -- Block Foreign Aid
      have hne : (1 : Nat) - pa.actor ≠ pa.actor := by omega
      refine apply_via_dispatch gs _ _ _ hl0 ha' hact
        (by simp only [GameState.applyDispatch, GameState.apply_block_foreign_aid, hpa, hty,
              if_true]
            rw [if_pos hne]) ?_ ?_ ?_ ?_ ?_ ?_ ?_
      · exact hnum
      · exact hlen
      · exact hcur
      · exact hrules
      · exact halive
      · exact fun hp => absurd (show (some pa : Option Action) = none from hp) (by simp)
      · intro pa' hp
        have h2 : (some pa : Option Action) = some pa' := hp
        injection h2 with h3
        subst h3
        exact ⟨hactor, Or.inl hty, htarget, fun hp' => by simp at hp',
          fun _ => ⟨rfl, rfl, fun _ => rfl, fun h => by simp [hty] at h,
            fun h => by simp [hty] at h⟩, ha0g, ha1g⟩
  | some b =>
    obtain ⟨hb2, haw2, hrdk, hrc, hrs⟩ := hbs (by simp [hb])
    have hbv : b = 1 - pa.actor := by
      rw [hb] at hb2
      injection hb2
    subst hbv
    have hrole := hrdk hty
    simp only [hb] at hl
    injection hl with hleg
    subst hleg
    have ham := ha'
    simp only [List.mem_cons, List.mem_singleton, List.not_mem_nil, or_false] at ham
    rcases ham with rfl | rfl
    · -- Challenge of the Duke block
      by_cases hhr : gs.player_has_role (1 - pa.actor) .DUKE
      · obtain ⟨gsr, hrev, hrlen, hrnum, hrrules, hrcur, hrpa, hrbl, hrbr, hraw, hrcr, hrpq⟩ :=
          truthful_reveal_ok gs (1 - pa.actor) .DUKE (by rw [hlen]; omega) hhr
        obtain ⟨hf1, hf2, hf3, hf4, hf5, hf6, hf7, hf8, hf9, hf10, hf11⟩ :=
          lose_influence_fields gsr pa.actor
        refine apply_via_dispatch gs _ _ _ hl0 ha' hact
          (by simp only [GameState.applyDispatch, GameState.apply_challenge, hpa, hty, hb]
              rw [if_pos hrole]
              simp only [hhr, if_true]
              rw [hrev, exceptBind_ok]) ?_ ?_ ?_ ?_ ?_ ?_ ?_
        · show (gsr.lose_influence pa.actor).num_players = 2
          rw [hf1, hrnum, hnum]
        · show (gsr.lose_influence pa.actor).players.length = 2
          rw [hf11, hrlen, hlen]
        · show (gsr.lose_influence pa.actor).current_player < 2
          rw [hf3, hrcur]; exact hcur
        · show (gsr.lose_influence pa.actor).rules = {}
          rw [hf2, hrrules, hrules]
        · refine someone_alive_of _ (1 - pa.actor) h1mlt ?_
          show ((gsr.lose_influence pa.actor).playerAt (1 - pa.actor)).alive = true
          rw [playerAt_lose_other _ _ _ (by omega), (hrpq (1 - pa.actor)).1]
          exact hothp
        · exact fun _ => ⟨rfl, rfl, rfl, rfl⟩
        · exact fun pa' hp => absurd (show (none : Option Action) = some pa' from hp) (by simp)
      · have hhf : gs.player_has_role (1 - pa.actor) .DUKE = false := by
          simpa using hhr
        obtain ⟨hg1, hg2, hg3, hg4, hg5, hg6, hg7, hg8, hg9, hg10, hg11⟩ :=
          lose_influence_fields gs (1 - pa.actor)
        refine apply_via_dispatch gs _ _ _ hl0 ha' hact
          (by simp only [GameState.applyDispatch, GameState.apply_challenge, hpa, hty, hb]
              rw [if_pos hrole]
              simp only [hhf, Bool.false_eq_true, if_false]
              rfl) ?_ ?_ ?_ ?_ ?_ ?_ ?_
        · show (gs.lose_influence (1 - pa.actor)).num_players = 2
          rw [hg1, hnum]
        · simp [GameState.clear_pending, GameState.setPlayer, hg11, hlen]
        · show (gs.lose_influence (1 - pa.actor)).current_player < 2
          rw [hg3]; exact hcur
        · show (gs.lose_influence (1 - pa.actor)).rules = {}
          rw [hg2, hrules]
        · refine someone_alive_of _ pa.actor hpaclt ?_
          show (((gs.lose_influence (1 - pa.actor)).setPlayer pa.actor _).playerAt
            pa.actor).alive = true
          rw [playerAt_set_self _ _ _ (by rw [hg11, hlen]; omega)]
          show ((gs.lose_influence (1 - pa.actor)).playerAt pa.actor).alive = true
          rw [playerAt_lose_other _ _ _ (by omega)]
          exact hacur'
        · exact fun _ => ⟨rfl, rfl, rfl, rfl⟩
        · exact fun pa' hp => absurd (show (none : Option Action) = some pa' from hp) (by simp)
    · -- Pass: the actor accepts the block
      refine apply_via_dispatch gs _ _ _ hl0 ha' hact
        (by simp only [GameState.applyDispatch, GameState.apply_pass, hpa, hty, hb]; rfl)
        ?_ ?_ ?_ ?_ ?_ ?_ ?_
      · exact hnum
      · exact hlen
      · exact hcur
      · exact hrules
      · exact halive
      · exact fun _ => ⟨rfl, rfl, rfl, rfl⟩
      · exact fun pa' hp => absurd (show (none : Option Action) = some pa' from hp) (by simp)

/-- Applying a legal response to a pending Tax succeeds and preserves the
invariant. -/
theorem response_tax_ok (gs : GameState) (legal : List Action) (a : Action) (pa : Action)
    (hnum : gs.num_players = 2) (hlen : gs.players.length = 2)
    (hcur : gs.current_player < 2) (hrules : gs.rules = {}) (hwin : gs.winner = none)
    (hpa : gs.pending_action = some pa) (hactor : pa.actor = gs.current_player)
    (hty : pa.type = .TAX)
    (htarget : (pa.type = .STEAL ∨ pa.type = .ASSASSINATE) → pa.target = some (1 - pa.actor))
    (hbn : gs.pending_blocker = none → gs.awaiting_response_from = some (1 - pa.actor))
    (hbs : gs.pending_blocker ≠ none →
      gs.pending_blocker = some (1 - pa.actor) ∧
      gs.awaiting_response_from = some pa.actor ∧
      (pa.type = .FOREIGN_AID → gs.pending_block_role = some .DUKE) ∧
      (pa.type = .ASSASSINATE → gs.pending_block_role = some .CONTESSA) ∧
      (pa.type = .STEAL →
        gs.pending_block_role = some .CAPTAIN ∨ gs.pending_block_role = some .AMBASSADOR))
    (ha0g : (gs.playerAt 0).alive = true) (ha1g : (gs.playerAt 1).alive = true)
    (hl0 : gs.legal_actions = .ok legal) (ha' : a ∈ legal) :
    ∃ gs', gs.apply a = .ok gs' ∧ WF gs' := by
  have hpaclt : pa.actor < 2 := by rw [hactor]; exact hcur
  have h1mlt : (1 : Nat) - pa.actor < 2 := by omega
  have hacur' : (gs.playerAt pa.actor).alive = true := by
    have h01 : pa.actor = 0 ∨ pa.actor = 1 := by omega
    rcases h01 with h | h <;> rw [h] <;> assumption
  have hothp : (gs.playerAt (1 - pa.actor)).alive = true := by
    have h01 : 1 - pa.actor = 0 ∨ 1 - pa.actor = 1 := by omega
    rcases h01 with h | h <;> rw [h] <;> assumption
  have halive : (gs.playerAt 0).alive = true ∨ (gs.playerAt 1).alive = true := Or.inl ha0g
  have hact : ¬(gs.pending_action = none ∧ a.actor ≠ gs.current_player) := by simp [hpa]
  have hl := hl0
  simp only [GameState.legal_actions, hwin, hpa, GameState.legal_responses, hty] at hl
  cases hb : gs.pending_blocker with
  | none =>
    have haw := hbn hb
    simp only [haw] at hl
    injection hl with hleg
    subst hleg
    have ham := ha'
    simp only [List.mem_cons, List.mem_singleton, List.not_mem_nil, or_false] at ham
    rcases ham with rfl | rfl
    · -- Challenge by the opponent
      by_cases hhr : gs.player_has_role pa.actor .DUKE
      · obtain ⟨gsr, hrev, hrlen, hrnum, hrrules, hrcur, hrpa, hrbl, hrbr, hraw, hrcr, hrpq⟩ :=
          truthful_reveal_ok gs pa.actor .DUKE (by rw [hlen]; omega) hhr
        obtain ⟨hf1, hf2, hf3, hf4, hf5, hf6, hf7, hf8, hf9, hf10, hf11⟩ :=
          lose_influence_fields gsr (1 - pa.actor)
        refine apply_via_dispatch gs _ _ _ hl0 ha' hact
          (by simp only [GameState.applyDispatch, GameState.apply_challenge, hpa, hty]
              simp only [hhr, if_true]
              rw [hrev, exceptBind_ok]) ?_ ?_ ?_ ?_ ?_ ?_ ?_
        · show (gsr.lose_influence (1 - pa.actor)).num_players = 2
          rw [hf1, hrnum, hnum]
        · simp [GameState.clear_pending, GameState.setPlayer, hf11, hrlen, hlen]
        · show (gsr.lose_influence (1 - pa.actor)).current_player < 2
          rw [hf3, hrcur]; exact hcur
        · show (gsr.lose_influence (1 - pa.actor)).rules = {}
          rw [hf2, hrrules, hrules]
        · refine someone_alive_of _ pa.actor hpaclt ?_
          show (((gsr.lose_influence (1 - pa.actor)).setPlayer pa.actor _).playerAt
            pa.actor).alive = true
          rw [playerAt_set_self _ _ _ (by rw [hf11, hrlen, hlen]; omega)]
          show ((gsr.lose_influence (1 - pa.actor)).playerAt pa.actor).alive = true
          rw [playerAt_lose_other _ _ _ (by omega), (hrpq pa.actor).1]
          exact hacur'
        · exact fun _ => ⟨rfl, rfl, rfl, rfl⟩
        · exact fun pa' hp => absurd (show (none : Option Action) = some pa' from hp) (by simp)
      · have hhf : gs.player_has_role pa.actor .DUKE = false := by simpa using hhr
        obtain ⟨hg1, hg2, hg3, hg4, hg5, hg6, hg7, hg8, hg9, hg10, hg11⟩ :=
          lose_influence_fields gs pa.actor
        refine apply_via_dispatch gs _ _ _ hl0 ha' hact
          (by simp only [GameState.applyDispatch, GameState.apply_challenge, hpa, hty]
              simp only [hhf, Bool.false_eq_true, if_false]
              rfl) ?_ ?_ ?_ ?_ ?_ ?_ ?_
        · show (gs.lose_influence pa.actor).num_players = 2
          rw [hg1, hnum]
        · simp [GameState.clear_pending, hg11, hlen]
        · show (gs.lose_influence pa.actor).current_player < 2
          rw [hg3]; exact hcur
        · show (gs.lose_influence pa.actor).rules = {}
          rw [hg2, hrules]
        · refine someone_alive_of _ (1 - pa.actor) h1mlt ?_
          show ((gs.lose_influence pa.actor).playerAt (1 - pa.actor)).alive = true
          rw [playerAt_lose_other _ _ _ (by omega)]
          exact hothp
        · exact fun _ => ⟨rfl, rfl, rfl, rfl⟩
        · exact fun pa' hp => absurd (show (none : Option Action) = some pa' from hp) (by simp)
    · -- Pass: the Tax resolves
      refine apply_via_dispatch gs _ _ _ hl0 ha' hact
        (by simp only [GameState.applyDispatch, GameState.apply_pass, hpa, hty]; rfl)
        ?_ ?_ ?_ ?_ ?_ ?_ ?_
      · exact hnum
      · simp [GameState.clear_pending, GameState.setPlayer, hlen]
      · exact hcur
      · exact hrules
      · exact alive_or_set_coins gs _ _ halive
      · exact fun _ => ⟨rfl, rfl, rfl, rfl⟩
      · exact fun pa' hp => absurd (show (none : Option Action) = some pa' from hp) (by simp)
  | some b =>
    obtain ⟨hb2, haw2, hrdk, hrc, hrs⟩ := hbs (by simp [hb])
    simp only [haw2] at hl
    injection hl with hleg
    subst hleg
    have ham := ha'
    simp only [List.mem_cons, List.mem_singleton, List.not_mem_nil, or_false] at ham
    rcases ham with rfl | rfl
    · -- Challenge by the actor of their own claim
      by_cases hhr : gs.player_has_role pa.actor .DUKE
      · obtain ⟨gsr, hrev, hrlen, hrnum, hrrules, hrcur, hrpa, hrbl, hrbr, hraw, hrcr, hrpq⟩ :=
          truthful_reveal_ok gs pa.actor .DUKE (by rw [hlen]; omega) hhr
        obtain ⟨hf1, hf2, hf3, hf4, hf5, hf6, hf7, hf8, hf9, hf10, hf11⟩ :=
          lose_influence_fields gsr pa.actor
        refine apply_via_dispatch gs _ _ _ hl0 ha' hact
          (by simp only [GameState.applyDispatch, GameState.apply_challenge, hpa, hty]
              simp only [hhr, if_true]
              rw [hrev, exceptBind_ok]) ?_ ?_ ?_ ?_ ?_ ?_ ?_
        · show (gsr.lose_influence pa.actor).num_players = 2
          rw [hf1, hrnum, hnum]
        · simp [GameState.clear_pending, GameState.setPlayer, hf11, hrlen, hlen]
        · show (gsr.lose_influence pa.actor).current_player < 2
          rw [hf3, hrcur]; exact hcur
        · show (gsr.lose_influence pa.actor).rules = {}
          rw [hf2, hrrules, hrules]
        · refine someone_alive_of _ (1 - pa.actor) h1mlt ?_
          show (((gsr.lose_influence pa.actor).setPlayer pa.actor _).playerAt
            (1 - pa.actor)).alive = true
          rw [playerAt_set_other _ _ _ _ (by omega)]
          rw [playerAt_lose_other _ _ _ (by omega), (hrpq (1 - pa.actor)).1]
          exact hothp
        · exact fun _ => ⟨rfl, rfl, rfl, rfl⟩
        · exact fun pa' hp => absurd (show (none : Option Action) = some pa' from hp) (by simp)
      · have hhf : gs.player_has_role pa.actor .DUKE = false := by simpa using hhr
        obtain ⟨hg1, hg2, hg3, hg4, hg5, hg6, hg7, hg8, hg9, hg10, hg11⟩ :=
          lose_influence_fields gs pa.actor
        refine apply_via_dispatch gs _ _ _ hl0 ha' hact
          (by simp only [GameState.applyDispatch, GameState.apply_challenge, hpa, hty]
              simp only [hhf, Bool.false_eq_true, if_false]
              rfl) ?_ ?_ ?_ ?_ ?_ ?_ ?_
        · show (gs.lose_influence pa.actor).num_players = 2
          rw [hg1, hnum]
        · simp [GameState.clear_pending, hg11, hlen]
        · show (gs.lose_influence pa.actor).current_player < 2
          rw [hg3]; exact hcur
        · show (gs.lose_influence pa.actor).rules = {}
          rw [hg2, hrules]
        · refine someone_alive_of _ (1 - pa.actor) h1mlt ?_
          show ((gs.lose_influence pa.actor).playerAt (1 - pa.actor)).alive = true
          rw [playerAt_lose_other _ _ _ (by omega)]
          exact hothp
        · exact fun _ => ⟨rfl, rfl, rfl, rfl⟩
        · exact fun pa' hp => absurd (show (none : Option Action) = some pa' from hp) (by simp)
    · -- Pass: the Tax resolves
      refine apply_via_dispatch gs _ _ _ hl0 ha' hact
        (by simp only [GameState.applyDispatch, GameState.apply_pass, hpa, hty]; rfl)
        ?_ ?_ ?_ ?_ ?_ ?_ ?_
      · exact hnum
      · simp [GameState.clear_pending, GameState.setPlayer, hlen]
      · exact hcur
      · exact hrules
      · exact alive_or_set_coins gs _ _ halive
      · exact fun _ => ⟨rfl, rfl, rfl, rfl⟩
      · exact fun pa' hp => absurd (show (none : Option Action) = some pa' from hp) (by simp)

/-- Applying a legal response to a pending Exchange succeeds and preserves
the invariant. -/
theorem response_exchange_ok (gs : GameState) (legal : List Action) (a : Action) (pa : Action)
    (hnum : gs.num_players = 2) (hlen : gs.players.length = 2)
    (hcur : gs.current_player < 2) (hrules : gs.rules = {}) (hwin : gs.winner = none)
    (hpa : gs.pending_action = some pa) (hactor : pa.actor = gs.current_player)
    (hty : pa.type = .EXCHANGE)
    (htarget : (pa.type = .STEAL ∨ pa.type = .ASSASSINATE) → pa.target = some (1 - pa.actor))
    (hbn : gs.pending_blocker = none → gs.awaiting_response_from = some (1 - pa.actor))
    (hbs : gs.pending_blocker ≠ none →
      gs.pending_blocker = some (1 - pa.actor) ∧
      gs.awaiting_response_from = some pa.actor ∧
      (pa.type = .FOREIGN_AID → gs.pending_block_role = some .DUKE) ∧
      (pa.type = .ASSASSINATE → gs.pending_block_role = some .CONTESSA) ∧
      (pa.type = .STEAL →
        gs.pending_block_role = some .CAPTAIN ∨ gs.pending_block_role = some .AMBASSADOR))
    (ha0g : (gs.playerAt 0).alive = true) (ha1g : (gs.playerAt 1).alive = true)
    (hl0 : gs.legal_actions = .ok legal) (ha' : a ∈ legal) :
    ∃ gs', gs.apply a = .ok gs' ∧ WF gs' := by
  have hpaclt : pa.actor < 2 := by rw [hactor]; exact hcur
  have h1mlt : (1 : Nat) - pa.actor < 2 := by omega
  have hacur' : (gs.playerAt pa.actor).alive = true := by
    have h01 : pa.actor = 0 ∨ pa.actor = 1 := by omega
    rcases h01 with h | h <;> rw [h] <;> assumption
  have hothp : (gs.playerAt (1 - pa.actor)).alive = true := by
    have h01 : 1 - pa.actor = 0 ∨ 1 - pa.actor = 1 := by omega
    rcases h01 with h | h <;> rw [h] <;> assumption
  have halive : (gs.playerAt 0).alive = true ∨ (gs.playerAt 1).alive = true := Or.inl ha0g
  have hact : ¬(gs.pending_action = none ∧ a.actor ≠ gs.current_player) := by simp [hpa]
  have hl := hl0
  simp only [GameState.legal_actions, hwin, hpa, GameState.legal_responses, hty] at hl
  cases hb : gs.pending_blocker with
  | none =>
    have haw := hbn hb
    simp only [haw] at hl
    injection hl with hleg
    subst hleg
    have ham := ha'
    simp only [List.mem_cons, List.mem_singleton, List.not_mem_nil, or_false] at ham
    rcases ham with rfl | rfl
    · -- Challenge by the opponent
      by_cases hhr : gs.player_has_role pa.actor .AMBASSADOR
      · obtain ⟨gsr, hrev, hrlen, hrnum, hrrules, hrcur, hrpa, hrbl, hrbr, hraw, hrcr, hrpq⟩ :=
          truthful_reveal_ok gs pa.actor .AMBASSADOR (by rw [hlen]; omega) hhr
        obtain ⟨hf1, hf2, hf3, hf4, hf5, hf6, hf7, hf8, hf9, hf10, hf11⟩ :=
          lose_influence_fields gsr (1 - pa.actor)
        obtain ⟨he1, he2, he3, he4, he5, he6, he7, he8, he9, he10, he11⟩ :=
          perform_exchange_fields (gsr.lose_influence (1 - pa.actor)) pa.actor
        refine apply_via_dispatch gs _ _ _ hl0 ha' hact
          (by simp only [GameState.applyDispatch, GameState.apply_challenge, hpa, hty]
              simp only [hhr, if_true]
              rw [hrev, exceptBind_ok]) ?_ ?_ ?_ ?_ ?_ ?_ ?_
        · show ((gsr.lose_influence (1 - pa.actor)).perform_exchange pa.actor).num_players = 2
          rw [he1, hf1, hrnum, hnum]
        · show ((gsr.lose_influence (1 - pa.actor)).perform_exchange
            pa.actor).players.length = 2
          rw [he10, hf11, hrlen, hlen]
        · show ((gsr.lose_influence (1 - pa.actor)).perform_exchange
            pa.actor).current_player < 2
          rw [he3, hf3, hrcur]; exact hcur
        · show ((gsr.lose_influence (1 - pa.actor)).perform_exchange pa.actor).rules = {}
          rw [he2, hf2, hrrules, hrules]
        · refine someone_alive_of _ pa.actor hpaclt ?_
          show (((gsr.lose_influence (1 - pa.actor)).perform_exchange pa.actor).playerAt
            pa.actor).alive = true
          refine perform_exchange_alive _ pa.actor (by rw [hf11, hrlen, hlen]; omega) ?_
            (by rw [hf2, hrrules]; exact hrules)
          rw [playerAt_lose_other _ _ _ (by omega), (hrpq pa.actor).1]
          exact hacur'
        · exact fun _ => ⟨rfl, rfl, rfl, rfl⟩
        · exact fun pa' hp => absurd (show (none : Option Action) = some pa' from hp) (by simp)
      · have hhf : gs.player_has_role pa.actor .AMBASSADOR = false := by simpa using hhr
        obtain ⟨hg1, hg2, hg3, hg4, hg5, hg6, hg7, hg8, hg9, hg10, hg11⟩ :=
          lose_influence_fields gs pa.actor
        refine apply_via_dispatch gs _ _ _ hl0 ha' hact
          (by simp only [GameState.applyDispatch, GameState.apply_challenge, hpa, hty]
              simp only [hhf, Bool.false_eq_true, if_false]
              rfl) ?_ ?_ ?_ ?_ ?_ ?_ ?_
        · show (gs.lose_influence pa.actor).num_players = 2
          rw [hg1, hnum]
        · simp [GameState.clear_pending, hg11, hlen]
        · show (gs.lose_influence pa.actor).current_player < 2
          rw [hg3]; exact hcur
        · show (gs.lose_influence pa.actor).rules = {}
          rw [hg2, hrules]
        · refine someone_alive_of _ (1 - pa.actor) h1mlt ?_
          show ((gs.lose_influence pa.actor).playerAt (1 - pa.actor)).alive = true
          rw [playerAt_lose_other _ _ _ (by omega)]
          exact hothp
        · exact fun _ => ⟨rfl, rfl, rfl, rfl⟩
        · exact fun pa' hp => absurd (show (none : Option Action) = some pa' from hp) (by simp)
    · -- Pass: the Exchange executes
      obtain ⟨he1, he2, he3, he4, he5, he6, he7, he8, he9, he10, he11⟩ :=
        perform_exchange_fields gs pa.actor
      refine apply_via_dispatch gs _ _ _ hl0 ha' hact
        (by simp only [GameState.applyDispatch, GameState.apply_pass, hpa, hty]; rfl)
        ?_ ?_ ?_ ?_ ?_ ?_ ?_
      · show (gs.perform_exchange pa.actor).num_players = 2
        rw [he1, hnum]
      · show (gs.perform_exchange pa.actor).players.length = 2
        rw [he10, hlen]
      · show (gs.perform_exchange pa.actor).current_player < 2
        rw [he3]; exact hcur
      · show (gs.perform_exchange pa.actor).rules = {}
        rw [he2, hrules]
      · refine someone_alive_of _ pa.actor hpaclt ?_
        show ((gs.perform_exchange pa.actor).playerAt pa.actor).alive = true
        exact perform_exchange_alive gs pa.actor (by rw [hlen]; omega) hacur' hrules
      · exact fun _ => ⟨rfl, rfl, rfl, rfl⟩
      · exact fun pa' hp => absurd (show (none : Option Action) = some pa' from hp) (by simp)
  | some b =>
    obtain ⟨hb2, haw2, hrdk, hrc, hrs⟩ := hbs (by simp [hb])
    simp only [haw2] at hl
    injection hl with hleg
    subst hleg
    have ham := ha'
    simp only [List.mem_cons, List.mem_singleton, List.not_mem_nil, or_false] at ham
    rcases ham with rfl | rfl
    · -- Challenge by the actor of their own claim
      by_cases hhr : gs.player_has_role pa.actor .AMBASSADOR
      · obtain ⟨gsr, hrev, hrlen, hrnum, hrrules, hrcur, hrpa, hrbl, hrbr, hraw, hrcr, hrpq⟩ :=
          truthful_reveal_ok gs pa.actor .AMBASSADOR (by rw [hlen]; omega) hhr
        obtain ⟨hf1, hf2, hf3, hf4, hf5, hf6, hf7, hf8, hf9, hf10, hf11⟩ :=
          lose_influence_fields gsr pa.actor
        obtain ⟨he1, he2, he3, he4, he5, he6, he7, he8, he9, he10, he11⟩ :=
          perform_exchange_fields (gsr.lose_influence pa.actor) pa.actor
        refine apply_via_dispatch gs _ _ _ hl0 ha' hact
          (by simp only [GameState.applyDispatch, GameState.apply_challenge, hpa, hty]
              simp only [hhr, if_true]
              rw [hrev, exceptBind_ok]) ?_ ?_ ?_ ?_ ?_ ?_ ?_
        · show ((gsr.lose_influence pa.actor).perform_exchange pa.actor).num_players = 2
          rw [he1, hf1, hrnum, hnum]
        · show ((gsr.lose_influence pa.actor).perform_exchange pa.actor).players.length = 2
          rw [he10, hf11, hrlen, hlen]
        · show ((gsr.lose_influence pa.actor).perform_exchange pa.actor).current_player < 2
          rw [he3, hf3, hrcur]; exact hcur
        · show ((gsr.lose_influence pa.actor).perform_exchange pa.actor).rules = {}
          rw [he2, hf2, hrrules, hrules]
        · refine someone_alive_of _ (1 - pa.actor) h1mlt ?_
          show (((gsr.lose_influence pa.actor).perform_exchange pa.actor).playerAt
            (1 - pa.actor)).alive = true
          rw [he11 (1 - pa.actor) (by omega)]
          rw [playerAt_lose_other _ _ _ (by omega), (hrpq (1 - pa.actor)).1]
          exact hothp
        · exact fun _ => ⟨rfl, rfl, rfl, rfl⟩
        · exact fun pa' hp => absurd (show (none : Option Action) = some pa' from hp) (by simp)
      · have hhf : gs.player_has_role pa.actor .AMBASSADOR = false := by simpa using hhr
        obtain ⟨hg1, hg2, hg3, hg4, hg5, hg6, hg7, hg8, hg9, hg10, hg11⟩ :=
          lose_influence_fields gs pa.actor
        refine apply_via_dispatch gs _ _ _ hl0 ha' hact
          (by simp only [GameState.applyDispatch, GameState.apply_challenge, hpa, hty]
              simp only [hhf, Bool.false_eq_true, if_false]
              rfl) ?_ ?_ ?_ ?_ ?_ ?_ ?_
        · show (gs.lose_influence pa.actor).num_players = 2
          rw [hg1, hnum]
        · simp [GameState.clear_pending, hg11, hlen]
        · show (gs.lose_influence pa.actor).current_player < 2
          rw [hg3]; exact hcur
        · show (gs.lose_influence pa.actor).rules = {}
          rw [hg2, hrules]
        · refine someone_alive_of _ (1 - pa.actor) h1mlt ?_
          show ((gs.lose_influence pa.actor).playerAt (1 - pa.actor)).alive = true
          rw [playerAt_lose_other _ _ _ (by omega)]
          exact hothp
        · exact fun _ => ⟨rfl, rfl, rfl, rfl⟩
        · exact fun pa' hp => absurd (show (none : Option Action) = some pa' from hp) (by simp)
    · -- Pass: the Exchange executes
      obtain ⟨he1, he2, he3, he4, he5, he6, he7, he8, he9, he10, he11⟩ :=
        perform_exchange_fields gs pa.actor
      refine apply_via_dispatch gs _ _ _ hl0 ha' hact
        (by simp only [GameState.applyDispatch, GameState.apply_pass, hpa, hty]; rfl)
        ?_ ?_ ?_ ?_ ?_ ?_ ?_
      · show (gs.perform_exchange pa.actor).num_players = 2
        rw [he1, hnum]
      · show (gs.perform_exchange pa.actor).players.length = 2
        rw [he10, hlen]
      · show (gs.perform_exchange pa.actor).current_player < 2
        rw [he3]; exact hcur
      · show (gs.perform_exchange pa.actor).rules = {}
        rw [he2, hrules]
      · refine someone_alive_of _ pa.actor hpaclt ?_
        show ((gs.perform_exchange pa.actor).playerAt pa.actor).alive = true
        exact perform_exchange_alive gs pa.actor (by rw [hlen]; omega) hacur' hrules
      · exact fun _ => ⟨rfl, rfl, rfl, rfl⟩
      · exact fun pa' hp => absurd (show (none : Option Action) = some pa' from hp) (by simp)

/-- Applying a legal response to a pending Steal succeeds and preserves the
invariant. -/
theorem response_steal_ok (gs : GameState) (legal : List Action) (a : Action) (pa : Action)
    (hnum : gs.num_players = 2) (hlen : gs.players.length = 2)
    (hcur : gs.current_player < 2) (hrules : gs.rules = {}) (hwin : gs.winner = none)
    (hpa : gs.pending_action = some pa) (hactor : pa.actor = gs.current_player)
    (hty : pa.type = .STEAL)
    (htarget : (pa.type = .STEAL ∨ pa.type = .ASSASSINATE) → pa.target = some (1 - pa.actor))
    (hbn : gs.pending_blocker = none → gs.awaiting_response_from = some (1 - pa.actor))
    (hbs : gs.pending_blocker ≠ none →
      gs.pending_blocker = some (1 - pa.actor) ∧
      gs.awaiting_response_from = some pa.actor ∧
      (pa.type = .FOREIGN_AID → gs.pending_block_role = some .DUKE) ∧
      (pa.type = .ASSASSINATE → gs.pending_block_role = some .CONTESSA) ∧
      (pa.type = .STEAL →
        gs.pending_block_role = some .CAPTAIN ∨ gs.pending_block_role = some .AMBASSADOR))
    (ha0g : (gs.playerAt 0).alive = true) (ha1g : (gs.playerAt 1).alive = true)
    (hl0 : gs.legal_actions = .ok legal) (ha' : a ∈ legal) :
    ∃ gs', gs.apply a = .ok gs' ∧ WF gs' := by
  have hpaclt : pa.actor < 2 := by rw [hactor]; exact hcur
  have h1mlt : (1 : Nat) - pa.actor < 2 := by omega
  have hacur' : (gs.playerAt pa.actor).alive = true := by
    have h01 : pa.actor = 0 ∨ pa.actor = 1 := by omega
    rcases h01 with h | h <;> rw [h] <;> assumption
  have hothp : (gs.playerAt (1 - pa.actor)).alive = true := by
    have h01 : 1 - pa.actor = 0 ∨ 1 - pa.actor = 1 := by omega
    rcases h01 with h | h <;> rw [h] <;> assumption
  have halive : (gs.playerAt 0).alive = true ∨ (gs.playerAt 1).alive = true := Or.inl ha0g
  have hact : ¬(gs.pending_action = none ∧ a.actor ≠ gs.current_player) := by simp [hpa]
  have htargetS : pa.target = some (1 - pa.actor) := htarget (Or.inl hty)
  have hl := hl0
  simp only [GameState.legal_actions, hwin, hpa, GameState.legal_responses, hty] at hl
  cases hb : gs.pending_blocker with
  | none =>
    have haw := hbn hb
    simp only [hb, haw] at hl
    injection hl with hleg
    subst hleg
    have ham := ha'
    simp only [List.mem_cons, List.mem_singleton, List.not_mem_nil, or_false] at ham
    rcases ham with rfl | rfl | rfl | rfl
    · -- Pass: the steal transfer resolves
      obtain ⟨gst, hst, hstlen, hstnum, hstrules, hstcur, hstdeck, hstrng, hstpa, hstbl,
        hstbr, hstaw, hstcr, hstal⟩ := steal_transfer_ok gs pa (1 - pa.actor) hpa hty htargetS
      refine apply_via_dispatch gs _ _ _ hl0 ha' hact
        (by simp only [GameState.applyDispatch, GameState.apply_pass, hpa, hty, hb]
            rw [hst]
            simp only [exceptBind_ok]; rfl) ?_ ?_ ?_ ?_ ?_ ?_ ?_
      · show gst.num_players = 2
        rw [hstnum, hnum]
      · show gst.players.length = 2
        rw [hstlen, hlen]
      · show gst.current_player < 2
        rw [hstcur]; exact hcur
      · show gst.rules = {}
        rw [hstrules, hrules]
      · refine someone_alive_of _ pa.actor hpaclt ?_
        show (gst.playerAt pa.actor).alive = true
        rw [hstal pa.actor]
        exact hacur'
      · exact fun _ => ⟨rfl, rfl, rfl, rfl⟩
      · exact fun pa' hp => absurd (show (none : Option Action) = some pa' from hp) (by simp)
    · -- Block with Captain
      refine apply_via_dispatch gs _ _ _ hl0 ha' hact
        (by simp only [GameState.applyDispatch, GameState.apply_block_steal_captain, hpa, hty,
              if_true]
            rw [if_pos htargetS]) ?_ ?_ ?_ ?_ ?_ ?_ ?_
      · exact hnum
      · exact hlen
      · exact hcur
      · exact hrules
      · exact halive
      · exact fun hp => absurd (show (some pa : Option Action) = none from hp) (by simp)
      · intro pa' hp
        have h2 : (some pa : Option Action) = some pa' := hp
        injection h2 with h3
        subst h3
        exact ⟨hactor, Or.inr (Or.inr (Or.inr (Or.inl hty))), htarget,
          fun hp' => by simp at hp',
          fun _ => ⟨rfl, rfl, fun h => by simp [hty] at h, fun h => by simp [hty] at h,
            fun _ => Or.inl rfl⟩, ha0g, ha1g⟩
    · -- Block with Ambassador
      refine apply_via_dispatch gs _ _ _ hl0 ha' hact
        (by simp only [GameState.applyDispatch, GameState.apply_block_steal_ambassador, hpa,
              hty, if_true]
            rw [if_pos htargetS]) ?_ ?_ ?_ ?_ ?_ ?_ ?_
      · exact hnum
      · exact hlen
      · exact hcur
      · exact hrules
      · exact halive
      · exact fun hp => absurd (show (some pa : Option Action) = none from hp) (by simp)
      · intro pa' hp
        have h2 : (some pa : Option Action) = some pa' := hp
        injection h2 with h3
        subst h3
        exact ⟨hactor, Or.inr (Or.inr (Or.inr (Or.inl hty))), htarget,
          fun hp' => by simp at hp',
          fun _ => ⟨rfl, rfl, fun h => by simp [hty] at h, fun h => by simp [hty] at h,
            fun _ => Or.inr rfl⟩, ha0g, ha1g⟩
    · -- Challenge of the Captain claim
      by_cases hhr : gs.player_has_role pa.actor .CAPTAIN
      · obtain ⟨gsr, hrev, hrlen, hrnum, hrrules, hrcur, hrpa, hrbl, hrbr, hraw, hrcr, hrpq⟩ :=
          truthful_reveal_ok gs pa.actor .CAPTAIN (by rw [hlen]; omega) hhr
        obtain ⟨hf1, hf2, hf3, hf4, hf5, hf6, hf7, hf8, hf9, hf10, hf11⟩ :=
          lose_influence_fields gsr (1 - pa.actor)
        have hpa2 : (gsr.lose_influence (1 - pa.actor)).pending_action = some pa := by
          rw [hf6, hrpa]; exact hpa
        obtain ⟨gst, hst, hstlen, hstnum, hstrules, hstcur, hstdeck, hstrng, hstpa, hstbl,
          hstbr, hstaw, hstcr, hstal⟩ :=
          steal_transfer_ok (gsr.lose_influence (1 - pa.actor)) pa (1 - pa.actor) hpa2 hty
            htargetS
        refine apply_via_dispatch gs _ _ _ hl0 ha' hact
          (by simp only [GameState.applyDispatch, GameState.apply_challenge, hpa, hty,
                htargetS, hb]
              simp only [hhr, if_true]
              rw [hrev]
              simp only [exceptBind_ok]
              rw [hst]
              simp only [exceptBind_ok]; rfl) ?_ ?_ ?_ ?_ ?_ ?_ ?_
        · show gst.num_players = 2
          rw [hstnum, hf1, hrnum, hnum]
        · show gst.players.length = 2
          rw [hstlen, hf11, hrlen, hlen]
        · show gst.current_player < 2
          rw [hstcur, hf3, hrcur]; exact hcur
        · show gst.rules = {}
          rw [hstrules, hf2, hrrules, hrules]
        · refine someone_alive_of _ pa.actor hpaclt ?_
          show (gst.playerAt pa.actor).alive = true
          rw [hstal pa.actor, playerAt_lose_other _ _ _ (by omega), (hrpq pa.actor).1]
          exact hacur'
        · exact fun _ => ⟨rfl, rfl, rfl, rfl⟩
        · exact fun pa' hp => absurd (show (none : Option Action) = some pa' from hp) (by simp)
      · have hhf : gs.player_has_role pa.actor .CAPTAIN = false := by simpa using hhr
        obtain ⟨hg1, hg2, hg3, hg4, hg5, hg6, hg7, hg8, hg9, hg10, hg11⟩ :=
          lose_influence_fields gs pa.actor
        refine apply_via_dispatch gs _ _ _ hl0 ha' hact
          (by simp only [GameState.applyDispatch, GameState.apply_challenge, hpa, hty,
                htargetS, hb]
              simp only [hhf, Bool.false_eq_true, if_false]
              rfl) ?_ ?_ ?_ ?_ ?_ ?_ ?_
        · show (gs.lose_influence pa.actor).num_players = 2
          rw [hg1, hnum]
        · simp [GameState.clear_pending, hg11, hlen]
        · show (gs.lose_influence pa.actor).current_player < 2
          rw [hg3]; exact hcur
        · show (gs.lose_influence pa.actor).rules = {}
          rw [hg2, hrules]
        · refine someone_alive_of _ (1 - pa.actor) h1mlt ?_
          show ((gs.lose_influence pa.actor).playerAt (1 - pa.actor)).alive = true
          rw [playerAt_lose_other _ _ _ (by omega)]
          exact hothp
        · exact fun _ => ⟨rfl, rfl, rfl, rfl⟩
        · exact fun pa' hp => absurd (show (none : Option Action) = some pa' from hp) (by simp)
  | some b =>
    obtain ⟨hb2, haw2, hrdk, hrc, hrs⟩ := hbs (by simp [hb])
    have hbv : b = 1 - pa.actor := by
      rw [hb] at hb2
      injection hb2
    subst hbv
    simp only [hb] at hl
    injection hl with hleg
    subst hleg
    have ham := ha'
    simp only [List.mem_cons, List.mem_singleton, List.not_mem_nil, or_false] at ham
    rcases ham with rfl | rfl
    · -- Challenge of the block
      rcases hrs hty with hrole | hrole
      · -- Captain block claimed
        by_cases hhr : gs.player_has_role (1 - pa.actor) .CAPTAIN
        · obtain ⟨gsr, hrev, hrlen, hrnum, hrrules, hrcur, hrpa, hrbl, hrbr, hraw, hrcr,
            hrpq⟩ := truthful_reveal_ok gs (1 - pa.actor) .CAPTAIN (by rw [hlen]; omega) hhr
          obtain ⟨hf1, hf2, hf3, hf4, hf5, hf6, hf7, hf8, hf9, hf10, hf11⟩ :=
            lose_influence_fields gsr pa.actor
          refine apply_via_dispatch gs _ _ _ hl0 ha' hact
            (by simp only [GameState.applyDispatch, GameState.apply_challenge, hpa, hty,
                  htargetS, hb]
                rw [if_pos hrole]
                simp only [hhr, if_true]
                rw [hrev]
                simp only [exceptBind_ok]; rfl) ?_ ?_ ?_ ?_ ?_ ?_ ?_
          · show (gsr.lose_influence pa.actor).num_players = 2
            rw [hf1, hrnum, hnum]
          · simp [GameState.clear_pending, hf11, hrlen, hlen]
          · show (gsr.lose_influence pa.actor).current_player < 2
            rw [hf3, hrcur]; exact hcur
          · show (gsr.lose_influence pa.actor).rules = {}
            rw [hf2, hrrules, hrules]
          · refine someone_alive_of _ (1 - pa.actor) h1mlt ?_
            show ((gsr.lose_influence pa.actor).playerAt (1 - pa.actor)).alive = true
            rw [playerAt_lose_other _ _ _ (by omega), (hrpq (1 - pa.actor)).1]
            exact hothp
          · exact fun _ => ⟨rfl, rfl, rfl, rfl⟩
          · exact fun pa' hp =>
              absurd (show (none : Option Action) = some pa' from hp) (by simp)
        · have hhf : gs.player_has_role (1 - pa.actor) .CAPTAIN = false := by simpa using hhr
          obtain ⟨hg1, hg2, hg3, hg4, hg5, hg6, hg7, hg8, hg9, hg10, hg11⟩ :=
            lose_influence_fields gs (1 - pa.actor)
          have hpa1 : (gs.lose_influence (1 - pa.actor)).pending_action = some pa := by
            rw [hg6]; exact hpa
          obtain ⟨gst, hst, hstlen, hstnum, hstrules, hstcur, hstdeck, hstrng, hstpa, hstbl,
            hstbr, hstaw, hstcr, hstal⟩ :=
            steal_transfer_ok (gs.lose_influence (1 - pa.actor)) pa (1 - pa.actor) hpa1 hty
              htargetS
          refine apply_via_dispatch gs _ _ _ hl0 ha' hact
            (by simp only [GameState.applyDispatch, GameState.apply_challenge, hpa, hty,
                  htargetS, hb]
                rw [if_pos hrole]
                simp only [hhf, Bool.false_eq_true, if_false]
                rw [hst]
                simp only [exceptBind_ok]; rfl) ?_ ?_ ?_ ?_ ?_ ?_ ?_
          · show gst.num_players = 2
            rw [hstnum, hg1, hnum]
          · show gst.players.length = 2
            rw [hstlen, hg11, hlen]
          · show gst.current_player < 2
            rw [hstcur, hg3]; exact hcur
          · show gst.rules = {}
            rw [hstrules, hg2, hrules]
          · refine someone_alive_of _ pa.actor hpaclt ?_
            show (gst.playerAt pa.actor).alive = true
            rw [hstal pa.actor, playerAt_lose_other _ _ _ (by omega)]
            exact hacur'
          · exact fun _ => ⟨rfl, rfl, rfl, rfl⟩
          · exact fun pa' hp =>
              absurd (show (none : Option Action) = some pa' from hp) (by simp)
      · -- Ambassador block claimed
        have hnc : ¬(gs.pending_block_role = some .CAPTAIN) := by
          rw [hrole]; simp
        by_cases hhr : gs.player_has_role (1 - pa.actor) .AMBASSADOR
        · obtain ⟨gsr, hrev, hrlen, hrnum, hrrules, hrcur, hrpa, hrbl, hrbr, hraw, hrcr,
            hrpq⟩ :=
            truthful_reveal_ok gs (1 - pa.actor) .AMBASSADOR (by rw [hlen]; omega) hhr
          obtain ⟨hf1, hf2, hf3, hf4, hf5, hf6, hf7, hf8, hf9, hf10, hf11⟩ :=
            lose_influence_fields gsr pa.actor
          refine apply_via_dispatch gs _ _ _ hl0 ha' hact
            (by simp only [GameState.applyDispatch, GameState.apply_challenge, hpa, hty,
                  htargetS, hb]
                rw [if_neg hnc, if_pos hrole]
                simp only [hhr, if_true]
                rw [hrev]
                simp only [exceptBind_ok]; rfl) ?_ ?_ ?_ ?_ ?_ ?_ ?_
          · show (gsr.lose_influence pa.actor).num_players = 2
            rw [hf1, hrnum, hnum]
          · simp [GameState.clear_pending, hf11, hrlen, hlen]
          · show (gsr.lose_influence pa.actor).current_player < 2
            rw [hf3, hrcur]; exact hcur
          · show (gsr.lose_influence pa.actor).rules = {}
            rw [hf2, hrrules, hrules]
          · refine someone_alive_of _ (1 - pa.actor) h1mlt ?_
            show ((gsr.lose_influence pa.actor).playerAt (1 - pa.actor)).alive = true
            rw [playerAt_lose_other _ _ _ (by omega), (hrpq (1 - pa.actor)).1]
            exact hothp
          · exact fun _ => ⟨rfl, rfl, rfl, rfl⟩
          · exact fun pa' hp =>
              absurd (show (none : Option Action) = some pa' from hp) (by simp)
        · have hhf : gs.player_has_role (1 - pa.actor) .AMBASSADOR = false := by
            simpa using hhr
          obtain ⟨hg1, hg2, hg3, hg4, hg5, hg6, hg7, hg8, hg9, hg10, hg11⟩ :=
            lose_influence_fields gs (1 - pa.actor)
          have hpa1 : (gs.lose_influence (1 - pa.actor)).pending_action = some pa := by
            rw [hg6]; exact hpa
          obtain ⟨gst, hst, hstlen, hstnum, hstrules, hstcur, hstdeck, hstrng, hstpa, hstbl,
            hstbr, hstaw, hstcr, hstal⟩ :=
            steal_transfer_ok (gs.lose_influence (1 - pa.actor)) pa (1 - pa.actor) hpa1 hty
              htargetS
          refine apply_via_dispatch gs _ _ _ hl0 ha' hact
            (by simp only [GameState.applyDispatch, GameState.apply_challenge, hpa, hty,
                  htargetS, hb]
                rw [if_neg hnc, if_pos hrole]
                simp only [hhf, Bool.false_eq_true, if_false]
                rw [hst]
                simp only [exceptBind_ok]; rfl) ?_ ?_ ?_ ?_ ?_ ?_ ?_
          · show gst.num_players = 2
            rw [hstnum, hg1, hnum]
          · show gst.players.length = 2
            rw [hstlen, hg11, hlen]
          · show gst.current_player < 2
            rw [hstcur, hg3]; exact hcur
          · show gst.rules = {}
            rw [hstrules, hg2, hrules]
          · refine someone_alive_of _ pa.actor hpaclt ?_
            show (gst.playerAt pa.actor).alive = true
            rw [hstal pa.actor, playerAt_lose_other _ _ _ (by omega)]
            exact hacur'
          · exact fun _ => ⟨rfl, rfl, rfl, rfl⟩
          · exact fun pa' hp =>
              absurd (show (none : Option Action) = some pa' from hp) (by simp)
    · -- Pass: the actor accepts the block
      refine apply_via_dispatch gs _ _ _ hl0 ha' hact
        (by simp only [GameState.applyDispatch, GameState.apply_pass, hpa, hty, hb]; rfl)
        ?_ ?_ ?_ ?_ ?_ ?_ ?_
      · exact hnum
      · exact hlen
      · exact hcur
      · exact hrules
      · exact halive
      · exact fun _ => ⟨rfl, rfl, rfl, rfl⟩
      · exact fun pa' hp => absurd (show (none : Option Action) = some pa' from hp) (by simp)

/-- Applying a legal response to a pending Assassinate succeeds and
preserves the invariant. -/
theorem response_assassinate_ok (gs : GameState) (legal : List Action) (a : Action)
    (pa : Action)
    (hnum : gs.num_players = 2) (hlen : gs.players.length = 2)
    (hcur : gs.current_player < 2) (hrules : gs.rules = {}) (hwin : gs.winner = none)
    (hpa : gs.pending_action = some pa) (hactor : pa.actor = gs.current_player)
    (hty : pa.type = .ASSASSINATE)
    (htarget : (pa.type = .STEAL ∨ pa.type = .ASSASSINATE) → pa.target = some (1 - pa.actor))
    (hbn : gs.pending_blocker = none → gs.awaiting_response_from = some (1 - pa.actor))
    (hbs : gs.pending_blocker ≠ none →
      gs.pending_blocker = some (1 - pa.actor) ∧
      gs.awaiting_response_from = some pa.actor ∧
      (pa.type = .FOREIGN_AID → gs.pending_block_role = some .DUKE) ∧
      (pa.type = .ASSASSINATE → gs.pending_block_role = some .CONTESSA) ∧
      (pa.type = .STEAL →
        gs.pending_block_role = some .CAPTAIN ∨ gs.pending_block_role = some .AMBASSADOR))
    (ha0g : (gs.playerAt 0).alive = true) (ha1g : (gs.playerAt 1).alive = true)
    (hl0 : gs.legal_actions = .ok legal) (ha' : a ∈ legal) :
    ∃ gs', gs.apply a = .ok gs' ∧ WF gs' := by
  have hpaclt : pa.actor < 2 := by rw [hactor]; exact hcur
  have h1mlt : (1 : Nat) - pa.actor < 2 := by omega
  have hacur' : (gs.playerAt pa.actor).alive = true := by
    have h01 : pa.actor = 0 ∨ pa.actor = 1 := by omega
    rcases h01 with h | h <;> rw [h] <;> assumption
  have hothp : (gs.playerAt (1 - pa.actor)).alive = true := by
    have h01 : 1 - pa.actor = 0 ∨ 1 - pa.actor = 1 := by omega
    rcases h01 with h | h <;> rw [h] <;> assumption
  have halive : (gs.playerAt 0).alive = true ∨ (gs.playerAt 1).alive = true := Or.inl ha0g
  have hact : ¬(gs.pending_action = none ∧ a.actor ≠ gs.current_player) := by simp [hpa]
  have htargetA : pa.target = some (1 - pa.actor) := htarget (Or.inr hty)
  have hl := hl0
  simp only [GameState.legal_actions, hwin, hpa, GameState.legal_responses, hty] at hl
  cases hb : gs.pending_blocker with
  | none =>
    have haw := hbn hb
    simp only [hb, haw] at hl
    injection hl with hleg
    subst hleg
    have ham := ha'
    simp only [List.mem_cons, List.mem_singleton, List.not_mem_nil, or_false] at ham
    rcases ham with rfl | rfl | rfl
    · -- Pass: the target loses one influence
      obtain ⟨hg1, hg2, hg3, hg4, hg5, hg6, hg7, hg8, hg9, hg10, hg11⟩ :=
        lose_influence_fields gs (1 - pa.actor)
      refine apply_via_dispatch gs _ _ _ hl0 ha' hact
        (by simp only [GameState.applyDispatch, GameState.apply_pass, hpa, hty, hb, htargetA]
            rfl) ?_ ?_ ?_ ?_ ?_ ?_ ?_
      · show (gs.lose_influence (1 - pa.actor)).num_players = 2
        rw [hg1, hnum]
      · simp [GameState.clear_pending, hg11, hlen]
      · show (gs.lose_influence (1 - pa.actor)).current_player < 2
        rw [hg3]; exact hcur
      · show (gs.lose_influence (1 - pa.actor)).rules = {}
        rw [hg2, hrules]
      · refine someone_alive_of _ pa.actor hpaclt ?_
        show ((gs.lose_influence (1 - pa.actor)).playerAt pa.actor).alive = true
        rw [playerAt_lose_other _ _ _ (by omega)]
        exact hacur'
      · exact fun _ => ⟨rfl, rfl, rfl, rfl⟩
      · exact fun pa' hp => absurd (show (none : Option Action) = some pa' from hp) (by simp)
    · -- Block with Contessa
      refine apply_via_dispatch gs _ _ _ hl0 ha' hact
        (by simp only [GameState.applyDispatch, GameState.apply_block_assassinate, hpa, hty,
              if_true]
            rw [if_pos htargetA]) ?_ ?_ ?_ ?_ ?_ ?_ ?_
      · exact hnum
      · exact hlen
      · exact hcur
      · exact hrules
      · exact halive
      · exact fun hp => absurd (show (some pa : Option Action) = none from hp) (by simp)
      · intro pa' hp
        have h2 : (some pa : Option Action) = some pa' := hp
        injection h2 with h3
        subst h3
        exact ⟨hactor, Or.inr (Or.inr (Or.inr (Or.inr hty))), htarget,
          fun hp' => by simp at hp',
          fun _ => ⟨rfl, rfl, fun h => by simp [hty] at h, fun _ => rfl,
            fun h => by simp [hty] at h⟩, ha0g, ha1g⟩
    · -- Challenge of the Assassin claim
      by_cases hhr : gs.player_has_role pa.actor .ASSASSIN
      · obtain ⟨gsr, hrev, hrlen, hrnum, hrrules, hrcur, hrpa, hrbl, hrbr, hraw, hrcr, hrpq⟩ :=
          truthful_reveal_ok gs pa.actor .ASSASSIN (by rw [hlen]; omega) hhr
        obtain ⟨hf1, hf2, hf3, hf4, hf5, hf6, hf7, hf8, hf9, hf10, hf11⟩ :=
          lose_influence_fields gsr (1 - pa.actor)
        obtain ⟨hh1, hh2, hh3, hh4, hh5, hh6, hh7, hh8, hh9, hh10, hh11⟩ :=
          lose_influence_fields (gsr.lose_influence (1 - pa.actor)) (1 - pa.actor)
        refine apply_via_dispatch gs _ _ _ hl0 ha' hact
          (by simp only [GameState.applyDispatch, GameState.apply_challenge, hpa, hty,
                htargetA, hb]
              simp only [hhr, if_true]
              rw [hrev]
              simp only [exceptBind_ok]; rfl) ?_ ?_ ?_ ?_ ?_ ?_ ?_
        · show ((gsr.lose_influence (1 - pa.actor)).lose_influence
            (1 - pa.actor)).num_players = 2
          rw [hh1, hf1, hrnum, hnum]
        · simp [GameState.clear_pending, hh11, hf11, hrlen, hlen]
        · show ((gsr.lose_influence (1 - pa.actor)).lose_influence
            (1 - pa.actor)).current_player < 2
          rw [hh3, hf3, hrcur]; exact hcur
        · show ((gsr.lose_influence (1 - pa.actor)).lose_influence (1 - pa.actor)).rules = {}
          rw [hh2, hf2, hrrules, hrules]
        · refine someone_alive_of _ pa.actor hpaclt ?_
          show (((gsr.lose_influence (1 - pa.actor)).lose_influence (1 - pa.actor)).playerAt
            pa.actor).alive = true
          rw [playerAt_lose_other _ _ _ (by omega), playerAt_lose_other _ _ _ (by omega),
            (hrpq pa.actor).1]
          exact hacur'
        · exact fun _ => ⟨rfl, rfl, rfl, rfl⟩
        · exact fun pa' hp => absurd (show (none : Option Action) = some pa' from hp) (by simp)
      · have hhf : gs.player_has_role pa.actor .ASSASSIN = false := by simpa using hhr
        obtain ⟨hg1, hg2, hg3, hg4, hg5, hg6, hg7, hg8, hg9, hg10, hg11⟩ :=
          lose_influence_fields gs pa.actor
        refine apply_via_dispatch gs _ _ _ hl0 ha' hact
          (by simp only [GameState.applyDispatch, GameState.apply_challenge, hpa, hty,
                htargetA, hb]
              simp only [hhf, Bool.false_eq_true, if_false]
              rfl) ?_ ?_ ?_ ?_ ?_ ?_ ?_
        · show (gs.lose_influence pa.actor).num_players = 2
          rw [hg1, hnum]
        · simp [GameState.clear_pending, hg11, hlen]
        · show (gs.lose_influence pa.actor).current_player < 2
          rw [hg3]; exact hcur
        · show (gs.lose_influence pa.actor).rules = {}
          rw [hg2, hrules]
        · refine someone_alive_of _ (1 - pa.actor) h1mlt ?_
          show ((gs.lose_influence pa.actor).playerAt (1 - pa.actor)).alive = true
          rw [playerAt_lose_other _ _ _ (by omega)]
          exact hothp
        · exact fun _ => ⟨rfl, rfl, rfl, rfl⟩
        · exact fun pa' hp => absurd (show (none : Option Action) = some pa' from hp) (by simp)
  | some b =>
    obtain ⟨hb2, haw2, hrdk, hrc, hrs⟩ := hbs (by simp [hb])
    have hbv : b = 1 - pa.actor := by
      rw [hb] at hb2
      injection hb2
    subst hbv
    have hrole := hrc hty
    simp only [hb] at hl
    injection hl with hleg
    subst hleg
    have ham := ha'
    simp only [List.mem_cons, List.mem_singleton, List.not_mem_nil, or_false] at ham
    rcases ham with rfl | rfl
    · -- Challenge of the Contessa block
      by_cases hhr : gs.player_has_role (1 - pa.actor) .CONTESSA
      · obtain ⟨gsr, hrev, hrlen, hrnum, hrrules, hrcur, hrpa, hrbl, hrbr, hraw, hrcr, hrpq⟩ :=
          truthful_reveal_ok gs (1 - pa.actor) .CONTESSA (by rw [hlen]; omega) hhr
        obtain ⟨hf1, hf2, hf3, hf4, hf5, hf6, hf7, hf8, hf9, hf10, hf11⟩ :=
          lose_influence_fields gsr pa.actor
        refine apply_via_dispatch gs _ _ _ hl0 ha' hact
          (by simp only [GameState.applyDispatch, GameState.apply_challenge, hpa, hty,
                htargetA, hb]
              rw [if_pos hrole]
              simp only [hhr, if_true]
              rw [hrev]
              simp only [exceptBind_ok]; rfl) ?_ ?_ ?_ ?_ ?_ ?_ ?_
        · show (gsr.lose_influence pa.actor).num_players = 2
          rw [hf1, hrnum, hnum]
        · simp [GameState.clear_pending, hf11, hrlen, hlen]
        · show (gsr.lose_influence pa.actor).current_player < 2
          rw [hf3, hrcur]; exact hcur
        · show (gsr.lose_influence pa.actor).rules = {}
          rw [hf2, hrrules, hrules]
        · refine someone_alive_of _ (1 - pa.actor) h1mlt ?_
          show ((gsr.lose_influence pa.actor).playerAt (1 - pa.actor)).alive = true
          rw [playerAt_lose_other _ _ _ (by omega), (hrpq (1 - pa.actor)).1]
          exact hothp
        · exact fun _ => ⟨rfl, rfl, rfl, rfl⟩
        · exact fun pa' hp => absurd (show (none : Option Action) = some pa' from hp) (by simp)
      · have hhf : gs.player_has_role (1 - pa.actor) .CONTESSA = false := by simpa using hhr
        obtain ⟨hg1, hg2, hg3, hg4, hg5, hg6, hg7, hg8, hg9, hg10, hg11⟩ :=
          lose_influence_fields gs (1 - pa.actor)
        obtain ⟨hh1, hh2, hh3, hh4, hh5, hh6, hh7, hh8, hh9, hh10, hh11⟩ :=
          lose_influence_fields (gs.lose_influence (1 - pa.actor)) (1 - pa.actor)
        refine apply_via_dispatch gs _ _ _ hl0 ha' hact
          (by simp only [GameState.applyDispatch, GameState.apply_challenge, hpa, hty,
                htargetA, hb]
              rw [if_pos hrole]
              simp only [hhf, Bool.false_eq_true, if_false]
              rfl) ?_ ?_ ?_ ?_ ?_ ?_ ?_
        · show ((gs.lose_influence (1 - pa.actor)).lose_influence
            (1 - pa.actor)).num_players = 2
          rw [hh1, hg1, hnum]
        · simp [GameState.clear_pending, hh11, hg11, hlen]
        · show ((gs.lose_influence (1 - pa.actor)).lose_influence
            (1 - pa.actor)).current_player < 2
          rw [hh3, hg3]; exact hcur
        · show ((gs.lose_influence (1 - pa.actor)).lose_influence (1 - pa.actor)).rules = {}
          rw [hh2, hg2, hrules]
        · refine someone_alive_of _ pa.actor hpaclt ?_
          show (((gs.lose_influence (1 - pa.actor)).lose_influence (1 - pa.actor)).playerAt
            pa.actor).alive = true
          rw [playerAt_lose_other _ _ _ (by omega), playerAt_lose_other _ _ _ (by omega)]
          exact hacur'
        · exact fun _ => ⟨rfl, rfl, rfl, rfl⟩
        · exact fun pa' hp => absurd (show (none : Option Action) = some pa' from hp) (by simp)
    · -- Pass: the actor accepts the block
      refine apply_via_dispatch gs _ _ _ hl0 ha' hact
        (by simp only [GameState.applyDispatch, GameState.apply_pass, hpa, hty, hb]; rfl)
        ?_ ?_ ?_ ?_ ?_ ?_ ?_
      · exact hnum
      · exact hlen
      · exact hcur
      · exact hrules
      · exact halive
      · exact fun _ => ⟨rfl, rfl, rfl, rfl⟩
      · exact fun pa' hp => absurd (show (none : Option Action) = some pa' from hp) (by simp)

/-- Applying any legal action from a well-formed state with no winner
succeeds and preserves the invariant. -/
theorem apply_legal_ok (gs : GameState) (legal : List Action) (a : Action)
    (hwf : WF gs) (hwin : gs.winner = none)
    (hl : gs.legal_actions = .ok legal) (ha : a ∈ legal) :
    ∃ gs', gs.apply a = .ok gs' ∧ WF gs' := by
  cases hpa : gs.pending_action with
  | none => exact apply_primary_ok gs legal a hwf hwin hpa hl ha
  | some pa =>
    obtain ⟨hnum, hlen, hcur, hrules, halive, hpend⟩ := hwf
    have hwf : WF gs := ⟨hnum, hlen, hcur, hrules, halive, hpend⟩
    rw [hpa] at hpend
    obtain ⟨hactor, htypes, htarget, hbn, hbs, hboth⟩ := hpend
    obtain ⟨ha0g, ha1g⟩ := hboth
    rcases htypes with hty | hty | hty | hty | hty
    · exact response_fa_ok gs legal a pa hnum hlen hcur hrules hwin hpa hactor hty htarget
        hbn hbs ha0g ha1g hl ha
    · exact response_tax_ok gs legal a pa hnum hlen hcur hrules hwin hpa hactor hty htarget
        hbn hbs ha0g ha1g hl ha
    · exact response_exchange_ok gs legal a pa hnum hlen hcur hrules hwin hpa hactor hty
        htarget hbn hbs ha0g ha1g hl ha
    · exact response_steal_ok gs legal a pa hnum hlen hcur hrules hwin hpa hactor hty htarget
        hbn hbs ha0g ha1g hl ha
    · exact response_assassinate_ok gs legal a pa hnum hlen hcur hrules hwin hpa hactor hty
        htarget hbn hbs ha0g ha1g hl ha

/-- Except-bind returns `ok` when both stages do. -/
theorem bind_ok_of_ok {α β : Type} (x : Except String α) (f : α → Except String β)
    (hx : ∃ a, x = .ok a) (hf : ∀ a, x = .ok a → ∃ b, f a = .ok b) :
    ∃ b, (x >>= f) = .ok b := by
  obtain ⟨a, ha⟩ := hx
  obtain ⟨b, hb⟩ := hf a ha
  exact ⟨b, by rw [ha, exceptBind_ok, hb]⟩

/-- Except-bind on an invariant-preserving first stage. -/
theorem bind_ok_wf {β : Type} (x : Except String GameState) (f : GameState → Except String β)
    (hx : ∃ gsx, x = .ok gsx ∧ WF gsx)
    (hf : ∀ gsx, WF gsx → ∃ b, f gsx = .ok b) :
    ∃ b, (x >>= f) = .ok b := by
  obtain ⟨gsx, hx1, hx2⟩ := hx
  obtain ⟨b, hb⟩ := hf gsx hx2
  exact ⟨b, by rw [hx1, exceptBind_ok, hb]⟩

/-- A sampled-mode traversal of a well-formed state below the depth cap
always succeeds, given enough fuel. -/
theorem traverse_ok (md : Nat) : ∀ (fuel : Nat) (gs : GameState) (up : Nat) (rO rU : ℚ)
    (depth : Nat) (ts : TravState), WF gs → md - depth < fuel →
    ∃ r, mccfr_traverse md "sampled" fuel gs up rO rU depth ts = .ok r := by
  intro fuel
  induction fuel with
  | zero =>
    intro gs up rO rU depth ts hwf hfu
    omega
  | succ f ih =>
    intro gs up rO rU depth ts hwf hfu
    rw [mccfr_traverse_succ]
    by_cases hdep : md ≤ depth
    · exact ⟨_, by rw [if_pos hdep]⟩
    · rw [if_neg hdep]
      by_cases hwin : gs.winner = none
      · rw [if_neg (by simp [hwin])]
        obtain ⟨legal, hl, hne⟩ := legal_actions_ok gs hwf hwin
        rw [hl]
        simp only [exceptBind_ok]
        by_cases hcu : gs.current_player = up
        · rw [if_pos hcu, if_neg (by decide : ¬(("sampled" : String) = "full"))]
          cases legal with
          | nil => exact absurd rfl hne
          | cons a0 rest =>
            have hstep : ∀ (i : Nat), i < rest.length + 1 →
                ∃ gs2, clone_and_apply gs ((a0 :: rest).getD i ⟨0, .PASS, none, 0⟩) =
                  .ok gs2 ∧ WF gs2 := by
              intro i hi
              have hm : (a0 :: rest).getD i ⟨0, .PASS, none, 0⟩ ∈ a0 :: rest := by
                rw [List.getD_eq_getElem?_getD, List.getElem?_eq_getElem (by simpa using hi)]
                simp
              exact apply_legal_ok gs (a0 :: rest) _ hwf hwin hl hm
            refine bind_ok_wf _ _ (hstep _ ?_) ?_
            · simp only [sample_from_dist, get_strategy_length, List.length_cons]
              exact Nat.mod_lt _ (by omega)
            · intro gsx hwfx
              refine bind_ok_of_ok _ _ (ih gsx up rO _ (depth + 1) _ hwfx (by omega)) ?_
              exact fun r _ => ⟨_, rfl⟩
        · rw [if_neg hcu]
          cases legal with
          | nil => exact absurd rfl hne
          | cons a0 rest =>
            have hstep : ∀ (i : Nat), i < rest.length + 1 →
                ∃ gs2, clone_and_apply gs ((a0 :: rest).getD i ⟨0, .PASS, none, 0⟩) =
                  .ok gs2 ∧ WF gs2 := by
              intro i hi
              have hm : (a0 :: rest).getD i ⟨0, .PASS, none, 0⟩ ∈ a0 :: rest := by
                rw [List.getD_eq_getElem?_getD, List.getElem?_eq_getElem (by simpa using hi)]
                simp
              exact apply_legal_ok gs (a0 :: rest) _ hwf hwin hl hm
            refine bind_ok_wf _ _ (hstep _ ?_) ?_
            · simp only [sample_from_dist, get_strategy_length, List.length_cons]
              exact Nat.mod_lt _ (by omega)
            · intro gsx hwfx
              exact ih gsx up _ rU (depth + 1) _ hwfx (by omega)
      · refine ⟨_, by rw [if_pos (by simp [hwin])]⟩

/-- C1: one iteration of the solver with max_depth 60 on a fresh two-player
game runs to completion without error, for every RNG witness stream of the
game construction and every sampling stream of the solver RNG — hence in
particular for the streams produced by seeds 123 and 42.  Every
hypothetical branch is applied to `clone()` of the state, which in this
pure-value embedding is the state value itself, sharing no mutable parts
with its origin. -/
theorem c1_iterate_succeeds (gameRng : List (List Nat)) (choices : List Nat) :
    (∃ ts', solver_iterate 60 "sampled" gameRng 1 ⟨[], choices⟩ = .ok ts') ∧
    (∀ (gs : GameState) (a : Action),
      clone_and_apply gs a = gs.clone.apply a ∧ gs.clone = gs) := by
  constructor
  · have hwf := make_WF gameRng
    obtain ⟨r0, hr0⟩ := traverse_ok 60 (60 + 1) (GameState.make 2 gameRng {}) 0 1 1 0
      ⟨[], choices⟩ hwf (by omega)
    obtain ⟨r1, hr1⟩ := traverse_ok 60 (60 + 1) (GameState.make 2 gameRng {}) 1 1 1 0 r0.2
      hwf (by omega)
    refine ⟨r1.2, ?_⟩
    rw [solver_iterate]
    rw [hr0]
    simp only [exceptBind_ok]
    rw [hr1]
    simp only [exceptBind_ok]
    rw [solver_iterate]
  · exact fun gs a => ⟨rfl, rfl⟩

/-- Witness for C8 at the spec's concrete test: player 0 holds exactly 3
coins and two Captains — a bluffed Assassin claim. -/
theorem c8_assassinate_cost_nonrefund_witness :
    (3 : Int) ≤ 3 ∧ (3 : Int) < 10 ∧ Role.ASSASSIN ∉ [Role.CAPTAIN, Role.CAPTAIN] ∧
    ∃ gs1 gs2 gs3 gs2c : GameState,
      (assassinStart 3 2 .CAPTAIN .CAPTAIN .CONTESSA [.CONTESSA] [] [] [] []
          none none none).apply ⟨0, .ASSASSINATE, some 1, 0⟩ = .ok gs1 ∧
      (gs1.playerAt 0).coins = 3 - 3 ∧
      gs1.apply ⟨1, .BLOCK_ASSASSINATE, none, 0⟩ = .ok gs2 ∧
      gs2.apply ⟨0, .PASS, none, 0⟩ = .ok gs3 ∧
      (gs3.playerAt 0).coins = 3 - 3 ∧
      gs1.apply ⟨1, .CHALLENGE, none, 0⟩ = .ok gs2c ∧
      (gs2c.playerAt 0).coins = 3 - 3 ∧
      (gs2c.playerAt 0).hand = [Role.CAPTAIN] :=
  ⟨by decide, by decide, by decide,
    c8_assassinate_cost_nonrefund 3 2 .CAPTAIN .CAPTAIN .CONTESSA [.CONTESSA] [] [] [] []
      none none none (by decide) (by decide) (by decide)⟩

end CoupGto
